import Mathlib

/-! Buy-list manager: validation and cost aggregation

A shallow embedding of the Go backend (`internal/models`, `internal/repository`,
`internal/services`, `internal/handlers`) together with theorems about product
validation, the derived total price, the three cost aggregates and the
purchase-date lifecycle.

Conventions of the embedding.

* `float64` amounts are values of an arbitrary carrier `α` equipped with exactly the
  operations the code uses (`0`, `+`, `*`, `/` and the constant `12`).  No law is assumed
  of them unless a theorem says so, hence the results hold for IEEE-754 binary64 as well
  as for exact rationals.  A sum is always the left-to-right accumulation of the Go loop.
* A Go `error` is identified with its message text; `nil` is `none`.
* A `*string` / `*time.Time` / `*Category` pointer is an `Option`.
* `time.Time` is a natural number of ticks; the zero time is `0`.
* A Go interface is a record of functions over an explicit state `σ`, every method taking
  the state and returning the new one.  A method with a pointer argument also returns the
  pointee as the callee left it.
* The store writes an amount through the rounding of its `decimal(10,2)` column, which is a
  parameter of the store as the carrier is of the amounts; the fixtures round to the nearest
  cent over the rationals.
-/

namespace BuyList

/-- A Go error value, identified with its message. -/
abbrev Error := String

/-- A `time.Time` instant. -/
abbrev Time := Nat

/-! ## internal/models -/

/-- The struct `models.Category` (field `Type` is spelt `Type_`; the has-many relation
`Subcategories` is never loaded by any query of the repository layer and is left out). -/
structure Category where
  ID : Nat
  Name : String
  Type_ : String
  CreatedAt : Time
  UpdatedAt : Time
  DeletedAt : Option Time
deriving DecidableEq, Repr

/-- The method `Category.IsValidType`. -/
def Category.IsValidType (c : Category) : Bool :=
  c.Type_ == "one_time" || c.Type_ == "recurring"

/-- The struct `models.Subcategory` (the has-many relation `Products` is never loaded and
is left out). -/
structure Subcategory where
  ID : Nat
  CategoryID : Nat
  Name : String
  CreatedAt : Time
  UpdatedAt : Time
  DeletedAt : Option Time
  Category : Option Category
deriving DecidableEq, Repr

/-- The struct `models.Product`, amounts in the carrier `α`. -/
structure Product (α : Type) where
  ID : Nat
  Name : String
  Description : String
  BasePrice : α
  ShippingCost : α
  Taxes : α
  TotalPrice : α
  SourceURL : String
  PriceDate : Option Time
  CategoryID : Nat
  SubcategoryID : Nat
  RecurrenceType : Option String
  IsPurchased : Bool
  PurchaseDate : Option Time
  Notes : String
  CreatedAt : Time
  UpdatedAt : Time
  DeletedAt : Option Time
  Category : Option Category
  Subcategory : Option Subcategory
deriving DecidableEq, Repr

/-- The GORM hook `Product.BeforeSave`: it stores the recomputed total in the product and
returns a nil error. -/
def Product.BeforeSave {α : Type} [Add α] (p : Product α) : Option Error × Product α :=
  (none, { p with TotalPrice := p.BasePrice + p.ShippingCost + p.Taxes })

/-- The method `Product.IsValidRecurrenceType`. -/
def Product.IsValidRecurrenceType {α : Type} (p : Product α) : Bool :=
  match p.RecurrenceType with
  | none => true
  | some r => r == "monthly" || r == "yearly"

/-! ## internal/repository: the interfaces -/

/-- The interface `repository.CategoryRepository`. -/
structure CategoryRepository (σ : Type) where
  Create : Category → σ → (Option Error × Category) × σ
  FindByID : Nat → σ → Except Error Category × σ
  FindAll : σ → Except Error (List Category) × σ
  Update : Category → σ → (Option Error × Category) × σ
  Delete : Nat → σ → Option Error × σ

/-- The interface `repository.SubcategoryRepository`. -/
structure SubcategoryRepository (σ : Type) where
  Create : Subcategory → σ → (Option Error × Subcategory) × σ
  FindByID : Nat → σ → Except Error Subcategory × σ
  FindAll : σ → Except Error (List Subcategory) × σ
  FindByCategoryID : Nat → σ → Except Error (List Subcategory) × σ
  Update : Subcategory → σ → (Option Error × Subcategory) × σ
  Delete : Nat → σ → Option Error × σ

/-- The interface `repository.ProductRepository`. -/
structure ProductRepository (σ α : Type) where
  Create : Product α → σ → (Option Error × Product α) × σ
  FindByID : Nat → σ → Except Error (Product α) × σ
  FindAll : σ → Except Error (List (Product α)) × σ
  FindByCategoryID : Nat → σ → Except Error (List (Product α)) × σ
  FindBySubcategoryID : Nat → σ → Except Error (List (Product α)) × σ
  FindPending : σ → Except Error (List (Product α)) × σ
  Update : Product α → σ → (Option Error × Product α) × σ
  Delete : Nat → σ → Option Error × σ

/-! ## internal/services -/

/-- The struct `services.productService`. -/
structure productService (σ α : Type) where
  productRepo : ProductRepository σ α
  categoryRepo : CategoryRepository σ
  subcategoryRepo : SubcategoryRepository σ

/-- The method `productService.CreateProduct`: both lookups, then the coherence check
between `category.Type` and `recurrence_type`, then `productRepo.Create`. -/
def productService.CreateProduct {σ α : Type} (s : productService σ α)
    (product : Product α) (st : σ) : (Option Error × Product α) × σ :=
  match s.categoryRepo.FindByID product.CategoryID st with
  | (Except.error _, st1) => ((some "category not found", product), st1)
  | (Except.ok category, st1) =>
    match s.subcategoryRepo.FindByID product.SubcategoryID st1 with
    | (Except.error _, st2) => ((some "subcategory not found", product), st2)
    | (Except.ok _, st2) =>
      if category.Type_ = "one_time" then
        if product.RecurrenceType ≠ none then
          ((some "one-time purchases cannot have recurrence type", product), st2)
        else s.productRepo.Create product st2
      else if category.Type_ = "recurring" then
        match product.RecurrenceType with
        | none => ((some "recurring purchases must have recurrence type", product), st2)
        | some r =>
          if r ≠ "monthly" ∧ r ≠ "yearly" then
            ((some "recurrence type must be 'monthly' or 'yearly'", product), st2)
          else s.productRepo.Create product st2
      else s.productRepo.Create product st2

/-- The loop body of `GetTotalPendingCost`: one-time products add their total. -/
def pendingStep {α : Type} [Add α] (total : α) (product : Product α) : α :=
  match product.Category with
  | some c => if c.Type_ = "one_time" then total + product.TotalPrice else total
  | none => total

/-- The method `productService.GetTotalPendingCost`. -/
def productService.GetTotalPendingCost {σ α : Type} [Zero α] [Add α]
    (s : productService σ α) (st : σ) : Except Error α × σ :=
  match s.productRepo.FindPending st with
  | (Except.error err, st1) => (Except.error err, st1)
  | (Except.ok products, st1) => (Except.ok (products.foldl pendingStep 0), st1)

/-- The loop body of `GetMonthlyRecurringCost`. -/
def monthlyStep {α : Type} [Add α] [Div α] [OfNat α 12] (total : α) (product : Product α) : α :=
  match product.Category, product.RecurrenceType with
  | some c, some r =>
    if c.Type_ = "recurring" then
      if r = "monthly" then total + product.TotalPrice
      else if r = "yearly" then total + product.TotalPrice / 12
      else total
    else total
  | _, _ => total

/-- The method `productService.GetMonthlyRecurringCost`. -/
def productService.GetMonthlyRecurringCost {σ α : Type} [Zero α] [Add α] [Div α] [OfNat α 12]
    (s : productService σ α) (st : σ) : Except Error α × σ :=
  match s.productRepo.FindAll st with
  | (Except.error err, st1) => (Except.error err, st1)
  | (Except.ok allProducts, st1) => (Except.ok (allProducts.foldl monthlyStep 0), st1)

/-- The loop body of `GetYearlyRecurringCost`. -/
def yearlyStep {α : Type} [Add α] [Mul α] [OfNat α 12] (total : α) (product : Product α) : α :=
  match product.Category, product.RecurrenceType with
  | some c, some r =>
    if c.Type_ = "recurring" then
      if r = "yearly" then total + product.TotalPrice
      else if r = "monthly" then total + product.TotalPrice * 12
      else total
    else total
  | _, _ => total

/-- The method `productService.GetYearlyRecurringCost`. -/
def productService.GetYearlyRecurringCost {σ α : Type} [Zero α] [Add α] [Mul α] [OfNat α 12]
    (s : productService σ α) (st : σ) : Except Error α × σ :=
  match s.productRepo.FindAll st with
  | (Except.error err, st1) => (Except.error err, st1)
  | (Except.ok allProducts, st1) => (Except.ok (allProducts.foldl yearlyStep 0), st1)

/-! ## The store behind `*gorm.DB`

The relational store is external to the repository: it is modelled by its three tables,
by the error every statement currently fails with (`fault`, `none` when the store is
reachable) and by the clock GORM stamps rows with.  Rows hold columns only, so the
relation fields of a stored row are `none`; a query fills them in when it preloads.
A write stores the columns of the struct: every amount goes through the rounding of its
`decimal(10,2)` column (`decimal`), each amount separately, and before the write GORM sets
the foreign keys of the struct from the relations it has loaded.  The relations themselves
are rows that exist already in every write the handlers make, so saving them changes
nothing.  Column sizes, the range of a `decimal(10,2)` column and foreign-key constraints are
not modelled: a write the store is reachable for succeeds, as it does for every row that
passes them. -/

/-- The state of the store. -/
structure DB (α : Type) where
  categories : List Category
  subcategories : List Subcategory
  products : List (Product α)
  fault : Option Error
  clock : Time
  decimal : α → α

/-- The sentinel `gorm.ErrRecordNotFound`. -/
def ErrRecordNotFound : Error := "record not found"

/-- The error PostgreSQL raises for an insert under a primary key that is in use. -/
def duplicateKeyError (table : String) : Error :=
  "ERROR: duplicate key value violates unique constraint \"" ++ table
    ++ "_pkey\" (SQLSTATE 23505)"

/-- The statement `First(&row, id)` on a soft-delete table: the live row with that key. -/
def gormFirst {ρ : Type} (fault : Option Error) (rows : List ρ) (pk : ρ → Nat)
    (deletedAt : ρ → Option Time) (id : Nat) : Except Error ρ :=
  match fault with
  | some err => Except.error err
  | none =>
    match (rows.filter (fun r => (deletedAt r).isNone)).find? (fun r => pk r == id) with
    | some r => Except.ok r
    | none => Except.error ErrRecordNotFound

/-- The statement `Where(cond).Find(&rows)` on a soft-delete table: the live rows that
satisfy the condition. -/
def gormFind {ρ : Type} (fault : Option Error) (rows : List ρ)
    (deletedAt : ρ → Option Time) (cond : ρ → Bool) : Except Error (List ρ) :=
  match fault with
  | some err => Except.error err
  | none => Except.ok (rows.filter (fun r => (deletedAt r).isNone && cond r))

/-- The key an auto-increment column gives the next inserted row. -/
def nextID (ids : List Nat) : Nat := ids.foldl max 0 + 1

/-- The rows of a table after `Save` wrote row `r`: the live row with its key is
overwritten; without one the row is upserted. -/
def saveRow {ρ : Type} (rows : List ρ) (pk : ρ → Nat) (deletedAt : ρ → Option Time)
    (r : ρ) : List ρ :=
  if rows.any (fun x => (deletedAt x).isNone && pk x == pk r) then
    rows.map (fun x => if (deletedAt x).isNone && pk x == pk r then r else x)
  else if rows.any (fun x => pk x == pk r) then
    rows.map (fun x => if pk x == pk r then r else x)
  else rows ++ [r]

/-- The clause `Order("created_at DESC")` on product rows. -/
def orderByCreatedAtDesc {α : Type} (rows : List (Product α)) : List (Product α) :=
  rows.insertionSort (fun a b => b.CreatedAt ≤ a.CreatedAt)

/-- The clause `Preload("Category")` for one subcategory. -/
def DB.preloadSubcategory {α : Type} (db : DB α) (s : Subcategory) : Subcategory :=
  { s with Category := (gormFirst none db.categories Category.ID Category.DeletedAt
      s.CategoryID).toOption }

/-- The clauses `Preload("Category").Preload("Subcategory")` for one product. -/
def DB.preloadProduct {α : Type} (db : DB α) (p : Product α) : Product α :=
  { p with
    Category := (gormFirst none db.categories Category.ID Category.DeletedAt
      p.CategoryID).toOption
    Subcategory := (gormFirst none db.subcategories Subcategory.ID Subcategory.DeletedAt
      p.SubcategoryID).toOption }

/-- A time stamp column that GORM fills in only when it holds the zero time. -/
def stampIfZero (t now : Time) : Time := if t = 0 then now else t

/-! ## internal/repository: the GORM implementations -/

/-- The method `categoryRepository.Create`. -/
def categoryRepository.Create {α : Type} (category : Category) (db : DB α) :
    (Option Error × Category) × DB α :=
  match db.fault with
  | some err => ((some err, category), db)
  | none =>
    let row : Category := { category with
      ID := if category.ID = 0 then nextID (db.categories.map Category.ID) else category.ID
      CreatedAt := stampIfZero category.CreatedAt db.clock
      UpdatedAt := stampIfZero category.UpdatedAt db.clock }
    if category.ID ≠ 0 ∧ category.ID ∈ db.categories.map Category.ID then
      ((some (duplicateKeyError "categories"), category), db)
    else ((none, row), { db with categories := db.categories ++ [row] })

/-- The method `categoryRepository.FindByID`. -/
def categoryRepository.FindByID {α : Type} (id : Nat) (db : DB α) :
    Except Error Category × DB α :=
  match gormFirst db.fault db.categories Category.ID Category.DeletedAt id with
  | Except.error err =>
    if err = ErrRecordNotFound then (Except.error "category not found", db)
    else (Except.error err, db)
  | Except.ok category => (Except.ok category, db)

/-- The method `categoryRepository.FindAll`. -/
def categoryRepository.FindAll {α : Type} (db : DB α) :
    Except Error (List Category) × DB α :=
  match gormFind db.fault db.categories Category.DeletedAt (fun _ => true) with
  | Except.error err => (Except.error err, db)
  | Except.ok categories => (Except.ok categories, db)

/-- The method `categoryRepository.Update`. -/
def categoryRepository.Update {α : Type} (category : Category) (db : DB α) :
    (Option Error × Category) × DB α :=
  match db.fault with
  | some err => ((some err, category), db)
  | none =>
    if category.ID = 0 then categoryRepository.Create category db
    else
      let row : Category := { category with UpdatedAt := db.clock }
      ((none, row),
        { db with categories := saveRow db.categories Category.ID Category.DeletedAt row })

/-- The method `categoryRepository.Delete` (a soft delete). -/
def categoryRepository.Delete {α : Type} (id : Nat) (db : DB α) : Option Error × DB α :=
  match db.fault with
  | some err => (some err, db)
  | none =>
    let hit : Category → Bool := fun c => c.DeletedAt.isNone && c.ID == id
    let rows := db.categories.map
      (fun c => if hit c then { c with DeletedAt := some db.clock } else c)
    let db1 : DB α := { db with categories := rows }
    if (db.categories.filter hit).length = 0 then (some "category not found", db1)
    else (none, db1)

/-- The constructor `NewCategoryRepository`. -/
def NewCategoryRepository {α : Type} : CategoryRepository (DB α) where
  Create := categoryRepository.Create
  FindByID := categoryRepository.FindByID
  FindAll := categoryRepository.FindAll
  Update := categoryRepository.Update
  Delete := categoryRepository.Delete

/-- The subcategory as GORM leaves it before a write: the foreign key of a loaded category is
set to the key of that category. -/
def Subcategory.syncKeys (s : Subcategory) : Subcategory :=
  { s with
    CategoryID := match s.Category with
      | some c => c.ID
      | none => s.CategoryID }

/-- The method `subcategoryRepository.Create`. -/
def subcategoryRepository.Create {α : Type} (subcategory : Subcategory) (db : DB α) :
    (Option Error × Subcategory) × DB α :=
  match db.fault with
  | some err => ((some err, subcategory), db)
  | none =>
    let row : Subcategory := { subcategory.syncKeys with
      ID := if subcategory.ID = 0 then nextID (db.subcategories.map Subcategory.ID)
            else subcategory.ID
      CreatedAt := stampIfZero subcategory.CreatedAt db.clock
      UpdatedAt := stampIfZero subcategory.UpdatedAt db.clock }
    if subcategory.ID ≠ 0 ∧ subcategory.ID ∈ db.subcategories.map Subcategory.ID then
      ((some (duplicateKeyError "subcategories"), subcategory), db)
    else
      ((none, row), { db with subcategories := db.subcategories ++ [{ row with Category := none }] })

/-- The method `subcategoryRepository.FindByID`. -/
def subcategoryRepository.FindByID {α : Type} (id : Nat) (db : DB α) :
    Except Error Subcategory × DB α :=
  match gormFirst db.fault db.subcategories Subcategory.ID Subcategory.DeletedAt id with
  | Except.error err =>
    if err = ErrRecordNotFound then (Except.error "subcategory not found", db)
    else (Except.error err, db)
  | Except.ok subcategory => (Except.ok (db.preloadSubcategory subcategory), db)

/-- The method `subcategoryRepository.FindAll`. -/
def subcategoryRepository.FindAll {α : Type} (db : DB α) :
    Except Error (List Subcategory) × DB α :=
  match gormFind db.fault db.subcategories Subcategory.DeletedAt (fun _ => true) with
  | Except.error err => (Except.error err, db)
  | Except.ok subcategories => (Except.ok (subcategories.map db.preloadSubcategory), db)

/-- The method `subcategoryRepository.FindByCategoryID`. -/
def subcategoryRepository.FindByCategoryID {α : Type} (categoryID : Nat) (db : DB α) :
    Except Error (List Subcategory) × DB α :=
  match gormFind db.fault db.subcategories Subcategory.DeletedAt
      (fun s => s.CategoryID == categoryID) with
  | Except.error err => (Except.error err, db)
  | Except.ok subcategories => (Except.ok subcategories, db)

/-- The method `subcategoryRepository.Update`. -/
def subcategoryRepository.Update {α : Type} (subcategory : Subcategory) (db : DB α) :
    (Option Error × Subcategory) × DB α :=
  match db.fault with
  | some err => ((some err, subcategory), db)
  | none =>
    if subcategory.ID = 0 then subcategoryRepository.Create subcategory db
    else
      let row : Subcategory := { subcategory.syncKeys with UpdatedAt := db.clock }
      let rows := saveRow db.subcategories Subcategory.ID Subcategory.DeletedAt
        { row with Category := none }
      ((none, row), { db with subcategories := rows })

/-- The method `subcategoryRepository.Delete` (a soft delete). -/
def subcategoryRepository.Delete {α : Type} (id : Nat) (db : DB α) : Option Error × DB α :=
  match db.fault with
  | some err => (some err, db)
  | none =>
    let hit : Subcategory → Bool := fun s => s.DeletedAt.isNone && s.ID == id
    let rows := db.subcategories.map
      (fun s => if hit s then { s with DeletedAt := some db.clock } else s)
    let db1 : DB α := { db with subcategories := rows }
    if (db.subcategories.filter hit).length = 0 then (some "subcategory not found", db1)
    else (none, db1)

/-- The constructor `NewSubcategoryRepository`. -/
def NewSubcategoryRepository {α : Type} : SubcategoryRepository (DB α) where
  Create := subcategoryRepository.Create
  FindByID := subcategoryRepository.FindByID
  FindAll := subcategoryRepository.FindAll
  FindByCategoryID := subcategoryRepository.FindByCategoryID
  Update := subcategoryRepository.Update
  Delete := subcategoryRepository.Delete

/-- The columns of a product: the struct without its relations. -/
def Product.columns {α : Type} (p : Product α) : Product α :=
  { p with Category := none, Subcategory := none }

/-- The product as GORM leaves it before a write: the foreign key of a relation that is
loaded is set to the key of that relation. -/
def Product.syncKeys {α : Type} (p : Product α) : Product α :=
  { p with
    CategoryID := match p.Category with
      | some c => c.ID
      | none => p.CategoryID
    SubcategoryID := match p.Subcategory with
      | some sc => sc.ID
      | none => p.SubcategoryID }

/-- The row the products table keeps for a struct: its columns, every amount as rounded by
its `decimal(10,2)` column. -/
def DB.productRow {α : Type} (db : DB α) (p : Product α) : Product α :=
  { p.columns with
    BasePrice := db.decimal p.BasePrice
    ShippingCost := db.decimal p.ShippingCost
    Taxes := db.decimal p.Taxes
    TotalPrice := db.decimal p.TotalPrice }

/-- The method `productRepository.Create`: GORM runs the `BeforeSave` hook on the struct,
sets its foreign keys from the loaded relations and inserts the row. -/
def productRepository.Create {α : Type} [Add α] (product : Product α) (db : DB α) :
    (Option Error × Product α) × DB α :=
  match product.BeforeSave with
  | (some err, p1) => ((some err, p1), db)
  | (none, p1) =>
    match db.fault with
    | some err => ((some err, p1), db)
    | none =>
      let p2 : Product α := { p1.syncKeys with
        ID := if p1.ID = 0 then nextID (db.products.map Product.ID) else p1.ID
        CreatedAt := stampIfZero p1.CreatedAt db.clock
        UpdatedAt := stampIfZero p1.UpdatedAt db.clock }
      if p1.ID ≠ 0 ∧ p1.ID ∈ db.products.map Product.ID then
        ((some (duplicateKeyError "products"), p1), db)
      else ((none, p2), { db with products := db.products ++ [db.productRow p2] })

/-- The method `productRepository.FindByID`. -/
def productRepository.FindByID {α : Type} (id : Nat) (db : DB α) :
    Except Error (Product α) × DB α :=
  match gormFirst db.fault db.products Product.ID Product.DeletedAt id with
  | Except.error err =>
    if err = ErrRecordNotFound then (Except.error "product not found", db)
    else (Except.error err, db)
  | Except.ok product => (Except.ok (db.preloadProduct product), db)

/-- The method `productRepository.FindAll`. -/
def productRepository.FindAll {α : Type} (db : DB α) :
    Except Error (List (Product α)) × DB α :=
  match gormFind db.fault db.products Product.DeletedAt (fun _ => true) with
  | Except.error err => (Except.error err, db)
  | Except.ok products => (Except.ok ((orderByCreatedAtDesc products).map db.preloadProduct), db)

/-- The method `productRepository.FindByCategoryID`. -/
def productRepository.FindByCategoryID {α : Type} (categoryID : Nat) (db : DB α) :
    Except Error (List (Product α)) × DB α :=
  match gormFind db.fault db.products Product.DeletedAt
      (fun p => p.CategoryID == categoryID) with
  | Except.error err => (Except.error err, db)
  | Except.ok products => (Except.ok ((orderByCreatedAtDesc products).map db.preloadProduct), db)

/-- The method `productRepository.FindBySubcategoryID`. -/
def productRepository.FindBySubcategoryID {α : Type} (subcategoryID : Nat) (db : DB α) :
    Except Error (List (Product α)) × DB α :=
  match gormFind db.fault db.products Product.DeletedAt
      (fun p => p.SubcategoryID == subcategoryID) with
  | Except.error err => (Except.error err, db)
  | Except.ok products => (Except.ok ((orderByCreatedAtDesc products).map db.preloadProduct), db)

/-- The method `productRepository.FindPending`: the rows with `is_purchased = false`. -/
def productRepository.FindPending {α : Type} (db : DB α) :
    Except Error (List (Product α)) × DB α :=
  match gormFind db.fault db.products Product.DeletedAt
      (fun p => p.IsPurchased == false) with
  | Except.error err => (Except.error err, db)
  | Except.ok products => (Except.ok ((orderByCreatedAtDesc products).map db.preloadProduct), db)

/-- The method `productRepository.Update`: GORM runs the `BeforeSave` hook on the struct,
sets its foreign keys from the loaded relations and saves every column of the row. -/
def productRepository.Update {α : Type} [Add α] (product : Product α) (db : DB α) :
    (Option Error × Product α) × DB α :=
  match product.BeforeSave with
  | (some err, p1) => ((some err, p1), db)
  | (none, p1) =>
    match db.fault with
    | some err => ((some err, p1), db)
    | none =>
      if p1.ID = 0 then productRepository.Create p1 db
      else
        let p2 : Product α := { p1.syncKeys with UpdatedAt := db.clock }
        let rows := saveRow db.products Product.ID Product.DeletedAt (db.productRow p2)
        ((none, p2), { db with products := rows })

/-- The method `productRepository.Delete` (a soft delete). -/
def productRepository.Delete {α : Type} (id : Nat) (db : DB α) : Option Error × DB α :=
  match db.fault with
  | some err => (some err, db)
  | none =>
    let hit : Product α → Bool := fun p => p.DeletedAt.isNone && p.ID == id
    let rows := db.products.map
      (fun p => if hit p then { p with DeletedAt := some db.clock } else p)
    let db1 : DB α := { db with products := rows }
    if (db.products.filter hit).length = 0 then (some "product not found", db1)
    else (none, db1)

/-- The constructor `NewProductRepository`. -/
def NewProductRepository {α : Type} [Add α] : ProductRepository (DB α) α where
  Create := productRepository.Create
  FindByID := productRepository.FindByID
  FindAll := productRepository.FindAll
  FindByCategoryID := productRepository.FindByCategoryID
  FindBySubcategoryID := productRepository.FindBySubcategoryID
  FindPending := productRepository.FindPending
  Update := productRepository.Update
  Delete := productRepository.Delete

/-! ## internal/services: the interface and its constructor -/

/-- The interface `services.ProductService`. -/
structure ProductService (σ α : Type) where
  CreateProduct : Product α → σ → (Option Error × Product α) × σ
  GetTotalPendingCost : σ → Except Error α × σ
  GetMonthlyRecurringCost : σ → Except Error α × σ
  GetYearlyRecurringCost : σ → Except Error α × σ

/-- The constructor `NewProductService`. -/
def NewProductService {σ α : Type} [Zero α] [Add α] [Mul α] [Div α] [OfNat α 12]
    (productRepo : ProductRepository σ α) (categoryRepo : CategoryRepository σ)
    (subcategoryRepo : SubcategoryRepository σ) : ProductService σ α :=
  let s : productService σ α :=
    { productRepo := productRepo, categoryRepo := categoryRepo,
      subcategoryRepo := subcategoryRepo }
  { CreateProduct := s.CreateProduct
    GetTotalPendingCost := s.GetTotalPendingCost
    GetMonthlyRecurringCost := s.GetMonthlyRecurringCost
    GetYearlyRecurringCost := s.GetYearlyRecurringCost }

/-! ## internal/handlers: products -/

/-- The JSON document a handler writes. -/
inductive Body (α : Type) where
  | error (message : String)
  | product (p : Product α)
  | products (ps : List (Product α))
  | stats (total_pending_one_time monthly_recurring_cost yearly_recurring_cost : α)
  | empty
deriving DecidableEq, Repr

/-- The HTTP response of a handler. -/
structure Response (α : Type) where
  status : Nat
  body : Body α
deriving DecidableEq, Repr

/-- The call `strconv.ParseUint(s, 10, bitSize)`: a non-empty string of decimal digits whose
value fits in `bitSize` bits. -/
def ParseUint (s : String) (bitSize : Nat) : Option Nat :=
  let cs := s.toList
  if cs.isEmpty then none
  else if cs.all Char.isDigit then
    let n := cs.foldl (fun acc c => 10 * acc + (c.toNat - 48)) 0
    if n < 2 ^ bitSize then some n else none
  else none

/-- The struct `handlers.ProductHandler`. -/
structure ProductHandler (σ α : Type) where
  repo : ProductRepository σ α
  service : ProductService σ α

/-- The constructor `NewProductHandler`. -/
def NewProductHandler {σ α : Type} (repo : ProductRepository σ α)
    (service : ProductService σ α) : ProductHandler σ α :=
  { repo := repo, service := service }

/-- The struct `handlers.UpdateProductRequest`. -/
structure UpdateProductRequest (α : Type) where
  Name : String
  Description : String
  BasePrice : α
  ShippingCost : α
  Taxes : α
  SourceURL : String
  CategoryID : Nat
  SubcategoryID : Nat
  RecurrenceType : Option String
  IsPurchased : Bool
  Notes : String
deriving DecidableEq, Repr

/-- The field assignments of `ProductHandler.Update` and its purchase-date rule, applied to
the product that was looked up. -/
def applyUpdate {α : Type} (product : Product α) (req : UpdateProductRequest α)
    (now : Time) : Product α :=
  let product : Product α := { product with
    Name := req.Name
    Description := req.Description
    BasePrice := req.BasePrice
    ShippingCost := req.ShippingCost
    Taxes := req.Taxes
    SourceURL := req.SourceURL
    CategoryID := req.CategoryID
    SubcategoryID := req.SubcategoryID
    RecurrenceType := req.RecurrenceType
    IsPurchased := req.IsPurchased
    Notes := req.Notes }
  if req.IsPurchased && product.PurchaseDate.isNone then
    { product with PurchaseDate := some now }
  else product

/-- The handler `ProductHandler.Update`, given the `:id` path parameter, the outcome of
`BodyParser` (`none` when the body does not parse) and the reading of `time.Now()`. -/
def ProductHandler.Update {σ α : Type} (h : ProductHandler σ α) (idParam : String)
    (body : Option (UpdateProductRequest α)) (now : Time) (st : σ) : Response α × σ :=
  match ParseUint idParam 32 with
  | none => ({ status := 400, body := Body.error "Invalid product ID" }, st)
  | some id =>
    match h.repo.FindByID id st with
    | (Except.error _, st1) => ({ status := 404, body := Body.error "Product not found" }, st1)
    | (Except.ok product, st1) =>
      match body with
      | none => ({ status := 400, body := Body.error "Invalid request body" }, st1)
      | some req =>
        match h.repo.Update (applyUpdate product req now) st1 with
        | ((some _, _), st2) =>
          ({ status := 500, body := Body.error "Failed to update product" }, st2)
        | ((none, product), st2) => ({ status := 200, body := Body.product product }, st2)

/-- The handler `ProductHandler.GetStats`. -/
def ProductHandler.GetStats {σ α : Type} (h : ProductHandler σ α) (st : σ) :
    Response α × σ :=
  match h.service.GetTotalPendingCost st with
  | (Except.error _, st1) =>
    ({ status := 500, body := Body.error "Failed to calculate statistics" }, st1)
  | (Except.ok totalPending, st1) =>
    match h.service.GetMonthlyRecurringCost st1 with
    | (Except.error _, st2) =>
      ({ status := 500, body := Body.error "Failed to calculate statistics" }, st2)
    | (Except.ok monthlyCost, st2) =>
      match h.service.GetYearlyRecurringCost st2 with
      | (Except.error _, st3) =>
        ({ status := 500, body := Body.error "Failed to calculate statistics" }, st3)
      | (Except.ok yearlyCost, st3) =>
        ({ status := 200, body := Body.stats totalPending monthlyCost yearlyCost }, st3)

/-- The wiring of `main`: the three GORM repositories, the service and the product handler
over one store. -/
def productHandler {α : Type} [Zero α] [Add α] [Mul α] [Div α] [OfNat α 12] :
    ProductHandler (DB α) α :=
  NewProductHandler NewProductRepository
    (NewProductService NewProductRepository NewCategoryRepository NewSubcategoryRepository)

/-- The handler `ProductHandler.GetAll`, given the query parameters `category_id`,
`subcategory_id` and `pending` (the empty string when a parameter is absent). -/
def ProductHandler.GetAll {σ α : Type} (h : ProductHandler σ α)
    (categoryIDStr subcategoryIDStr pendingStr : String) (st : σ) : Response α × σ :=
  if pendingStr = "true" then
    match h.repo.FindPending st with
    | (Except.error _, st1) =>
      ({ status := 500, body := Body.error "Failed to fetch products" }, st1)
    | (Except.ok products, st1) => ({ status := 200, body := Body.products products }, st1)
  else if categoryIDStr ≠ "" then
    match ParseUint categoryIDStr 32 with
    | none => ({ status := 400, body := Body.error "Invalid category_id parameter" }, st)
    | some categoryID =>
      match h.repo.FindByCategoryID categoryID st with
      | (Except.error _, st1) =>
        ({ status := 500, body := Body.error "Failed to fetch products" }, st1)
      | (Except.ok products, st1) => ({ status := 200, body := Body.products products }, st1)
  else if subcategoryIDStr ≠ "" then
    match ParseUint subcategoryIDStr 32 with
    | none => ({ status := 400, body := Body.error "Invalid subcategory_id parameter" }, st)
    | some subcategoryID =>
      match h.repo.FindBySubcategoryID subcategoryID st with
      | (Except.error _, st1) =>
        ({ status := 500, body := Body.error "Failed to fetch products" }, st1)
      | (Except.ok products, st1) => ({ status := 200, body := Body.products products }, st1)
  else
    match h.repo.FindAll st with
    | (Except.error _, st1) =>
      ({ status := 500, body := Body.error "Failed to fetch products" }, st1)
    | (Except.ok products, st1) => ({ status := 200, body := Body.products products }, st1)

/-- The handler `ProductHandler.GetByID`, given the `:id` path parameter. -/
def ProductHandler.GetByID {σ α : Type} (h : ProductHandler σ α) (idParam : String)
    (st : σ) : Response α × σ :=
  match ParseUint idParam 32 with
  | none => ({ status := 400, body := Body.error "Invalid product ID" }, st)
  | some id =>
    match h.repo.FindByID id st with
    | (Except.error _, st1) => ({ status := 404, body := Body.error "Product not found" }, st1)
    | (Except.ok product, st1) => ({ status := 200, body := Body.product product }, st1)

/-- The struct `handlers.CreateProductRequest`.  Its `validate` tags are read by no code of
the repository. -/
structure CreateProductRequest (α : Type) where
  Name : String
  Description : String
  BasePrice : α
  ShippingCost : α
  Taxes : α
  SourceURL : String
  CategoryID : Nat
  SubcategoryID : Nat
  RecurrenceType : Option String
  Notes : String
deriving DecidableEq, Repr

/-- The product `ProductHandler.Create` builds from a request at time `now`; the fields the
struct literal does not name hold their zero values. -/
def productOfRequest {α : Type} [Zero α] (req : CreateProductRequest α) (now : Time) :
    Product α :=
  { ID := 0
    Name := req.Name
    Description := req.Description
    BasePrice := req.BasePrice
    ShippingCost := req.ShippingCost
    Taxes := req.Taxes
    TotalPrice := 0
    SourceURL := req.SourceURL
    PriceDate := some now
    CategoryID := req.CategoryID
    SubcategoryID := req.SubcategoryID
    RecurrenceType := req.RecurrenceType
    IsPurchased := false
    PurchaseDate := none
    Notes := req.Notes
    CreatedAt := 0
    UpdatedAt := 0
    DeletedAt := none
    Category := none
    Subcategory := none }

/-- The handler `ProductHandler.Create`, given the outcome of `BodyParser` (`none` when the
body does not parse) and the reading of `time.Now()`. -/
def ProductHandler.Create {σ α : Type} [Zero α] (h : ProductHandler σ α)
    (body : Option (CreateProductRequest α)) (now : Time) (st : σ) : Response α × σ :=
  match body with
  | none => ({ status := 400, body := Body.error "Invalid request body" }, st)
  | some req =>
    match h.service.CreateProduct (productOfRequest req now) st with
    | ((some err, _), st1) => ({ status := 400, body := Body.error err }, st1)
    | ((none, product), st1) => ({ status := 201, body := Body.product product }, st1)

/-- The handler `ProductHandler.Delete`, given the `:id` path parameter. -/
def ProductHandler.Delete {σ α : Type} (h : ProductHandler σ α) (idParam : String)
    (st : σ) : Response α × σ :=
  match ParseUint idParam 32 with
  | none => ({ status := 400, body := Body.error "Invalid product ID" }, st)
  | some id =>
    match h.repo.Delete id st with
    | (some _, st1) => ({ status := 404, body := Body.error "Product not found" }, st1)
    | (none, st1) => ({ status := 204, body := Body.empty }, st1)

/-- The product handler of a service struct: `NewProductHandler` over its product repository
and `NewProductService` over its three repositories. -/
def productService.handler {σ α : Type} [Zero α] [Add α] [Mul α] [Div α] [OfNat α 12]
    (s : productService σ α) : ProductHandler σ α :=
  NewProductHandler s.productRepo
    (NewProductService s.productRepo s.categoryRepo s.subcategoryRepo)

/-! ## internal/handlers: categories and subcategories -/

/-- The JSON document a category or subcategory handler writes. -/
inductive TaxonomyBody where
  | error (message : String)
  | category (c : Category)
  | categories (cs : List Category)
  | subcategory (s : Subcategory)
  | subcategories (ss : List Subcategory)
  | empty
deriving DecidableEq, Repr

/-- The HTTP response of a category or subcategory handler. -/
structure TaxonomyResponse where
  status : Nat
  body : TaxonomyBody
deriving DecidableEq, Repr

/-- The struct `handlers.CategoryHandler`. -/
structure CategoryHandler (σ : Type) where
  repo : CategoryRepository σ

/-- The constructor `NewCategoryHandler`. -/
def NewCategoryHandler {σ : Type} (repo : CategoryRepository σ) : CategoryHandler σ :=
  { repo := repo }

/-- The handler `CategoryHandler.GetAll`. -/
def CategoryHandler.GetAll {σ : Type} (h : CategoryHandler σ) (st : σ) :
    TaxonomyResponse × σ :=
  match h.repo.FindAll st with
  | (Except.error _, st1) =>
    ({ status := 500, body := TaxonomyBody.error "Failed to fetch categories" }, st1)
  | (Except.ok categories, st1) =>
    ({ status := 200, body := TaxonomyBody.categories categories }, st1)

/-- The handler `CategoryHandler.GetByID`. -/
def CategoryHandler.GetByID {σ : Type} (h : CategoryHandler σ) (idParam : String) (st : σ) :
    TaxonomyResponse × σ :=
  match ParseUint idParam 32 with
  | none => ({ status := 400, body := TaxonomyBody.error "Invalid category ID" }, st)
  | some id =>
    match h.repo.FindByID id st with
    | (Except.error _, st1) =>
      ({ status := 404, body := TaxonomyBody.error "Category not found" }, st1)
    | (Except.ok category, st1) =>
      ({ status := 200, body := TaxonomyBody.category category }, st1)

/-- The struct `handlers.CreateCategoryRequest`. -/
structure CreateCategoryRequest where
  Name : String
  Type_ : String
deriving DecidableEq, Repr

/-- The handler `CategoryHandler.Create`, given the outcome of `BodyParser`. -/
def CategoryHandler.Create {σ : Type} (h : CategoryHandler σ)
    (body : Option CreateCategoryRequest) (st : σ) : TaxonomyResponse × σ :=
  match body with
  | none => ({ status := 400, body := TaxonomyBody.error "Invalid request body" }, st)
  | some req =>
    if req.Type_ ≠ "one_time" ∧ req.Type_ ≠ "recurring" then
      ({ status := 400,
         body := TaxonomyBody.error
           "Invalid category type. Must be 'one_time' or 'recurring'" }, st)
    else
      match h.repo.Create
          { ID := 0, Name := req.Name, Type_ := req.Type_, CreatedAt := 0, UpdatedAt := 0,
            DeletedAt := none } st with
      | ((some _, _), st1) =>
        ({ status := 500, body := TaxonomyBody.error "Failed to create category" }, st1)
      | ((none, category), st1) =>
        ({ status := 201, body := TaxonomyBody.category category }, st1)

/-- The struct `handlers.UpdateCategoryRequest`. -/
structure UpdateCategoryRequest where
  Name : String
  Type_ : String
deriving DecidableEq, Repr

/-- The handler `CategoryHandler.Update`, given the `:id` path parameter and the outcome of
`BodyParser`. -/
def CategoryHandler.Update {σ : Type} (h : CategoryHandler σ) (idParam : String)
    (body : Option UpdateCategoryRequest) (st : σ) : TaxonomyResponse × σ :=
  match ParseUint idParam 32 with
  | none => ({ status := 400, body := TaxonomyBody.error "Invalid category ID" }, st)
  | some id =>
    match h.repo.FindByID id st with
    | (Except.error _, st1) =>
      ({ status := 404, body := TaxonomyBody.error "Category not found" }, st1)
    | (Except.ok category, st1) =>
      match body with
      | none => ({ status := 400, body := TaxonomyBody.error "Invalid request body" }, st1)
      | some req =>
        if req.Type_ ≠ "one_time" ∧ req.Type_ ≠ "recurring" then
          ({ status := 400,
             body := TaxonomyBody.error
               "Invalid category type. Must be 'one_time' or 'recurring'" }, st1)
        else
          match h.repo.Update { category with Name := req.Name, Type_ := req.Type_ } st1 with
          | ((some _, _), st2) =>
            ({ status := 500, body := TaxonomyBody.error "Failed to update category" }, st2)
          | ((none, category), st2) =>
            ({ status := 200, body := TaxonomyBody.category category }, st2)

/-- The handler `CategoryHandler.Delete`. -/
def CategoryHandler.Delete {σ : Type} (h : CategoryHandler σ) (idParam : String) (st : σ) :
    TaxonomyResponse × σ :=
  match ParseUint idParam 32 with
  | none => ({ status := 400, body := TaxonomyBody.error "Invalid category ID" }, st)
  | some id =>
    match h.repo.Delete id st with
    | (some _, st1) => ({ status := 404, body := TaxonomyBody.error "Category not found" }, st1)
    | (none, st1) => ({ status := 204, body := TaxonomyBody.empty }, st1)

/-- The struct `handlers.SubcategoryHandler`. -/
structure SubcategoryHandler (σ : Type) where
  repo : SubcategoryRepository σ
  categoryRepo : CategoryRepository σ

/-- The constructor `NewSubcategoryHandler`. -/
def NewSubcategoryHandler {σ : Type} (repo : SubcategoryRepository σ)
    (categoryRepo : CategoryRepository σ) : SubcategoryHandler σ :=
  { repo := repo, categoryRepo := categoryRepo }

/-- The handler `SubcategoryHandler.GetAll`, given the query parameter `category_id` (the
empty string when absent). -/
def SubcategoryHandler.GetAll {σ : Type} (h : SubcategoryHandler σ) (categoryIDStr : String)
    (st : σ) : TaxonomyResponse × σ :=
  if categoryIDStr ≠ "" then
    match ParseUint categoryIDStr 32 with
    | none =>
      ({ status := 400, body := TaxonomyBody.error "Invalid category_id parameter" }, st)
    | some categoryID =>
      match h.repo.FindByCategoryID categoryID st with
      | (Except.error _, st1) =>
        ({ status := 500, body := TaxonomyBody.error "Failed to fetch subcategories" }, st1)
      | (Except.ok subcategories, st1) =>
        ({ status := 200, body := TaxonomyBody.subcategories subcategories }, st1)
  else
    match h.repo.FindAll st with
    | (Except.error _, st1) =>
      ({ status := 500, body := TaxonomyBody.error "Failed to fetch subcategories" }, st1)
    | (Except.ok subcategories, st1) =>
      ({ status := 200, body := TaxonomyBody.subcategories subcategories }, st1)

/-- The handler `SubcategoryHandler.GetByID`. -/
def SubcategoryHandler.GetByID {σ : Type} (h : SubcategoryHandler σ) (idParam : String)
    (st : σ) : TaxonomyResponse × σ :=
  match ParseUint idParam 32 with
  | none => ({ status := 400, body := TaxonomyBody.error "Invalid subcategory ID" }, st)
  | some id =>
    match h.repo.FindByID id st with
    | (Except.error _, st1) =>
      ({ status := 404, body := TaxonomyBody.error "Subcategory not found" }, st1)
    | (Except.ok subcategory, st1) =>
      ({ status := 200, body := TaxonomyBody.subcategory subcategory }, st1)

/-- The struct `handlers.CreateSubcategoryRequest`. -/
structure CreateSubcategoryRequest where
  CategoryID : Nat
  Name : String
deriving DecidableEq, Repr

/-- The handler `SubcategoryHandler.Create`, given the outcome of `BodyParser`. -/
def SubcategoryHandler.Create {σ : Type} (h : SubcategoryHandler σ)
    (body : Option CreateSubcategoryRequest) (st : σ) : TaxonomyResponse × σ :=
  match body with
  | none => ({ status := 400, body := TaxonomyBody.error "Invalid request body" }, st)
  | some req =>
    match h.categoryRepo.FindByID req.CategoryID st with
    | (Except.error _, st1) =>
      ({ status := 400, body := TaxonomyBody.error "Category not found" }, st1)
    | (Except.ok _, st1) =>
      match h.repo.Create
          { ID := 0, CategoryID := req.CategoryID, Name := req.Name, CreatedAt := 0,
            UpdatedAt := 0, DeletedAt := none, Category := none } st1 with
      | ((some _, _), st2) =>
        ({ status := 500, body := TaxonomyBody.error "Failed to create subcategory" }, st2)
      | ((none, subcategory), st2) =>
        ({ status := 201, body := TaxonomyBody.subcategory subcategory }, st2)

/-- The struct `handlers.UpdateSubcategoryRequest`. -/
structure UpdateSubcategoryRequest where
  CategoryID : Nat
  Name : String
deriving DecidableEq, Repr

/-- The handler `SubcategoryHandler.Update`, given the `:id` path parameter and the outcome
of `BodyParser`. -/
def SubcategoryHandler.Update {σ : Type} (h : SubcategoryHandler σ) (idParam : String)
    (body : Option UpdateSubcategoryRequest) (st : σ) : TaxonomyResponse × σ :=
  match ParseUint idParam 32 with
  | none => ({ status := 400, body := TaxonomyBody.error "Invalid subcategory ID" }, st)
  | some id =>
    match h.repo.FindByID id st with
    | (Except.error _, st1) =>
      ({ status := 404, body := TaxonomyBody.error "Subcategory not found" }, st1)
    | (Except.ok subcategory, st1) =>
      match body with
      | none => ({ status := 400, body := TaxonomyBody.error "Invalid request body" }, st1)
      | some req =>
        match h.categoryRepo.FindByID req.CategoryID st1 with
        | (Except.error _, st2) =>
          ({ status := 400, body := TaxonomyBody.error "Category not found" }, st2)
        | (Except.ok _, st2) =>
          match h.repo.Update
              { subcategory with CategoryID := req.CategoryID, Name := req.Name } st2 with
          | ((some _, _), st3) =>
            ({ status := 500, body := TaxonomyBody.error "Failed to update subcategory" },
              st3)
          | ((none, subcategory), st3) =>
            ({ status := 200, body := TaxonomyBody.subcategory subcategory }, st3)

/-- The handler `SubcategoryHandler.Delete`. -/
def SubcategoryHandler.Delete {σ : Type} (h : SubcategoryHandler σ) (idParam : String)
    (st : σ) : TaxonomyResponse × σ :=
  match ParseUint idParam 32 with
  | none => ({ status := 400, body := TaxonomyBody.error "Invalid subcategory ID" }, st)
  | some id =>
    match h.repo.Delete id st with
    | (some _, st1) =>
      ({ status := 404, body := TaxonomyBody.error "Subcategory not found" }, st1)
    | (none, st1) => ({ status := 204, body := TaxonomyBody.empty }, st1)

/-- The wiring of `main`: the category handler over the GORM repository. -/
def categoryHandler {α : Type} : CategoryHandler (DB α) :=
  NewCategoryHandler NewCategoryRepository

/-- The wiring of `main`: the subcategory handler over the GORM repositories. -/
def subcategoryHandler {α : Type} : SubcategoryHandler (DB α) :=
  NewSubcategoryHandler NewSubcategoryRepository NewCategoryRepository

/-! ## Sequences of category requests -/

/-- A request to one of the writing category handlers. -/
inductive CategoryRequest where
  | create (body : Option CreateCategoryRequest)
  | update (idParam : String) (body : Option UpdateCategoryRequest)
  | delete (idParam : String)

/-- One category request together with the condition of the store when it arrives. -/
structure CategoryCall where
  fault : Option Error
  clock : Time
  request : CategoryRequest

/-- The store after one category request. -/
def runCategoryCall {α : Type} (db : DB α) (c : CategoryCall) : DB α :=
  let db1 : DB α := { db with fault := c.fault, clock := c.clock }
  match c.request with
  | CategoryRequest.create body => (categoryHandler.Create body db1).2
  | CategoryRequest.update idParam body => (categoryHandler.Update idParam body db1).2
  | CategoryRequest.delete idParam => (categoryHandler.Delete idParam db1).2

/-- The store after a sequence of category requests. -/
def runCategoryCalls {α : Type} (db : DB α) (calls : List CategoryCall) : DB α :=
  calls.foldl runCategoryCall db

/-! ## Observing the calls to `productRepo.Create`

To speak of how often `CreateProduct` calls `productRepo.Create`, a service is run over a
state extended with a journal; `Create` appends its argument to the journal and every other
method leaves the journal alone. -/

/-- A method run on the first component of an extended state. -/
def onFst {σ τ β : Type} (f : σ → β × σ) (st : σ × τ) : β × (σ × τ) :=
  ((f st.1).1, ((f st.1).2, st.2))

/-- A category repository over a state extended by `τ`. -/
def CategoryRepository.extend {σ : Type} (r : CategoryRepository σ) (τ : Type) :
    CategoryRepository (σ × τ) where
  Create := fun c => onFst (r.Create c)
  FindByID := fun id => onFst (r.FindByID id)
  FindAll := onFst r.FindAll
  Update := fun c => onFst (r.Update c)
  Delete := fun id => onFst (r.Delete id)

/-- A subcategory repository over a state extended by `τ`. -/
def SubcategoryRepository.extend {σ : Type} (r : SubcategoryRepository σ) (τ : Type) :
    SubcategoryRepository (σ × τ) where
  Create := fun c => onFst (r.Create c)
  FindByID := fun id => onFst (r.FindByID id)
  FindAll := onFst r.FindAll
  FindByCategoryID := fun id => onFst (r.FindByCategoryID id)
  Update := fun c => onFst (r.Update c)
  Delete := fun id => onFst (r.Delete id)

/-- A product repository that journals, in order, the products `Create` is called with. -/
def ProductRepository.journalled {σ α : Type} (r : ProductRepository σ α) :
    ProductRepository (σ × List (Product α)) α where
  Create := fun p st => ((r.Create p st.1).1, ((r.Create p st.1).2, st.2 ++ [p]))
  FindByID := fun id => onFst (r.FindByID id)
  FindAll := onFst r.FindAll
  FindByCategoryID := fun id => onFst (r.FindByCategoryID id)
  FindBySubcategoryID := fun id => onFst (r.FindBySubcategoryID id)
  FindPending := onFst r.FindPending
  Update := fun p => onFst (r.Update p)
  Delete := fun id => onFst (r.Delete id)

/-- The service over the journalled product repository. -/
def productService.journalled {σ α : Type} (s : productService σ α) :
    productService (σ × List (Product α)) α where
  productRepo := s.productRepo.journalled
  categoryRepo := s.categoryRepo.extend (List (Product α))
  subcategoryRepo := s.subcategoryRepo.extend (List (Product α))

/-- A category repository that counts the calls of its writing methods `Create`, `Update`
and `Delete`; the reading methods leave the count alone. -/
def CategoryRepository.counted {σ : Type} (r : CategoryRepository σ) :
    CategoryRepository (σ × Nat) where
  Create := fun c st => ((r.Create c st.1).1, ((r.Create c st.1).2, st.2 + 1))
  FindByID := fun id => onFst (r.FindByID id)
  FindAll := onFst r.FindAll
  Update := fun c st => ((r.Update c st.1).1, ((r.Update c st.1).2, st.2 + 1))
  Delete := fun id st => ((r.Delete id st.1).1, ((r.Delete id st.1).2, st.2 + 1))

/-- The service whose subcategory lookup hands out every subcategory rewritten by `f`. -/
def productService.mapSubcategories {σ α : Type} (s : productService σ α)
    (f : Subcategory → Subcategory) : productService σ α :=
  { s with
    subcategoryRepo :=
      { s.subcategoryRepo with
        FindByID := fun id st =>
          (match (s.subcategoryRepo.FindByID id st).1 with
            | Except.ok sub => Except.ok (f sub)
            | Except.error e => Except.error e,
           (s.subcategoryRepo.FindByID id st).2) } }

/-- The answer of the list handler to the outcome of a repository query: 200 with the
products, or 500 with the fixed message when the query failed. -/
def listResponse {σ α : Type} (outcome : Except Error (List (Product α)) × σ) :
    Response α × σ :=
  match outcome with
  | (Except.error _, st1) =>
    ({ status := 500, body := Body.error "Failed to fetch products" }, st1)
  | (Except.ok products, st1) => ({ status := 200, body := Body.products products }, st1)

/-! ## The words of the specification, for the aggregates -/

/-- The product collection of a store as its queries read it: the live rows, newest first,
relations loaded. -/
def DB.collection {α : Type} (db : DB α) : List (Product α) :=
  (orderByCreatedAtDesc (db.products.filter (fun p => p.DeletedAt.isNone))).map
    db.preloadProduct

/-- The sum of a list of amounts, accumulated from `0` left to right. -/
def sumLeft {α : Type} [Zero α] [Add α] (xs : List α) : α :=
  xs.foldl (fun total x => total + x) 0

/-- The type of the loaded category of a product is `t`. -/
def Product.hasCategoryType {α : Type} (p : Product α) (t : String) : Bool :=
  match p.Category with
  | some c => c.Type_ == t
  | none => false

/-- The spec's pending one-time products: `is_purchased = false` and owning category of type
`one_time`. -/
def specPendingOneTime {α : Type} (p : Product α) : Bool :=
  p.IsPurchased == false && p.hasCategoryType "one_time"

/-- The spec's monthly share of a product: under a recurring category, `total_price` when
monthly and `total_price / 12` when yearly; nothing otherwise. -/
def specMonthlyShare {α : Type} [Div α] [OfNat α 12] (p : Product α) : Option α :=
  if p.hasCategoryType "recurring" then
    if p.RecurrenceType = some "monthly" then some p.TotalPrice
    else if p.RecurrenceType = some "yearly" then some (p.TotalPrice / 12)
    else none
  else none

/-- The spec's yearly share of a product: under a recurring category, `total_price` when
yearly and `total_price * 12` when monthly; nothing otherwise. -/
def specYearlyShare {α : Type} [Mul α] [OfNat α 12] (p : Product α) : Option α :=
  if p.hasCategoryType "recurring" then
    if p.RecurrenceType = some "yearly" then some p.TotalPrice
    else if p.RecurrenceType = some "monthly" then some (p.TotalPrice * 12)
    else none
  else none

/-- A product with its `is_purchased` and `purchase_date` fields blanked. -/
def Product.forgetPurchase {α : Type} (p : Product α) : Product α :=
  { p with IsPurchased := false, PurchaseDate := none }

/-! ## Sequences of update requests -/

/-- One update request together with the condition of the store when it arrives. -/
structure UpdateCall (α : Type) where
  fault : Option Error
  clock : Time
  idParam : String
  body : Option (UpdateProductRequest α)
  now : Time

/-- The store after a sequence of update requests, each handled by `ProductHandler.Update`. -/
def runUpdates {α : Type} [Zero α] [Add α] [Mul α] [Div α] [OfNat α 12] (db : DB α)
    (calls : List (UpdateCall α)) : DB α :=
  calls.foldl (fun d c =>
    (productHandler.Update c.idParam c.body c.now
      { d with fault := c.fault, clock := c.clock }).2) db

/-! ## Fixtures -/

/-- The struct `productService` over the three GORM repositories. -/
def gormService {α : Type} [Add α] : productService (DB α) α where
  productRepo := NewProductRepository
  categoryRepo := NewCategoryRepository
  subcategoryRepo := NewSubcategoryRepository

/-- A one-time category. -/
def catOneTime : Category :=
  { ID := 1, Name := "Compra Única", Type_ := "one_time", CreatedAt := 1, UpdatedAt := 1,
    DeletedAt := none }

/-- A recurring category. -/
def catRecurring : Category :=
  { ID := 2, Name := "Suscripción Mensual", Type_ := "recurring", CreatedAt := 1,
    UpdatedAt := 1, DeletedAt := none }

/-- A subcategory of the one-time category. -/
def subGaming : Subcategory :=
  { ID := 1, CategoryID := 1, Name := "Gaming", CreatedAt := 1, UpdatedAt := 1,
    DeletedAt := none, Category := none }

/-- A subcategory of the recurring category. -/
def subTools : Subcategory :=
  { ID := 2, CategoryID := 2, Name := "IA y Herramientas", CreatedAt := 1, UpdatedAt := 1,
    DeletedAt := none, Category := none }

/-- The rounding of a `decimal(10,2)` column: to the nearest hundredth, a tie away from
zero. -/
def roundCents (x : ℚ) : ℚ :=
  if 0 ≤ x then ((⌊x * 100 + 1 / 2⌋ : ℤ) : ℚ) / 100
  else -(((⌊-x * 100 + 1 / 2⌋ : ℤ) : ℚ) / 100)

/-- A reachable store with two categories, two subcategories and no product. -/
def seededDB : DB ℚ :=
  { categories := [catOneTime, catRecurring], subcategories := [subGaming, subTools],
    products := [], fault := none, clock := 10, decimal := roundCents }

/-- A product as the create handler builds it from a request. -/
def newProduct (categoryID subcategoryID : Nat) (recurrence : Option String)
    (base shipping taxes : ℚ) : Product ℚ :=
  { ID := 0, Name := "item", Description := "", BasePrice := base, ShippingCost := shipping,
    Taxes := taxes, TotalPrice := 0, SourceURL := "", PriceDate := some 10,
    CategoryID := categoryID, SubcategoryID := subcategoryID, RecurrenceType := recurrence,
    IsPurchased := false, PurchaseDate := none, Notes := "", CreatedAt := 0, UpdatedAt := 0,
    DeletedAt := none, Category := none, Subcategory := none }

/-- The seeded store after the product `100 + 10 + 5` of the one-time category was created. -/
def pricedDB : DB ℚ :=
  (productRepository.Create (newProduct 1 1 none 100 10 5) seededDB).2

/-- A stored product row. -/
def storedProduct (id categoryID subcategoryID : Nat) (recurrence : Option String)
    (total : ℚ) (purchaseDate deletedAt : Option Time) (createdAt : Time) : Product ℚ :=
  { ID := id, Name := "row", Description := "", BasePrice := total, ShippingCost := 0,
    Taxes := 0, TotalPrice := total, SourceURL := "", PriceDate := some createdAt,
    CategoryID := categoryID, SubcategoryID := subcategoryID, RecurrenceType := recurrence,
    IsPurchased := purchaseDate.isSome, PurchaseDate := purchaseDate, Notes := "",
    CreatedAt := createdAt, UpdatedAt := createdAt, DeletedAt := deletedAt,
    Category := none, Subcategory := none }

/-- A store with products of every kind: pending and purchased one-time products, monthly
and yearly subscriptions, a product of a missing category, a recurring product without
recurrence type, one with recurrence "weekly", and a soft-deleted product. -/
def mixedDB : DB ℚ :=
  { seededDB with
    products :=
      [ storedProduct 1 1 1 none 115 none none 1,
        storedProduct 2 1 1 none 40 (some 5) none 2,
        storedProduct 3 2 2 (some "monthly") 12 none none 3,
        storedProduct 4 2 2 (some "yearly") 120 (some 6) none 4,
        storedProduct 5 9 2 (some "monthly") 7 none none 5,
        storedProduct 6 2 2 none 3 none none 6,
        storedProduct 7 2 2 (some "weekly") 5 none none 7,
        storedProduct 8 1 1 none 1000 none (some 9) 8 ] }

/-- The store `mixedDB` with every purchase flag flipped. -/
def mixedDBFlipped : DB ℚ :=
  { mixedDB with
    products := mixedDB.products.map (fun p =>
      { p with IsPurchased := !p.IsPurchased,
               PurchaseDate := if p.IsPurchased then none else some 3 }) }

/-- The seeded store after a monthly subscription of base price 12 was created through the
service. -/
def subscriptionDB : DB ℚ :=
  (gormService.CreateProduct (newProduct 2 2 (some "monthly") 12 0 0) seededDB).2

/-- An update request that keeps the amounts 100, 10 and 5 and sets the purchase flag. -/
def purchaseRequest (purchased : Bool) : UpdateProductRequest ℚ :=
  { Name := "item", Description := "", BasePrice := 100, ShippingCost := 10, Taxes := 5,
    SourceURL := "", CategoryID := 1, SubcategoryID := 1, RecurrenceType := none,
    IsPurchased := purchased, Notes := "" }

/-- The store `pricedDB` after product 1 was marked as purchased at time 20. -/
def boughtDB : DB ℚ :=
  (productHandler.Update "1" (some (purchaseRequest true)) 20 pricedDB).2

/-- Two later requests on product 1: the purchase flag is cleared at time 30 and set again
at time 40. -/
def laterCalls : List (UpdateCall ℚ) :=
  [ { fault := none, clock := 30, idParam := "1", body := some (purchaseRequest false),
      now := 30 },
    { fault := none, clock := 40, idParam := "1", body := some (purchaseRequest true),
      now := 40 } ]

/-- A create request for a product. -/
def createRequest (categoryID subcategoryID : Nat) (recurrence : Option String)
    (base shipping taxes : ℚ) : CreateProductRequest ℚ :=
  { Name := "item", Description := "", BasePrice := base, ShippingCost := shipping,
    Taxes := taxes, SourceURL := "", CategoryID := categoryID,
    SubcategoryID := subcategoryID, RecurrenceType := recurrence, Notes := "" }

/-- The store `pricedDB` while unreachable: every statement fails with a connection error. -/
def downDB : DB ℚ :=
  { pricedDB with fault := some "connection refused" }

/-- A product repository that reads from the GORM store and refuses every write, as a
read-only replica does. -/
def readOnlyRepository : ProductRepository (DB ℚ) ℚ :=
  { (NewProductRepository : ProductRepository (DB ℚ) ℚ) with
    Create := fun p db => ((some "cannot execute INSERT in a read-only transaction", p), db)
    Update := fun p db => ((some "cannot execute UPDATE in a read-only transaction", p), db) }

/-- The service struct over the read-only product repository. -/
def readOnlyService : productService (DB ℚ) ℚ where
  productRepo := readOnlyRepository
  categoryRepo := NewCategoryRepository
  subcategoryRepo := NewSubcategoryRepository

/-- A category update request with a type outside the enumeration. -/
def weeklyCategoryRequest : UpdateCategoryRequest :=
  { Name := "Suscripción Semanal", Type_ := "weekly" }

/-- Category requests of every kind, valid and invalid, some arriving while the store is
unreachable. -/
def categoryCalls : List CategoryCall :=
  [ { fault := none, clock := 20,
      request := CategoryRequest.create (some { Name := "Anual", Type_ := "recurring" }) },
    { fault := none, clock := 21,
      request := CategoryRequest.create (some { Name := "Semanal", Type_ := "weekly" }) },
    { fault := none, clock := 22,
      request := CategoryRequest.update "1" (some weeklyCategoryRequest) },
    { fault := none, clock := 23,
      request := CategoryRequest.update "1" (some { Name := "Pago", Type_ := "recurring" }) },
    { fault := some "connection refused", clock := 24,
      request := CategoryRequest.delete "2" },
    { fault := none, clock := 25, request := CategoryRequest.delete "2" },
    { fault := none, clock := 26, request := CategoryRequest.update "x" none } ]

/-- An update request for product 1 that keeps its one-time category 1 and sets the
recurrence type "monthly". -/
def monthlyUpdateRequest : UpdateProductRequest ℚ :=
  { purchaseRequest false with RecurrenceType := some "monthly" }

/-- An update request for product 1 that names the recurring category 2 with its
subcategory 2 and sets the recurrence type "monthly". -/
def movingUpdateRequest : UpdateProductRequest ℚ :=
  { purchaseRequest false with
    CategoryID := 2, SubcategoryID := 2, RecurrenceType := some "monthly" }

/-- An update request with the negative base price -5. -/
def negativeUpdateRequest : UpdateProductRequest ℚ :=
  { purchaseRequest false with BasePrice := -5, ShippingCost := 0, Taxes := 0 }

/-- A category whose stored type is outside the enumeration. -/
def catLegacy : Category :=
  { ID := 3, Name := "Alquiler", Type_ := "rental", CreatedAt := 1, UpdatedAt := 1,
    DeletedAt := none }

/-- The seeded store with the category of type "rental" added. -/
def legacyDB : DB ℚ :=
  { seededDB with categories := [catOneTime, catRecurring, catLegacy] }

/-! ## The rounding of the decimal columns -/

/-- An amount that is a whole number of cents is kept as it is by a `decimal(10,2)`
column. -/
theorem roundCents_of_cents (x : ℚ) (k : ℤ) (h : x = (k : ℚ) / 100) : roundCents x = x := by
  subst h
  have hfloor : ∀ n : ℤ, ⌊(n : ℚ) + 1 / 2⌋ = n := by
    intro n
    rw [Int.floor_eq_iff]
    constructor <;> norm_num
  unfold roundCents
  split_ifs with hs
  · have hk : (k : ℚ) / 100 * 100 = k := by ring
    rw [hk, hfloor]
  · have hk : -((k : ℚ) / 100) * 100 = ((-k : ℤ) : ℚ) := by push_cast; ring
    rw [hk, hfloor]
    push_cast
    ring

/-- A non-negative amount is rounded by a `decimal(10,2)` column to `n` cents when a hundred
times the amount plus a half lies between `n` and `n + 1`. -/
theorem roundCents_eq (x : ℚ) (n : ℤ) (h0 : 0 ≤ x) (hlo : (n : ℚ) ≤ x * 100 + 1 / 2)
    (hhi : x * 100 + 1 / 2 < (n : ℚ) + 1) : roundCents x = (n : ℚ) / 100 := by
  unfold roundCents
  rw [if_pos h0, Int.floor_eq_iff.mpr ⟨hlo, hhi⟩]

/-! ## Product validation -/

/-- Once both lookups have succeeded, `CreateProduct` is its coherence check followed by
`productRepo.Create`. -/
theorem CreateProduct_of_lookups {σ α : Type} (s : productService σ α) (product : Product α)
    (st st1 st2 : σ) (category : Category) (subcategory : Subcategory)
    (hcat : s.categoryRepo.FindByID product.CategoryID st = (Except.ok category, st1))
    (hsub : s.subcategoryRepo.FindByID product.SubcategoryID st1
      = (Except.ok subcategory, st2)) :
    s.CreateProduct product st =
      if category.Type_ = "one_time" then
        if product.RecurrenceType ≠ none then
          ((some "one-time purchases cannot have recurrence type", product), st2)
        else s.productRepo.Create product st2
      else if category.Type_ = "recurring" then
        match product.RecurrenceType with
        | none => ((some "recurring purchases must have recurrence type", product), st2)
        | some r =>
          if r ≠ "monthly" ∧ r ≠ "yearly" then
            ((some "recurrence type must be 'monthly' or 'yearly'", product), st2)
          else s.productRepo.Create product st2
      else s.productRepo.Create product st2 := by
  unfold productService.CreateProduct
  rw [hcat]
  dsimp only
  rw [hsub]

/-- A successful category lookup is a successful lookup of the journalled service, on any
journal. -/
theorem journalled_category_lookup {σ α : Type} (s : productService σ α) (id : Nat)
    (st st1 : σ) (category : Category) (calls : List (Product α))
    (hcat : s.categoryRepo.FindByID id st = (Except.ok category, st1)) :
    s.journalled.categoryRepo.FindByID id (st, calls) = (Except.ok category, (st1, calls)) := by
  simp [productService.journalled, CategoryRepository.extend, onFst, hcat]

/-- A successful subcategory lookup is a successful lookup of the journalled service, on any
journal. -/
theorem journalled_subcategory_lookup {σ α : Type} (s : productService σ α) (id : Nat)
    (st st1 : σ) (subcategory : Subcategory) (calls : List (Product α))
    (hsub : s.subcategoryRepo.FindByID id st = (Except.ok subcategory, st1)) :
    s.journalled.subcategoryRepo.FindByID id (st, calls)
      = (Except.ok subcategory, (st1, calls)) := by
  simp [productService.journalled, SubcategoryRepository.extend, onFst, hsub]

/-- C1: when the category lookup yields a category of type "one_time" and the subcategory
lookup succeeds, a product with a non-null recurrence type is refused with the error
"one-time purchases cannot have recurrence type"; the state is the one the lookups left and
the journal of `productRepo.Create` calls is unchanged, so `Create` is not called. -/
theorem CreateProduct_one_time_with_recurrence {σ α : Type} (s : productService σ α)
    (product : Product α) (st st1 st2 : σ) (category : Category) (subcategory : Subcategory)
    (hcat : s.categoryRepo.FindByID product.CategoryID st = (Except.ok category, st1))
    (hsub : s.subcategoryRepo.FindByID product.SubcategoryID st1
      = (Except.ok subcategory, st2))
    (htype : category.Type_ = "one_time")
    (hrec : product.RecurrenceType ≠ none) :
    s.CreateProduct product st
        = ((some "one-time purchases cannot have recurrence type", product), st2)
      ∧ ∀ calls : List (Product α),
          s.journalled.CreateProduct product (st, calls)
            = ((some "one-time purchases cannot have recurrence type", product),
                (st2, calls)) := by
  constructor
  · rw [CreateProduct_of_lookups s product st st1 st2 category subcategory hcat hsub]
    simp [htype, hrec]
  · intro calls
    rw [CreateProduct_of_lookups s.journalled product (st, calls) (st1, calls) (st2, calls)
      category subcategory
      (journalled_category_lookup s _ st st1 category calls hcat)
      (journalled_subcategory_lookup s _ st1 st2 subcategory calls hsub)]
    simp [htype, hrec]

/-- C1, on the seeded store: a product of the one-time category with recurrence "monthly" is
refused and the store, its product table included, is unchanged. -/
theorem CreateProduct_one_time_with_recurrence_witness :
    gormService.CreateProduct (newProduct 1 1 (some "monthly") 100 10 5) seededDB
        = ((some "one-time purchases cannot have recurrence type",
            newProduct 1 1 (some "monthly") 100 10 5), seededDB)
      ∧ ∀ calls : List (Product ℚ),
          gormService.journalled.CreateProduct (newProduct 1 1 (some "monthly") 100 10 5)
              (seededDB, calls)
            = ((some "one-time purchases cannot have recurrence type",
                newProduct 1 1 (some "monthly") 100 10 5), (seededDB, calls)) :=
  CreateProduct_one_time_with_recurrence gormService (newProduct 1 1 (some "monthly") 100 10 5)
    seededDB seededDB seededDB catOneTime (seededDB.preloadSubcategory subGaming)
    rfl rfl rfl (by decide)

/-- C2: when the category lookup yields a category of type "recurring" and the subcategory
lookup succeeds, a null recurrence type is refused with "recurring purchases must have
recurrence type" and a recurrence type other than "monthly" and "yearly" is refused with
"recurrence type must be 'monthly' or 'yearly'"; in both cases the state is the one the
lookups left and the journal of `productRepo.Create` calls is unchanged. -/
theorem CreateProduct_recurring_bad_recurrence {σ α : Type} (s : productService σ α)
    (product : Product α) (st st1 st2 : σ) (category : Category) (subcategory : Subcategory)
    (hcat : s.categoryRepo.FindByID product.CategoryID st = (Except.ok category, st1))
    (hsub : s.subcategoryRepo.FindByID product.SubcategoryID st1
      = (Except.ok subcategory, st2))
    (htype : category.Type_ = "recurring") :
    (product.RecurrenceType = none →
      s.CreateProduct product st
          = ((some "recurring purchases must have recurrence type", product), st2)
        ∧ ∀ calls : List (Product α),
            s.journalled.CreateProduct product (st, calls)
              = ((some "recurring purchases must have recurrence type", product),
                  (st2, calls)))
    ∧ (∀ r : String, product.RecurrenceType = some r → r ≠ "monthly" → r ≠ "yearly" →
      s.CreateProduct product st
          = ((some "recurrence type must be 'monthly' or 'yearly'", product), st2)
        ∧ ∀ calls : List (Product α),
            s.journalled.CreateProduct product (st, calls)
              = ((some "recurrence type must be 'monthly' or 'yearly'", product),
                  (st2, calls))) := by
  have hne : category.Type_ ≠ "one_time" := by rw [htype]; decide
  refine ⟨fun hnone => ⟨?_, fun calls => ?_⟩, fun r hr hm hy => ⟨?_, fun calls => ?_⟩⟩
  · rw [CreateProduct_of_lookups s product st st1 st2 category subcategory hcat hsub]
    simp [htype, hnone]
  · rw [CreateProduct_of_lookups s.journalled product (st, calls) (st1, calls) (st2, calls)
      category subcategory
      (journalled_category_lookup s _ st st1 category calls hcat)
      (journalled_subcategory_lookup s _ st1 st2 subcategory calls hsub)]
    simp [htype, hnone]
  · rw [CreateProduct_of_lookups s product st st1 st2 category subcategory hcat hsub]
    rw [if_neg hne, if_pos htype, hr]
    simp [hm, hy]
  · rw [CreateProduct_of_lookups s.journalled product (st, calls) (st1, calls) (st2, calls)
      category subcategory
      (journalled_category_lookup s _ st st1 category calls hcat)
      (journalled_subcategory_lookup s _ st1 st2 subcategory calls hsub)]
    rw [if_neg hne, if_pos htype, hr]
    simp [hm, hy]

/-- C2, on the seeded store: under the recurring category a product without recurrence type
and one with recurrence "weekly" are refused with the two messages, the store unchanged. -/
theorem CreateProduct_recurring_bad_recurrence_witness :
    gormService.CreateProduct (newProduct 2 2 none 12 0 0) seededDB
        = ((some "recurring purchases must have recurrence type",
            newProduct 2 2 none 12 0 0), seededDB)
      ∧ gormService.CreateProduct (newProduct 2 2 (some "weekly") 12 0 0) seededDB
        = ((some "recurrence type must be 'monthly' or 'yearly'",
            newProduct 2 2 (some "weekly") 12 0 0), seededDB) :=
  ⟨((CreateProduct_recurring_bad_recurrence gormService (newProduct 2 2 none 12 0 0)
      seededDB seededDB seededDB catRecurring (seededDB.preloadSubcategory subTools)
      rfl rfl rfl).1 rfl).1,
   ((CreateProduct_recurring_bad_recurrence gormService (newProduct 2 2 (some "weekly") 12 0 0)
      seededDB seededDB seededDB catRecurring (seededDB.preloadSubcategory subTools)
      rfl rfl rfl).2 "weekly" rfl (by decide) (by decide)).1⟩

/-- C3: when both lookups succeed and either the category type is "one_time" and the
recurrence type is null, or the category type is "recurring" and the recurrence type is
"monthly" or "yearly", `CreateProduct` returns exactly what `productRepo.Create` returns for
that product on the state the lookups left (so a nil error when `Create` gives one), and the
journal of `Create` calls grows by exactly that product: `Create` is called once. -/
theorem CreateProduct_accepts_valid {σ α : Type} (s : productService σ α)
    (product : Product α) (st st1 st2 : σ) (category : Category) (subcategory : Subcategory)
    (hcat : s.categoryRepo.FindByID product.CategoryID st = (Except.ok category, st1))
    (hsub : s.subcategoryRepo.FindByID product.SubcategoryID st1
      = (Except.ok subcategory, st2))
    (hvalid : (category.Type_ = "one_time" ∧ product.RecurrenceType = none)
      ∨ (category.Type_ = "recurring"
          ∧ (product.RecurrenceType = some "monthly"
              ∨ product.RecurrenceType = some "yearly"))) :
    s.CreateProduct product st = s.productRepo.Create product st2
      ∧ (∀ calls : List (Product α),
          s.journalled.CreateProduct product (st, calls)
            = ((s.productRepo.Create product st2).1,
                ((s.productRepo.Create product st2).2, calls ++ [product])))
      ∧ ((s.productRepo.Create product st2).1.1 = none →
          (s.CreateProduct product st).1.1 = none) := by
  have key : ∀ (τ : Type) (t : productService τ α) (u u1 u2 : τ),
      t.categoryRepo.FindByID product.CategoryID u = (Except.ok category, u1) →
      t.subcategoryRepo.FindByID product.SubcategoryID u1 = (Except.ok subcategory, u2) →
      t.CreateProduct product u = t.productRepo.Create product u2 := by
    intro τ t u u1 u2 h1 h2
    rw [CreateProduct_of_lookups t product u u1 u2 category subcategory h1 h2]
    rcases hvalid with ⟨ht, hr⟩ | ⟨ht, hr | hr⟩
    · simp [ht, hr]
    · have hne : category.Type_ ≠ "one_time" := by rw [ht]; decide
      rw [if_neg hne, if_pos ht, hr]
      simp
    · have hne : category.Type_ ≠ "one_time" := by rw [ht]; decide
      rw [if_neg hne, if_pos ht, hr]
      simp
  refine ⟨key σ s st st1 st2 hcat hsub, fun calls => ?_, fun hnil => ?_⟩
  · rw [key _ s.journalled (st, calls) (st1, calls) (st2, calls)
      (journalled_category_lookup s _ st st1 category calls hcat)
      (journalled_subcategory_lookup s _ st1 st2 subcategory calls hsub)]
    rfl
  · rw [key σ s st st1 st2 hcat hsub]
    exact hnil

/-- C3, on the seeded store: a one-time product without recurrence type is handed to
`productRepository.Create`, which stores it with the recomputed total 115 and key 1. -/
theorem CreateProduct_accepts_valid_witness :
    gormService.CreateProduct (newProduct 1 1 none 100 10 5) seededDB
        = productRepository.Create (newProduct 1 1 none 100 10 5) seededDB
      ∧ (productRepository.Create (newProduct 1 1 none 100 10 5) seededDB).1.1 = none
      ∧ (productRepository.Create (newProduct 1 1 none 100 10 5) seededDB).2.products.map
          (fun p => (p.ID, p.TotalPrice)) = [(1, 115)] :=
  ⟨(CreateProduct_accepts_valid gormService (newProduct 1 1 none 100 10 5)
      seededDB seededDB seededDB catOneTime (seededDB.preloadSubcategory subGaming)
      rfl rfl (Or.inl ⟨rfl, rfl⟩)).1,
   rfl,
   by
     have hrows : (productRepository.Create (newProduct 1 1 none 100 10 5)
         seededDB).2.products.map (fun p => (p.ID, p.TotalPrice))
         = [(1, roundCents (100 + 10 + 5))] := rfl
     have hcents : roundCents (100 + 10 + 5) = 115 := by
       rw [roundCents_eq (100 + 10 + 5) 11500 (by norm_num) (by norm_num) (by norm_num)]
       norm_num
     rw [hrows, hcents]⟩

/-! ## The derived total price -/

/-- The row `Save` writes is in the table afterwards. -/
theorem mem_saveRow_self {ρ : Type} (rows : List ρ) (pk : ρ → Nat)
    (deletedAt : ρ → Option Time) (r : ρ) : r ∈ saveRow rows pk deletedAt r := by
  unfold saveRow
  split_ifs with h1 h2
  · obtain ⟨x, hx, hc⟩ := List.any_eq_true.mp h1
    exact List.mem_map.mpr ⟨x, hx, by simp [hc]⟩
  · obtain ⟨x, hx, hc⟩ := List.any_eq_true.mp h2
    exact List.mem_map.mpr ⟨x, hx, by simp [hc]⟩
  · simp

/-- A row of the table after `Save` is the written row or a row that was there before. -/
theorem mem_saveRow {ρ : Type} (rows : List ρ) (pk : ρ → Nat)
    (deletedAt : ρ → Option Time) (r x : ρ) (hx : x ∈ saveRow rows pk deletedAt r) :
    x = r ∨ x ∈ rows := by
  unfold saveRow at hx
  split_ifs at hx with h1 h2
  · obtain ⟨y, hy, rfl⟩ := List.mem_map.mp hx
    by_cases hc : ((deletedAt y).isNone && pk y == pk r) = true
    · left; simp [hc]
    · right; simpa [hc] using hy
  · obtain ⟨y, hy, rfl⟩ := List.mem_map.mp hx
    by_cases hc : (pk y == pk r) = true
    · left; simp [hc]
    · right; simpa [hc] using hy
  · rcases List.mem_append.mp hx with h | h
    · exact Or.inr h
    · exact Or.inl (by simpa using h)

/-- What a successful `productRepository.Create` leaves behind: the struct carries the amounts
of the product and their sum as total, and one row is appended, the row the table keeps for
that struct. -/
theorem Create_persists_total {α : Type} [Add α] (p : Product α) (db : DB α)
    (hok : (productRepository.Create p db).1.1 = none) :
    (productRepository.Create p db).2.products
        = db.products ++ [db.productRow (productRepository.Create p db).1.2]
      ∧ (productRepository.Create p db).1.2.BasePrice = p.BasePrice
      ∧ (productRepository.Create p db).1.2.ShippingCost = p.ShippingCost
      ∧ (productRepository.Create p db).1.2.Taxes = p.Taxes
      ∧ (productRepository.Create p db).1.2.TotalPrice
          = p.BasePrice + p.ShippingCost + p.Taxes := by
  unfold productRepository.Create at hok ⊢
  simp only [Product.BeforeSave] at hok ⊢
  cases hf : db.fault with
  | some err => simp [hf] at hok
  | none =>
    simp only [hf] at hok ⊢
    split_ifs at hok ⊢ <;> exact ⟨rfl, rfl, rfl, rfl, rfl⟩

/-- What a successful `productRepository.Update` leaves behind: the struct carries the amounts
of the product and their sum as total, the row the table keeps for that struct is in the
table, and it is the only new row. -/
theorem Update_persists_total {α : Type} [Add α] (p : Product α) (db : DB α)
    (hok : (productRepository.Update p db).1.1 = none) :
    db.productRow (productRepository.Update p db).1.2
        ∈ (productRepository.Update p db).2.products
      ∧ (productRepository.Update p db).1.2.BasePrice = p.BasePrice
      ∧ (productRepository.Update p db).1.2.ShippingCost = p.ShippingCost
      ∧ (productRepository.Update p db).1.2.Taxes = p.Taxes
      ∧ (productRepository.Update p db).1.2.TotalPrice
          = p.BasePrice + p.ShippingCost + p.Taxes
      ∧ ∀ x ∈ (productRepository.Update p db).2.products,
          x = db.productRow (productRepository.Update p db).1.2 ∨ x ∈ db.products := by
  by_cases hid : p.ID = 0
  · have hcreate : productRepository.Update p db
        = productRepository.Create (p.BeforeSave).2 db
          ∨ (productRepository.Update p db).1.1 ≠ none := by
      unfold productRepository.Update
      simp only [Product.BeforeSave]
      cases hf : db.fault with
      | some err => right; simp
      | none => left; simp [hid]
    rcases hcreate with hc | hc
    · rw [hc] at hok ⊢
      obtain ⟨h1, h3, h4, h5, h6⟩ := Create_persists_total _ db hok
      refine ⟨?_, h3, h4, h5, h6, ?_⟩
      · rw [h1]; simp
      · intro x hx
        rw [h1] at hx
        rcases List.mem_append.mp hx with h | h
        · exact Or.inr h
        · exact Or.inl (by simpa using h)
    · exact absurd hok hc
  · unfold productRepository.Update at hok ⊢
    simp only [Product.BeforeSave] at hok ⊢
    cases hf : db.fault with
    | some err => simp [hf] at hok
    | none =>
      simp only [hf, hid, if_false] at hok ⊢
      exact ⟨mem_saveRow_self _ _ _ _, rfl, rfl, rfl, rfl,
        fun x hx => mem_saveRow _ _ _ _ x hx⟩

/-- C4, as stated, fails: on the seeded store the create request with the three amounts
0.004 is answered 201 and the row persisted holds 0.00, 0.00 and 0.00 with total 0.01,
because each `decimal(10,2)` column rounds on its own; the persisted total is not the sum
of the persisted amounts. -/
theorem persisted_total_is_not_the_sum :
    (productHandler.Create (some (createRequest 1 1 none (4 / 1000) (4 / 1000) (4 / 1000)))
        10 seededDB).1.status = 201
      ∧ ∃ row ∈ (productHandler.Create
            (some (createRequest 1 1 none (4 / 1000) (4 / 1000) (4 / 1000))) 10
            seededDB).2.products,
          row.BasePrice = 0 ∧ row.ShippingCost = 0 ∧ row.Taxes = 0
            ∧ row.TotalPrice = 1 / 100
            ∧ row.TotalPrice ≠ row.BasePrice + row.ShippingCost + row.Taxes := by
  have hstatus : (productHandler.Create
      (some (createRequest 1 1 none (4 / 1000) (4 / 1000) (4 / 1000))) 10
      seededDB).1.status = 201 := rfl
  have hrows : (productHandler.Create
      (some (createRequest 1 1 none (4 / 1000) (4 / 1000) (4 / 1000))) 10
      seededDB).2.products.map
        (fun p => (p.BasePrice, p.ShippingCost, p.Taxes, p.TotalPrice))
      = [(roundCents (4 / 1000), roundCents (4 / 1000), roundCents (4 / 1000),
          roundCents (4 / 1000 + 4 / 1000 + 4 / 1000))] := rfl
  have hpart : roundCents (4 / 1000) = 0 := by
    rw [roundCents_eq (4 / 1000) 0 (by norm_num) (by norm_num) (by norm_num)]
    norm_num
  have htotal : roundCents (4 / 1000 + 4 / 1000 + 4 / 1000) = 1 / 100 := by
    rw [roundCents_eq (4 / 1000 + 4 / 1000 + 4 / 1000) 1 (by norm_num) (by norm_num)
      (by norm_num)]
    norm_num
  refine ⟨hstatus, ?_⟩
  generalize (productHandler.Create
      (some (createRequest 1 1 none (4 / 1000) (4 / 1000) (4 / 1000))) 10
      seededDB).2.products = l at hrows
  cases l with
  | nil => exact absurd hrows (by simp)
  | cons row tl =>
    rw [List.map_cons] at hrows
    have hhead := (List.cons.inj hrows).1
    simp only [Prod.mk.injEq] at hhead
    obtain ⟨h1, h2, h3, h4⟩ := hhead
    rw [hpart] at h1 h2 h3
    rw [htotal] at h4
    refine ⟨row, List.mem_cons_self _ _, h1, h2, h3, h4, ?_⟩
    rw [h1, h2, h3, h4]
    norm_num

/-- C4, amended: the `BeforeSave` hook returns a nil error and the product with `total_price`
set to `base_price + shipping_cost + taxes` and every other field as it was, whatever total
the product held before; `productRepository.Create` and `productRepository.Update` run it,
so the struct a successful create or update hands to the store carries the amounts of the
product and their sum as total.  The row persisted holds each amount and that total as
rounded by its `decimal(10,2)` column, no other row is added or changed, and the persisted
total is the sum of the persisted amounts when the rounding changes neither the amounts nor
their sum. -/
theorem BeforeSave_total_price {α : Type} [Add α] (p : Product α) :
    p.BeforeSave = (none, { p with TotalPrice := p.BasePrice + p.ShippingCost + p.Taxes })
    ∧ (∀ t : α, ({ p with TotalPrice := t } : Product α).BeforeSave = p.BeforeSave)
    ∧ (∀ db : DB α, (productRepository.Create p db).1.1 = none →
        ((productRepository.Create p db).1.2.BasePrice = p.BasePrice
          ∧ (productRepository.Create p db).1.2.ShippingCost = p.ShippingCost
          ∧ (productRepository.Create p db).1.2.Taxes = p.Taxes
          ∧ (productRepository.Create p db).1.2.TotalPrice
              = p.BasePrice + p.ShippingCost + p.Taxes)
        ∧ ∃ row : Product α, row ∈ (productRepository.Create p db).2.products
          ∧ row.BasePrice = db.decimal p.BasePrice
          ∧ row.ShippingCost = db.decimal p.ShippingCost
          ∧ row.Taxes = db.decimal p.Taxes
          ∧ row.TotalPrice = db.decimal (p.BasePrice + p.ShippingCost + p.Taxes)
          ∧ (db.decimal p.BasePrice = p.BasePrice →
              db.decimal p.ShippingCost = p.ShippingCost →
              db.decimal p.Taxes = p.Taxes →
              db.decimal (p.BasePrice + p.ShippingCost + p.Taxes)
                = p.BasePrice + p.ShippingCost + p.Taxes →
              row.TotalPrice = row.BasePrice + row.ShippingCost + row.Taxes)
          ∧ ∀ x ∈ (productRepository.Create p db).2.products, x = row ∨ x ∈ db.products)
    ∧ (∀ db : DB α, (productRepository.Update p db).1.1 = none →
        ((productRepository.Update p db).1.2.BasePrice = p.BasePrice
          ∧ (productRepository.Update p db).1.2.ShippingCost = p.ShippingCost
          ∧ (productRepository.Update p db).1.2.Taxes = p.Taxes
          ∧ (productRepository.Update p db).1.2.TotalPrice
              = p.BasePrice + p.ShippingCost + p.Taxes)
        ∧ ∃ row : Product α, row ∈ (productRepository.Update p db).2.products
          ∧ row.BasePrice = db.decimal p.BasePrice
          ∧ row.ShippingCost = db.decimal p.ShippingCost
          ∧ row.Taxes = db.decimal p.Taxes
          ∧ row.TotalPrice = db.decimal (p.BasePrice + p.ShippingCost + p.Taxes)
          ∧ (db.decimal p.BasePrice = p.BasePrice →
              db.decimal p.ShippingCost = p.ShippingCost →
              db.decimal p.Taxes = p.Taxes →
              db.decimal (p.BasePrice + p.ShippingCost + p.Taxes)
                = p.BasePrice + p.ShippingCost + p.Taxes →
              row.TotalPrice = row.BasePrice + row.ShippingCost + row.Taxes)
          ∧ ∀ x ∈ (productRepository.Update p db).2.products, x = row ∨ x ∈ db.products) := by
  have hrow : ∀ (db : DB α) (saved : Product α), saved.BasePrice = p.BasePrice →
      saved.ShippingCost = p.ShippingCost → saved.Taxes = p.Taxes →
      saved.TotalPrice = p.BasePrice + p.ShippingCost + p.Taxes →
      (db.productRow saved).BasePrice = db.decimal p.BasePrice
        ∧ (db.productRow saved).ShippingCost = db.decimal p.ShippingCost
        ∧ (db.productRow saved).Taxes = db.decimal p.Taxes
        ∧ (db.productRow saved).TotalPrice
            = db.decimal (p.BasePrice + p.ShippingCost + p.Taxes)
        ∧ (db.decimal p.BasePrice = p.BasePrice →
            db.decimal p.ShippingCost = p.ShippingCost →
            db.decimal p.Taxes = p.Taxes →
            db.decimal (p.BasePrice + p.ShippingCost + p.Taxes)
              = p.BasePrice + p.ShippingCost + p.Taxes →
            (db.productRow saved).TotalPrice
              = (db.productRow saved).BasePrice + (db.productRow saved).ShippingCost
                + (db.productRow saved).Taxes) := by
    intro db saved hb hs ht htot
    have e1 : (db.productRow saved).BasePrice = db.decimal p.BasePrice := by
      rw [← hb]; rfl
    have e2 : (db.productRow saved).ShippingCost = db.decimal p.ShippingCost := by
      rw [← hs]; rfl
    have e3 : (db.productRow saved).Taxes = db.decimal p.Taxes := by
      rw [← ht]; rfl
    have e4 : (db.productRow saved).TotalPrice
        = db.decimal (p.BasePrice + p.ShippingCost + p.Taxes) := by
      rw [← htot]; rfl
    exact ⟨e1, e2, e3, e4, fun x1 x2 x3 x4 => by rw [e1, e2, e3, e4, x1, x2, x3, x4]⟩
  refine ⟨rfl, fun t => rfl, fun db hok => ?_, fun db hok => ?_⟩
  · obtain ⟨h1, h3, h4, h5, h6⟩ := Create_persists_total p db hok
    obtain ⟨e1, e2, e3, e4, e5⟩ := hrow db _ h3 h4 h5 h6
    refine ⟨⟨h3, h4, h5, h6⟩, _, by rw [h1]; simp, e1, e2, e3, e4, e5, fun x hx => ?_⟩
    rw [h1] at hx
    rcases List.mem_append.mp hx with h | h
    · exact Or.inr h
    · exact Or.inl (by simpa using h)
  · obtain ⟨h1, h3, h4, h5, h6, h7⟩ := Update_persists_total p db hok
    obtain ⟨e1, e2, e3, e4, e5⟩ := hrow db _ h3 h4 h5 h6
    exact ⟨⟨h3, h4, h5, h6⟩, _, h1, e1, e2, e3, e4, e5, h7⟩

/-- C4, amended, on the seeded store: creating the product with amounts 100, 10 and 5 hands
over a struct of total 115 and stores a row of total 115, and updating that row to amounts
200, 20 and 10 stores a row of total 230; these amounts are whole numbers of cents. -/
theorem BeforeSave_total_price_witness :
    ((newProduct 1 1 none 100 10 5).BeforeSave).2.TotalPrice = 115
    ∧ (∃ row : Product ℚ,
        row ∈ (productRepository.Create (newProduct 1 1 none 100 10 5) seededDB).2.products
          ∧ row.TotalPrice = 115
          ∧ row.TotalPrice = row.BasePrice + row.ShippingCost + row.Taxes)
    ∧ (∃ row : Product ℚ,
        row ∈ (productRepository.Update
            { newProduct 1 1 none 200 20 10 with ID := 1, TotalPrice := 7 } pricedDB).2.products
          ∧ row.TotalPrice = 230
          ∧ row.TotalPrice = row.BasePrice + row.ShippingCost + row.Taxes) := by
  have hcents : ∀ n : ℤ, roundCents (n : ℚ) = n :=
    fun n => roundCents_of_cents _ (n * 100) (by push_cast; ring)
  refine ⟨?_, ?_, ?_⟩
  · rw [(BeforeSave_total_price (newProduct 1 1 none 100 10 5)).1]
    norm_num [newProduct]
  · obtain ⟨_, row, hmem, _, _, _, htot, hsum, _⟩ :=
      (BeforeSave_total_price (newProduct 1 1 none 100 10 5)).2.2.1 seededDB rfl
    refine ⟨row, hmem, ?_, hsum (hcents 100) (hcents 10) (hcents 5) ?_⟩
    · rw [htot]
      have h115 := hcents 115
      norm_num [newProduct] at h115 ⊢
      exact h115
    · have h115 := hcents 115
      norm_num [newProduct] at h115 ⊢
      exact h115
  · obtain ⟨_, row, hmem, _, _, _, htot, hsum, _⟩ :=
      (BeforeSave_total_price
        ({ newProduct 1 1 none 200 20 10 with ID := 1, TotalPrice := 7 } : Product ℚ)).2.2.2
        pricedDB rfl
    refine ⟨row, hmem, ?_, hsum (hcents 200) (hcents 20) (hcents 10) ?_⟩
    · rw [htot]
      have h230 := hcents 230
      norm_num [newProduct] at h230 ⊢
      exact h230
    · have h230 := hcents 230
      norm_num [newProduct] at h230 ⊢
      exact h230

/-! ## Cost aggregation -/

/-- Inserting an element that precedes every element of the list puts it in front. -/
theorem orderedInsert_of_forall {β : Type} (r : β → β → Prop) [DecidableRel r] (a : β)
    (l : List β) (h : ∀ b ∈ l, r a b) : l.orderedInsert r a = a :: l := by
  cases l with
  | nil => rfl
  | cons b l => simp [List.orderedInsert, h b (List.mem_cons_self _ _)]

/-- Filtering commutes with insertion into a sorted list. -/
theorem filter_orderedInsert {β : Type} (r : β → β → Prop) [DecidableRel r]
    (htr : ∀ a b c, r a b → r b c → r a c) (q : β → Bool) (a : β) (l : List β)
    (hl : l.Sorted r) :
    (l.orderedInsert r a).filter q
      = if q a = true then (l.filter q).orderedInsert r a else l.filter q := by
  induction l with
  | nil => by_cases hq : q a = true <;> simp [hq]
  | cons b l ih =>
    have hbl := List.sorted_cons.mp hl
    by_cases hab : r a b
    · have hall : ∀ c ∈ (b :: l).filter q, r a c := by
        intro c hc
        rcases List.mem_cons.mp (List.mem_filter.mp hc).1 with rfl | h
        · exact hab
        · exact htr _ _ _ hab (hbl.1 c h)
      have hins : (b :: l).orderedInsert r a = a :: b :: l := by
        simp [List.orderedInsert, hab]
      rw [hins]
      by_cases hq : q a = true
      · rw [if_pos hq, orderedInsert_of_forall r a _ hall, List.filter_cons_of_pos hq]
      · rw [if_neg hq, List.filter_cons_of_neg hq]
    · have hins : (b :: l).orderedInsert r a = b :: l.orderedInsert r a := by
        simp [List.orderedInsert, hab]
      rw [hins]
      by_cases hqb : q b = true
      · rw [List.filter_cons_of_pos hqb, ih hbl.2, List.filter_cons_of_pos hqb]
        by_cases hq : q a = true
        · simp [hq, List.orderedInsert, hab]
        · simp [hq]
      · rw [List.filter_cons_of_neg hqb, ih hbl.2, List.filter_cons_of_neg hqb]

/-- A `WHERE` condition may be applied before or after the (stable) `ORDER BY`. -/
theorem filter_insertionSort {β : Type} (r : β → β → Prop) [DecidableRel r]
    (htot : ∀ a b, r a b ∨ r b a) (htr : ∀ a b c, r a b → r b c → r a c)
    (q : β → Bool) (l : List β) :
    (l.insertionSort r).filter q = (l.filter q).insertionSort r := by
  haveI : IsTotal β r := ⟨htot⟩
  haveI : IsTrans β r := ⟨fun a b c => htr a b c⟩
  induction l with
  | nil => rfl
  | cons a l ih =>
    rw [List.insertionSort, filter_orderedInsert r htr q a _ (List.sorted_insertionSort r l), ih]
    by_cases hq : q a = true
    · rw [if_pos hq, List.filter_cons_of_pos hq, List.insertionSort]
    · rw [if_neg hq, List.filter_cons_of_neg hq]

/-- The order `created_at DESC` commutes with any further row condition. -/
theorem filter_orderByCreatedAtDesc {α : Type} (q : Product α → Bool) (l : List (Product α)) :
    (orderByCreatedAtDesc l).filter q = orderByCreatedAtDesc (l.filter q) :=
  filter_insertionSort (fun a b : Product α => b.CreatedAt ≤ a.CreatedAt)
    (fun a b => Nat.le_total b.CreatedAt a.CreatedAt)
    (fun _ _ _ hab hbc => Nat.le_trans hbc hab) q l

/-- On a reachable store `FindPending` returns the products of the collection with
`is_purchased = false`. -/
theorem FindPending_eq {α : Type} (db : DB α) (hup : db.fault = none) :
    productRepository.FindPending db
      = (Except.ok (db.collection.filter (fun p => p.IsPurchased == false)), db) := by
  have hrows : db.products.filter (fun r => r.DeletedAt.isNone && r.IsPurchased == false)
      = (db.products.filter (fun p => p.DeletedAt.isNone)).filter
          (fun p => p.IsPurchased == false) := by
    rw [List.filter_filter]
    congr 1
    funext a
    exact Bool.and_comm _ _
  have hpre : (fun p : Product α => p.IsPurchased == false) ∘ db.preloadProduct
      = fun p => p.IsPurchased == false := by
    funext a
    rfl
  unfold productRepository.FindPending gormFind DB.collection
  rw [hup]
  simp only
  rw [List.filter_map, hpre, filter_orderByCreatedAtDesc, hrows]

/-- On a reachable store `FindAll` returns the collection. -/
theorem FindAll_eq {α : Type} (db : DB α) (hup : db.fault = none) :
    productRepository.FindAll db = (Except.ok db.collection, db) := by
  unfold productRepository.FindAll gormFind DB.collection
  rw [hup]
  simp

/-- The loop of `GetTotalPendingCost` adds up, left to right, the totals of the products
whose loaded category is of type `one_time`. -/
theorem foldl_pendingStep {α : Type} [Add α] (l : List (Product α)) (acc : α) :
    l.foldl pendingStep acc
      = ((l.filter (fun p => p.hasCategoryType "one_time")).map Product.TotalPrice).foldl
          (fun total x => total + x) acc := by
  induction l generalizing acc with
  | nil => rfl
  | cons p l ih =>
    rw [List.foldl_cons, ih]
    cases hc : p.Category with
    | none => simp [pendingStep, Product.hasCategoryType, hc]
    | some c =>
      by_cases ht : c.Type_ = "one_time"
      · simp [pendingStep, Product.hasCategoryType, hc, ht]
      · simp [pendingStep, Product.hasCategoryType, hc, ht]

/-- For any repository, `GetTotalPendingCost` is the left-to-right sum of the totals of the
one-time products among those `FindPending` returns. -/
theorem GetTotalPendingCost_of_pending {σ α : Type} [Zero α] [Add α] (s : productService σ α)
    (st st1 : σ) (products : List (Product α))
    (hfind : s.productRepo.FindPending st = (Except.ok products, st1)) :
    s.GetTotalPendingCost st
      = (Except.ok (sumLeft ((products.filter
          (fun p => p.hasCategoryType "one_time")).map Product.TotalPrice)), st1) := by
  unfold productService.GetTotalPendingCost
  rw [hfind]
  simp only [foldl_pendingStep, sumLeft]

/-- C5: on a reachable store `GetTotalPendingCost` returns, with a nil error, the
left-to-right sum of `total_price` over exactly the products of the collection that have
`is_purchased = false` and a loaded category of type "one_time"; purchased products,
products of another category type and products without loaded category are not summed. -/
theorem GetTotalPendingCost_sum {α : Type} [Zero α] [Add α] (db : DB α)
    (hup : db.fault = none) :
    gormService.GetTotalPendingCost db
      = (Except.ok (sumLeft ((db.collection.filter specPendingOneTime).map
          Product.TotalPrice)), db) := by
  have hsel : db.collection.filter specPendingOneTime
      = (db.collection.filter (fun p => p.IsPurchased == false)).filter
          (fun p => p.hasCategoryType "one_time") := by
    rw [List.filter_filter]
    congr 1
    funext a
    exact Bool.and_comm _ _
  rw [GetTotalPendingCost_of_pending gormService db db _ (FindPending_eq db hup), hsel]

/-- C5, on the store `mixedDB`: only the pending one-time product of total 115 is summed. -/
theorem GetTotalPendingCost_sum_witness :
    gormService.GetTotalPendingCost mixedDB = (Except.ok 115, mixedDB) := by
  have hsel : (mixedDB.collection.filter specPendingOneTime).map Product.TotalPrice = [115] :=
    rfl
  rw [GetTotalPendingCost_sum mixedDB rfl, hsel]
  norm_num [sumLeft]

/-- One round of the monthly loop adds the spec's monthly share, when there is one. -/
theorem monthlyStep_eq {α : Type} [Add α] [Div α] [OfNat α 12] (acc : α) (p : Product α) :
    monthlyStep acc p = match specMonthlyShare p with
      | some x => acc + x
      | none => acc := by
  unfold monthlyStep specMonthlyShare Product.hasCategoryType
  cases hc : p.Category with
  | none => simp
  | some c =>
    cases hr : p.RecurrenceType with
    | none => by_cases ht : c.Type_ = "recurring" <;> simp [ht]
    | some r =>
      by_cases ht : c.Type_ = "recurring"
      · by_cases hm : r = "monthly"
        · simp [ht, hm]
        · by_cases hy : r = "yearly"
          · simp [ht, hy]
          · simp [ht, hm, hy]
      · simp [ht]

/-- One round of the yearly loop adds the spec's yearly share, when there is one. -/
theorem yearlyStep_eq {α : Type} [Add α] [Mul α] [OfNat α 12] (acc : α) (p : Product α) :
    yearlyStep acc p = match specYearlyShare p with
      | some x => acc + x
      | none => acc := by
  unfold yearlyStep specYearlyShare Product.hasCategoryType
  cases hc : p.Category with
  | none => simp
  | some c =>
    cases hr : p.RecurrenceType with
    | none => by_cases ht : c.Type_ = "recurring" <;> simp [ht]
    | some r =>
      by_cases ht : c.Type_ = "recurring"
      · by_cases hy : r = "yearly"
        · simp [ht, hy]
        · by_cases hm : r = "monthly"
          · simp [ht, hm]
          · simp [ht, hm, hy]
      · simp [ht]

/-- A loop that adds a share when there is one computes the left-to-right sum of the shares
that exist. -/
theorem foldl_share {α β : Type} [Add α] (step : α → β → α) (share : β → Option α)
    (hstep : ∀ acc b, step acc b = match share b with
      | some x => acc + x
      | none => acc)
    (l : List β) (acc : α) :
    l.foldl step acc = (l.filterMap share).foldl (fun total x => total + x) acc := by
  induction l generalizing acc with
  | nil => rfl
  | cons b l ih =>
    rw [List.foldl_cons, ih, hstep]
    cases hs : share b with
    | none => rw [List.filterMap_cons_none hs]
    | some x => rw [List.filterMap_cons_some hs, List.foldl_cons]

/-- When adding `0` changes nothing, summing the shares that exist is summing every share
with `0` standing for a missing one. -/
theorem foldl_filterMap_getD {α β : Type} [Zero α] [Add α] (hz : ∀ x : α, x + 0 = x)
    (share : β → Option α) (l : List β) (acc : α) :
    (l.filterMap share).foldl (fun total x => total + x) acc
      = (l.map (fun b => (share b).getD 0)).foldl (fun total x => total + x) acc := by
  induction l generalizing acc with
  | nil => rfl
  | cons b l ih =>
    cases hs : share b with
    | none => rw [List.filterMap_cons_none hs, List.map_cons, List.foldl_cons, hs, ih]
              simp [hz]
    | some x => rw [List.filterMap_cons_some hs, List.map_cons, List.foldl_cons,
                  List.foldl_cons, hs, ih]
                simp

/-- C6: on a reachable store `GetMonthlyRecurringCost` returns, with a nil error, the
left-to-right sum over the product collection of the monthly shares: `total_price` for a
product of a recurring category with recurrence "monthly", `total_price / 12` with
recurrence "yearly", and nothing for any other product (null or other recurrence value,
category of another type or not loaded).  When adding `0` changes no amount, this is the sum
over all products in which every other product counts `0`. -/
theorem GetMonthlyRecurringCost_sum {α : Type} [Zero α] [Add α] [Div α] [OfNat α 12]
    (db : DB α) (hup : db.fault = none) :
    gormService.GetMonthlyRecurringCost db
        = (Except.ok (sumLeft (db.collection.filterMap specMonthlyShare)), db)
      ∧ ((∀ x : α, x + 0 = x) →
          gormService.GetMonthlyRecurringCost db
            = (Except.ok (sumLeft (db.collection.map
                (fun p => (specMonthlyShare p).getD 0))), db)) := by
  have hcode : gormService.GetMonthlyRecurringCost db
      = (Except.ok (sumLeft (db.collection.filterMap specMonthlyShare)), db) := by
    unfold productService.GetMonthlyRecurringCost
    rw [show gormService.productRepo.FindAll db = productRepository.FindAll db from rfl,
      FindAll_eq db hup]
    simp only
    rw [foldl_share monthlyStep specMonthlyShare monthlyStep_eq]
    rfl
  refine ⟨hcode, fun hz => ?_⟩
  rw [hcode]
  simp only [sumLeft, foldl_filterMap_getD hz]

/-- C6, on the store `mixedDB`: the monthly subscription of 12 and a twelfth of the yearly
one of 120 give 22; the other six products count nothing. -/
theorem GetMonthlyRecurringCost_sum_witness :
    gormService.GetMonthlyRecurringCost mixedDB = (Except.ok 22, mixedDB)
      ∧ gormService.GetMonthlyRecurringCost mixedDB
          = (Except.ok (sumLeft (mixedDB.collection.map
              (fun p => (specMonthlyShare p).getD 0))), mixedDB) := by
  have hsel : mixedDB.collection.filterMap specMonthlyShare = [120 / 12, 12] := rfl
  refine ⟨?_, (GetMonthlyRecurringCost_sum mixedDB rfl).2 (fun x => add_zero x)⟩
  rw [(GetMonthlyRecurringCost_sum mixedDB rfl).1, hsel]
  norm_num [sumLeft]

/-- C7: on a reachable store `GetYearlyRecurringCost` returns, with a nil error, the
left-to-right sum over the product collection of the yearly shares: `total_price` for a
product of a recurring category with recurrence "yearly", `total_price * 12` with
recurrence "monthly", and nothing for any other product.  When adding `0` changes no
amount, this is the sum in which every other product counts `0`.  In particular the store
holding the single monthly subscription of base price 12 yields 144. -/
theorem GetYearlyRecurringCost_sum {α : Type} [Zero α] [Add α] [Mul α] [OfNat α 12]
    (db : DB α) (hup : db.fault = none) :
    gormService.GetYearlyRecurringCost db
        = (Except.ok (sumLeft (db.collection.filterMap specYearlyShare)), db)
      ∧ ((∀ x : α, x + 0 = x) →
          gormService.GetYearlyRecurringCost db
            = (Except.ok (sumLeft (db.collection.map
                (fun p => (specYearlyShare p).getD 0))), db))
      ∧ gormService.GetYearlyRecurringCost subscriptionDB
          = (Except.ok 144, subscriptionDB) := by
  have hcode : ∀ d : DB α, d.fault = none → gormService.GetYearlyRecurringCost d
      = (Except.ok (sumLeft (d.collection.filterMap specYearlyShare)), d) := by
    intro d hd
    unfold productService.GetYearlyRecurringCost
    rw [show gormService.productRepo.FindAll d = productRepository.FindAll d from rfl,
      FindAll_eq d hd]
    simp only
    rw [foldl_share yearlyStep specYearlyShare yearlyStep_eq]
    rfl
  refine ⟨hcode db hup, fun hz => ?_, ?_⟩
  · rw [hcode db hup]
    simp only [sumLeft, foldl_filterMap_getD hz]
  · have hsel : subscriptionDB.collection.filterMap specYearlyShare
        = [roundCents (12 + 0 + 0) * 12] := rfl
    have hcents : roundCents (12 + 0 + 0) = 12 := by
      rw [roundCents_eq (12 + 0 + 0) 1200 (by norm_num) (by norm_num) (by norm_num)]
      norm_num
    unfold productService.GetYearlyRecurringCost
    rw [show gormService.productRepo.FindAll subscriptionDB
        = productRepository.FindAll subscriptionDB from rfl,
      FindAll_eq subscriptionDB rfl]
    simp only
    rw [foldl_share yearlyStep specYearlyShare yearlyStep_eq, hsel, hcents]
    norm_num

/-- C7, on the store `mixedDB`: twelve times the monthly subscription of 12 and the yearly
one of 120 give 264. -/
theorem GetYearlyRecurringCost_sum_witness :
    gormService.GetYearlyRecurringCost mixedDB = (Except.ok 264, mixedDB)
      ∧ gormService.GetYearlyRecurringCost mixedDB
          = (Except.ok (sumLeft (mixedDB.collection.map
              (fun p => (specYearlyShare p).getD 0))), mixedDB) := by
  have hsel : mixedDB.collection.filterMap specYearlyShare = [120, 12 * 12] := rfl
  refine ⟨?_, (GetYearlyRecurringCost_sum mixedDB rfl).2.1 (fun x => add_zero x)⟩
  rw [(GetYearlyRecurringCost_sum mixedDB rfl).1, hsel]
  norm_num [sumLeft]

/-- The collection with the purchase fields blanked is determined by the category and
subcategory tables and by the product rows with the purchase fields blanked. -/
theorem collection_forgetPurchase {α : Type} (db : DB α) :
    db.collection.map Product.forgetPurchase
      = (orderByCreatedAtDesc
          ((db.products.map Product.forgetPurchase).filter
            (fun p => p.DeletedAt.isNone))).map db.preloadProduct := by
  have hsort : ∀ l : List (Product α),
      (orderByCreatedAtDesc l).map Product.forgetPurchase
        = orderByCreatedAtDesc (l.map Product.forgetPurchase) := by
    intro l
    exact List.map_insertionSort (fun a b : Product α => b.CreatedAt ≤ a.CreatedAt)
      (fun a b : Product α => b.CreatedAt ≤ a.CreatedAt) Product.forgetPurchase l
      (fun a _ b _ => Iff.rfl)
  have hpre : Product.forgetPurchase ∘ db.preloadProduct
      = db.preloadProduct ∘ (Product.forgetPurchase : Product α → Product α) := by
    funext a
    rfl
  have hlive : (fun p : Product α => p.DeletedAt.isNone) ∘ Product.forgetPurchase
      = fun p => p.DeletedAt.isNone := by
    funext a
    rfl
  unfold DB.collection
  rw [List.map_map, hpre, ← List.map_map, hsort, List.filter_map, hlive]

/-- The monthly loop does not read the purchase fields. -/
theorem foldl_monthlyStep_forgetPurchase {α : Type} [Add α] [Div α] [OfNat α 12]
    (l : List (Product α)) (acc : α) :
    l.foldl monthlyStep acc = (l.map Product.forgetPurchase).foldl monthlyStep acc := by
  rw [List.foldl_map]
  rfl

/-- The yearly loop does not read the purchase fields. -/
theorem foldl_yearlyStep_forgetPurchase {α : Type} [Add α] [Mul α] [OfNat α 12]
    (l : List (Product α)) (acc : α) :
    l.foldl yearlyStep acc = (l.map Product.forgetPurchase).foldl yearlyStep acc := by
  rw [List.foldl_map]
  rfl

/-- C8: two stores with the same categories, subcategories and reachability whose product
rows agree once `is_purchased` and `purchase_date` are blanked give the same monthly
recurring cost and the same yearly recurring cost. -/
theorem recurring_costs_ignore_purchase {α : Type} [Zero α] [Add α] [Mul α] [Div α]
    [OfNat α 12] (db1 db2 : DB α)
    (hcat : db1.categories = db2.categories)
    (hsub : db1.subcategories = db2.subcategories)
    (hfault : db1.fault = db2.fault)
    (hrows : db1.products.map Product.forgetPurchase
      = db2.products.map Product.forgetPurchase) :
    (gormService.GetMonthlyRecurringCost db1).1 = (gormService.GetMonthlyRecurringCost db2).1
      ∧ (gormService.GetYearlyRecurringCost db1).1
          = (gormService.GetYearlyRecurringCost db2).1 := by
  have hpre : (db1.preloadProduct : Product α → Product α) = db2.preloadProduct := by
    funext a
    unfold DB.preloadProduct
    rw [hcat, hsub]
  have hcoll : db1.collection.map Product.forgetPurchase
      = db2.collection.map Product.forgetPurchase := by
    rw [collection_forgetPurchase, collection_forgetPurchase, hrows, hpre]
  have hall : ∀ d : DB α, gormService.productRepo.FindAll d = productRepository.FindAll d :=
    fun _ => rfl
  cases hf : db2.fault with
  | some err =>
    have h1 : productRepository.FindAll db1 = (Except.error err, db1) := by
      unfold productRepository.FindAll gormFind
      rw [hfault, hf]
    have h2 : productRepository.FindAll db2 = (Except.error err, db2) := by
      unfold productRepository.FindAll gormFind
      rw [hf]
    unfold productService.GetMonthlyRecurringCost productService.GetYearlyRecurringCost
    rw [hall, hall, h1, h2]
    exact ⟨rfl, rfl⟩
  | none =>
    unfold productService.GetMonthlyRecurringCost productService.GetYearlyRecurringCost
    rw [hall, hall, FindAll_eq db1 (hfault.trans hf), FindAll_eq db2 hf]
    simp only
    rw [foldl_monthlyStep_forgetPurchase db1.collection,
      foldl_monthlyStep_forgetPurchase db2.collection,
      foldl_yearlyStep_forgetPurchase db1.collection,
      foldl_yearlyStep_forgetPurchase db2.collection, hcoll]
    exact ⟨rfl, rfl⟩

/-- C8, on the store `mixedDB` and the same store with every purchase flag flipped: both
recurring costs agree. -/
theorem recurring_costs_ignore_purchase_witness :
    (gormService.GetMonthlyRecurringCost mixedDB).1
        = (gormService.GetMonthlyRecurringCost mixedDBFlipped).1
      ∧ (gormService.GetYearlyRecurringCost mixedDB).1
          = (gormService.GetYearlyRecurringCost mixedDBFlipped).1 :=
  recurring_costs_ignore_purchase mixedDB mixedDBFlipped rfl rfl rfl rfl

/-- C9: on a reachable store whose product collection is empty the three aggregates return
`0` with a nil error and the stats handler answers 200 with the three aggregates `0`. -/
theorem aggregates_of_empty_collection {α : Type} [Zero α] [Add α] [Mul α] [Div α]
    [OfNat α 12] (db : DB α) (hup : db.fault = none) (hempty : db.collection = []) :
    gormService.GetTotalPendingCost db = (Except.ok 0, db)
      ∧ gormService.GetMonthlyRecurringCost db = (Except.ok 0, db)
      ∧ gormService.GetYearlyRecurringCost db = (Except.ok 0, db)
      ∧ productHandler.GetStats db = ({ status := 200, body := Body.stats 0 0 0 }, db) := by
  have h1 : gormService.GetTotalPendingCost db = (Except.ok 0, db) := by
    rw [GetTotalPendingCost_of_pending gormService db db _ (FindPending_eq db hup), hempty]
    rfl
  have h2 : gormService.GetMonthlyRecurringCost db = (Except.ok 0, db) := by
    unfold productService.GetMonthlyRecurringCost
    rw [show gormService.productRepo.FindAll db = productRepository.FindAll db from rfl,
      FindAll_eq db hup, hempty]
    rfl
  have h3 : gormService.GetYearlyRecurringCost db = (Except.ok 0, db) := by
    unfold productService.GetYearlyRecurringCost
    rw [show gormService.productRepo.FindAll db = productRepository.FindAll db from rfl,
      FindAll_eq db hup, hempty]
    rfl
  refine ⟨h1, h2, h3, ?_⟩
  unfold ProductHandler.GetStats
  rw [show productHandler.service.GetTotalPendingCost db
      = gormService.GetTotalPendingCost db from rfl, h1]
  simp only
  rw [show productHandler.service.GetMonthlyRecurringCost db
      = gormService.GetMonthlyRecurringCost db from rfl, h2]
  simp only
  rw [show productHandler.service.GetYearlyRecurringCost db
      = gormService.GetYearlyRecurringCost db from rfl, h3]

/-- C9, on the seeded store, which holds no product. -/
theorem aggregates_of_empty_collection_witness :
    gormService.GetTotalPendingCost seededDB = (Except.ok 0, seededDB)
      ∧ gormService.GetMonthlyRecurringCost seededDB = (Except.ok 0, seededDB)
      ∧ gormService.GetYearlyRecurringCost seededDB = (Except.ok 0, seededDB)
      ∧ productHandler.GetStats seededDB
          = ({ status := 200, body := Body.stats 0 0 0 }, seededDB) :=
  aggregates_of_empty_collection seededDB rfl rfl

/-! ## The purchase date -/

/-- A successful `productRepository.FindByID` leaves the store alone, happens on a reachable
store and returns a live row of the requested key with its relations loaded. -/
theorem FindByID_ok {α : Type} (j : Nat) (db st1 : DB α) (product : Product α)
    (h : productRepository.FindByID j db = (Except.ok product, st1)) :
    st1 = db ∧ db.fault = none
      ∧ ∃ r ∈ db.products, r.DeletedAt = none ∧ r.ID = j ∧ product = db.preloadProduct r := by
  unfold productRepository.FindByID gormFirst at h
  cases hf : db.fault with
  | some err =>
    rw [hf] at h
    simp only at h
    split_ifs at h <;> simp at h
  | none =>
    rw [hf] at h
    simp only at h
    cases hfind : (db.products.filter (fun r => r.DeletedAt.isNone)).find?
        (fun r => r.ID == j) with
    | none =>
      rw [hfind] at h
      simp at h
    | some r =>
      rw [hfind] at h
      simp only [Prod.mk.injEq, Except.ok.injEq] at h
      have hmem := List.mem_filter.mp (List.mem_of_find?_eq_some hfind)
      have hkey := List.find?_some hfind
      refine ⟨h.2.symm, rfl, r, hmem.1, ?_, ?_, h.1.symm⟩
      · simpa using hmem.2
      · simpa using hkey

/-- `productRepository.FindByID` never changes the store. -/
theorem FindByID_store {α : Type} (j : Nat) (db : DB α) :
    (productRepository.FindByID j db).2 = db := by
  unfold productRepository.FindByID
  split
  · split_ifs <;> rfl
  · rfl

/-- An auto-increment key is larger than every key in use. -/
theorem lt_nextID (ids : List Nat) : ∀ x ∈ ids, x < nextID ids := by
  have hfold : ∀ (l : List Nat) (a : Nat),
      a ≤ l.foldl max a ∧ ∀ x ∈ l, x ≤ l.foldl max a := by
    intro l
    induction l with
    | nil => intro a; exact ⟨Nat.le_refl a, fun x hx => absurd hx (List.not_mem_nil x)⟩
    | cons b l ih =>
      intro a
      obtain ⟨h1, h2⟩ := ih (max a b)
      refine ⟨Nat.le_trans (Nat.le_max_left a b) h1, fun x hx => ?_⟩
      rcases List.mem_cons.mp hx with rfl | h
      · exact Nat.le_trans (Nat.le_max_right a x) h1
      · exact h2 x h
  intro x hx
  exact Nat.lt_succ_of_le ((hfold ids 0).2 x hx)

/-- The purchase-date rule of `ProductHandler.Update` on the product that was looked up. -/
theorem applyUpdate_PurchaseDate {α : Type} (product : Product α)
    (req : UpdateProductRequest α) (now : Time) :
    (applyUpdate product req now).PurchaseDate
      = if req.IsPurchased = true ∧ product.PurchaseDate = none then some now
        else product.PurchaseDate := by
  unfold applyUpdate
  cases hp : req.IsPurchased <;> cases hd : product.PurchaseDate <;> simp [hp, hd]

/-- `ProductHandler.Update` keeps the key and the deletion mark of the product. -/
theorem applyUpdate_key {α : Type} (product : Product α) (req : UpdateProductRequest α)
    (now : Time) :
    (applyUpdate product req now).ID = product.ID
      ∧ (applyUpdate product req now).DeletedAt = product.DeletedAt := by
  unfold applyUpdate
  dsimp only
  split_ifs <;> exact ⟨rfl, rfl⟩

/-- `productRepository.Update` of a product with a key that a live row carries: every live
row of that key is overwritten by the row the table keeps for the product, total recomputed
and foreign keys set from the loaded relations. -/
theorem Update_of_live {α : Type} [Add α] (p : Product α) (db : DB α)
    (hup : db.fault = none) (hid : p.ID ≠ 0)
    (hlive : ∃ r ∈ db.products, r.DeletedAt = none ∧ r.ID = p.ID) :
    productRepository.Update p db =
      ((none, { (p.BeforeSave).2.syncKeys with UpdatedAt := db.clock }),
        { db with products := db.products.map (fun x =>
            if x.DeletedAt.isNone && x.ID == p.ID then
              db.productRow { (p.BeforeSave).2.syncKeys with UpdatedAt := db.clock }
            else x) }) := by
  have hany : db.products.any (fun x => x.DeletedAt.isNone && x.ID == p.ID) = true := by
    obtain ⟨r, hr, hd, hk⟩ := hlive
    exact List.any_eq_true.mpr ⟨r, hr, by simp [hd, hk]⟩
  unfold productRepository.Update
  simp only [Product.BeforeSave, hup, hid, if_false, saveRow, Product.columns,
    DB.productRow, Product.syncKeys, hany, if_true]

/-- `productRepository.Update` of a product without key on a reachable store appends one
row, under a fresh key, with the purchase date of the product. -/
theorem Update_of_zero {α : Type} [Add α] (p : Product α) (db : DB α)
    (hup : db.fault = none) (hid : p.ID = 0) :
    ∃ row : Product α,
      (productRepository.Update p db).2.products = db.products ++ [row]
        ∧ row.ID = nextID (db.products.map Product.ID)
        ∧ row.PurchaseDate = p.PurchaseDate := by
  unfold productRepository.Update productRepository.Create
  simp only [Product.BeforeSave, hup, hid, if_true, Product.columns, ne_eq,
    not_true_eq_false, false_and, if_false]
  exact ⟨_, rfl, rfl, rfl⟩

/-- The handler `ProductHandler.Update` on the GORM store, once the key parsed, the product
was found and the body parsed. -/
theorem Update_handler_found {α : Type} [Zero α] [Add α] [Mul α] [Div α] [OfNat α 12]
    (db : DB α) (idParam : String) (id : Nat) (req : UpdateProductRequest α) (now : Time)
    (product : Product α) (hparse : ParseUint idParam 32 = some id)
    (hfind : productRepository.FindByID id db = (Except.ok product, db)) :
    productHandler.Update idParam (some req) now db =
      (if (productRepository.Update (applyUpdate product req now) db).1.1 = none then
          { status := 200,
            body := Body.product (productRepository.Update (applyUpdate product req now) db).1.2 }
        else { status := 500, body := Body.error "Failed to update product" },
        (productRepository.Update (applyUpdate product req now) db).2) := by
  unfold ProductHandler.Update
  rw [hparse]
  simp only
  rw [show productHandler.repo.FindByID id db = productRepository.FindByID id db from rfl,
    hfind]
  simp only
  rw [show productHandler.repo.Update (applyUpdate product req now) db
    = productRepository.Update (applyUpdate product req now) db from rfl]
  generalize productRepository.Update (applyUpdate product req now) db = res
  rcases res with ⟨⟨e, saved⟩, st2⟩
  cases e <;> simp

/-- One update request keeps a purchase date that every row of a key carries, and keeps a
row of that key in the table. -/
theorem Update_handler_keeps_purchase_date {α : Type} [Zero α] [Add α] [Mul α] [Div α]
    [OfNat α 12] (db : DB α) (id : Nat) (t : Time)
    (hex : ∃ row ∈ db.products, row.ID = id)
    (hinv : ∀ row ∈ db.products, row.ID = id → row.PurchaseDate = some t)
    (idParam : String) (body : Option (UpdateProductRequest α)) (now : Time) :
    (∃ row ∈ (productHandler.Update idParam body now db).2.products, row.ID = id)
      ∧ ∀ row ∈ (productHandler.Update idParam body now db).2.products,
          row.ID = id → row.PurchaseDate = some t := by
  have hsame : (productHandler.Update idParam body now db).2 = db →
      (∃ row ∈ (productHandler.Update idParam body now db).2.products, row.ID = id)
        ∧ ∀ row ∈ (productHandler.Update idParam body now db).2.products,
            row.ID = id → row.PurchaseDate = some t := by
    intro h
    rw [h]
    exact ⟨hex, hinv⟩
  cases hparse : ParseUint idParam 32 with
  | none =>
    apply hsame
    unfold ProductHandler.Update
    rw [hparse]
  | some j =>
    have hstore := FindByID_store j db
    cases hfind : productRepository.FindByID j db with
    | mk res st1 =>
      rw [hfind] at hstore
      simp only at hstore
      subst hstore
      cases res with
      | error e =>
        apply hsame
        unfold ProductHandler.Update
        rw [hparse]
        simp only
        rw [show productHandler.repo.FindByID j st1 = productRepository.FindByID j st1
          from rfl, hfind]
      | ok product =>
        cases body with
        | none =>
          apply hsame
          unfold ProductHandler.Update
          rw [hparse]
          simp only
          rw [show productHandler.repo.FindByID j st1 = productRepository.FindByID j st1
            from rfl, hfind]
        | some req =>
          obtain ⟨_, hup, r, hr, hrlive, hrkey, hprod⟩ := FindByID_ok j st1 st1 product hfind
          have hpid : (applyUpdate product req now).ID = j := by
            rw [(applyUpdate_key product req now).1, hprod]
            exact hrkey
          rw [Update_handler_found st1 idParam j req now product hparse hfind]
          simp only
          by_cases hj : j = 0
          · obtain ⟨row, hrows, hrowid, _⟩ :=
              Update_of_zero (applyUpdate product req now) st1 hup (hpid.trans hj)
            rw [hrows]
            obtain ⟨row0, hrow0, hid0⟩ := hex
            refine ⟨⟨row0, List.mem_append_left _ hrow0, hid0⟩, fun x hx hxid => ?_⟩
            rcases List.mem_append.mp hx with h | h
            · exact hinv x h hxid
            · have hxrow : x = row := by simpa using h
              have hlt := lt_nextID (st1.products.map Product.ID) id
                (List.mem_map.mpr ⟨row0, hrow0, hid0⟩)
              rw [← hrowid, ← hxrow, hxid] at hlt
              exact absurd hlt (Nat.lt_irrefl id)
          · rw [Update_of_live (applyUpdate product req now) st1 hup (by rw [hpid]; exact hj)
              ⟨r, hr, hrlive, by rw [hpid]; exact hrkey⟩]
            simp only [hpid]
            constructor
            · obtain ⟨row0, hrow0, hid0⟩ := hex
              refine ⟨_, List.mem_map.mpr ⟨row0, hrow0, rfl⟩, ?_⟩
              by_cases hc : (row0.DeletedAt.isNone && row0.ID == j) = true
              · rw [if_pos hc]
                have hk : row0.ID = j := by
                  simp only [Bool.and_eq_true, beq_iff_eq] at hc
                  exact hc.2
                show (applyUpdate product req now).ID = id
                rw [hpid, ← hk, hid0]
              · rw [if_neg hc]
                exact hid0
            · intro x hx hxid
              obtain ⟨y, hy, rfl⟩ := List.mem_map.mp hx
              by_cases hc : (y.DeletedAt.isNone && y.ID == j) = true
              · rw [if_pos hc] at hxid ⊢
                have hji : j = id := hpid.symm.trans hxid
                have hold : product.PurchaseDate = some t := by
                  rw [hprod]
                  exact hinv r hr (hrkey.trans hji)
                show (applyUpdate product req now).PurchaseDate = some t
                rw [applyUpdate_PurchaseDate, hold]
                simp
              · rw [if_neg hc] at hxid ⊢
                exact hinv y hy hxid

/-- A sequence of update requests keeps a purchase date that every row of a key carries. -/
theorem runUpdates_keeps_purchase_date {α : Type} [Zero α] [Add α] [Mul α] [Div α]
    [OfNat α 12] (calls : List (UpdateCall α)) (db : DB α) (id : Nat) (t : Time)
    (hex : ∃ row ∈ db.products, row.ID = id)
    (hinv : ∀ row ∈ db.products, row.ID = id → row.PurchaseDate = some t) :
    (∃ row ∈ (runUpdates db calls).products, row.ID = id)
      ∧ ∀ row ∈ (runUpdates db calls).products, row.ID = id → row.PurchaseDate = some t := by
  induction calls generalizing db with
  | nil => exact ⟨hex, hinv⟩
  | cons c calls ih =>
    have hstep := Update_handler_keeps_purchase_date
      ({ db with fault := c.fault, clock := c.clock } : DB α) id t hex hinv
      c.idParam c.body c.now
    exact ih _ hstep.1 hstep.2

/-- C10: `purchase_date` is set once and never overwritten.  (1) The product the update
handler saves has as purchase date the request time when the request has
`is_purchased = true` and the stored purchase date is null, and the stored purchase date in
every other case.  (2) On the store, an update request for a stored product answers 200 and
leaves every live row of that key, of which there is one, with exactly that purchase date.
(3) Across any sequence of update requests, whatever the requests and the condition of the
store, a purchase date `t` carried by the rows of a key stays `t`. -/
theorem purchase_date_set_once {α : Type} [Zero α] [Add α] [Mul α] [Div α] [OfNat α 12] :
    (∀ (product : Product α) (req : UpdateProductRequest α) (now : Time),
        (applyUpdate product req now).PurchaseDate
          = if req.IsPurchased = true ∧ product.PurchaseDate = none then some now
            else product.PurchaseDate)
    ∧ (∀ (db : DB α) (idParam : String) (id : Nat) (req : UpdateProductRequest α)
        (now : Time) (product : Product α),
        ParseUint idParam 32 = some id → id ≠ 0 →
        productRepository.FindByID id db = (Except.ok product, db) →
        (∃ saved : Product α,
            (productHandler.Update idParam (some req) now db).1
                = { status := 200, body := Body.product saved }
              ∧ saved.PurchaseDate
                  = if req.IsPurchased = true ∧ product.PurchaseDate = none then some now
                    else product.PurchaseDate)
          ∧ (∃ row ∈ (productHandler.Update idParam (some req) now db).2.products,
              row.ID = id ∧ row.DeletedAt = none)
          ∧ ∀ row ∈ (productHandler.Update idParam (some req) now db).2.products,
              row.ID = id → row.DeletedAt = none →
              row.PurchaseDate
                = if req.IsPurchased = true ∧ product.PurchaseDate = none then some now
                  else product.PurchaseDate)
    ∧ (∀ (db : DB α) (id : Nat) (t : Time) (calls : List (UpdateCall α)),
        (∃ row ∈ db.products, row.ID = id) →
        (∀ row ∈ db.products, row.ID = id → row.PurchaseDate = some t) →
        (∃ row ∈ (runUpdates db calls).products, row.ID = id)
          ∧ ∀ row ∈ (runUpdates db calls).products, row.ID = id →
              row.PurchaseDate = some t) := by
  refine ⟨applyUpdate_PurchaseDate, ?_, fun db id t calls hex hinv =>
    runUpdates_keeps_purchase_date calls db id t hex hinv⟩
  intro db idParam id req now product hparse hid hfind
  obtain ⟨_, hup, r, hr, hrlive, hrkey, hprod⟩ := FindByID_ok id db db product hfind
  have hpid : (applyUpdate product req now).ID = id := by
    rw [(applyUpdate_key product req now).1, hprod]
    exact hrkey
  have hpdel : (applyUpdate product req now).DeletedAt = none := by
    rw [(applyUpdate_key product req now).2, hprod]
    exact hrlive
  rw [Update_handler_found db idParam id req now product hparse hfind,
    Update_of_live (applyUpdate product req now) db hup (by rw [hpid]; exact hid)
      ⟨r, hr, hrlive, by rw [hpid]; exact hrkey⟩]
  simp only [hpid, if_true]
  refine ⟨⟨_, rfl, applyUpdate_PurchaseDate product req now⟩, ?_, ?_⟩
  · refine ⟨_, List.mem_map.mpr ⟨r, hr, rfl⟩, ?_⟩
    have hc : (r.DeletedAt.isNone && r.ID == id) = true := by
      simp [hrlive, hrkey]
    rw [if_pos hc]
    exact ⟨hpid, hpdel⟩
  · intro x hx hxid hxlive
    obtain ⟨y, hy, rfl⟩ := List.mem_map.mp hx
    by_cases hc : (y.DeletedAt.isNone && y.ID == id) = true
    · rw [if_pos hc]
      exact applyUpdate_PurchaseDate product req now
    · rw [if_neg hc] at hxid hxlive
      exact absurd (by simp [hxid, hxlive]) hc

/-- C10, on the store holding product 1 without purchase date: marking it as purchased at
time 20 stores purchase date 20, and clearing the flag at time 30 and setting it again at
time 40 leaves purchase date 20. -/
theorem purchase_date_set_once_witness :
    (∃ row ∈ boughtDB.products, row.ID = 1 ∧ row.PurchaseDate = some 20)
      ∧ ∀ row ∈ (runUpdates boughtDB laterCalls).products, row.ID = 1 →
          row.PurchaseDate = some 20 := by
  obtain ⟨_, ⟨live, hlive, hlid, hldel⟩, hall⟩ :=
    (@purchase_date_set_once ℚ _ _ _ _ _).2.1 pricedDB "1" 1 (purchaseRequest true) 20
      _ rfl (by decide) rfl
  have hex : ∃ row ∈ boughtDB.products, row.ID = 1 := ⟨live, hlive, hlid⟩
  have hinv : ∀ row ∈ boughtDB.products, row.ID = 1 → row.PurchaseDate = some 20 := by
    decide
  exact ⟨⟨live, hlive, hlid, hall live hlive hlid hldel⟩,
    ((@purchase_date_set_once ℚ _ _ _ _ _).2.2 boughtDB 1 20 laterCalls hex hinv).2⟩

/-! ## Status codes of the product handlers -/

/-- A key that no live row carries is not found by `First`, whatever the condition of the
store. -/
theorem gormFirst_missing {ρ : Type} (fault : Option Error) (rows : List ρ) (pk : ρ → Nat)
    (deletedAt : ρ → Option Time) (id : Nat)
    (hmiss : ∀ r ∈ rows, deletedAt r = none → pk r ≠ id) :
    ∃ e, gormFirst fault rows pk deletedAt id = Except.error e := by
  unfold gormFirst
  cases fault with
  | some err => exact ⟨err, rfl⟩
  | none =>
    cases hfind : (rows.filter (fun r => (deletedAt r).isNone)).find? (fun r => pk r == id) with
    | none => exact ⟨ErrRecordNotFound, rfl⟩
    | some r =>
      have hmem := List.mem_filter.mp (List.mem_of_find?_eq_some hfind)
      have hkey := List.find?_some hfind
      exact absurd (by simpa using hkey) (hmiss r hmem.1 (by simpa using hmem.2))

/-- `categoryRepository.FindByID` fails, and leaves the store alone, for a key that no live
category carries. -/
theorem categoryRepository_FindByID_missing {α : Type} (id : Nat) (db : DB α)
    (hmiss : ∀ c ∈ db.categories, c.DeletedAt = none → c.ID ≠ id) :
    ∃ e, categoryRepository.FindByID id db = (Except.error e, db) := by
  obtain ⟨e, he⟩ := gormFirst_missing db.fault db.categories Category.ID Category.DeletedAt
    id hmiss
  unfold categoryRepository.FindByID
  rw [he]
  by_cases h : e = ErrRecordNotFound
  · exact ⟨"category not found", by simp [h]⟩
  · exact ⟨e, by simp [h]⟩

/-- `subcategoryRepository.FindByID` fails, and leaves the store alone, for a key that no
live subcategory carries. -/
theorem subcategoryRepository_FindByID_missing {α : Type} (id : Nat) (db : DB α)
    (hmiss : ∀ c ∈ db.subcategories, c.DeletedAt = none → c.ID ≠ id) :
    ∃ e, subcategoryRepository.FindByID id db = (Except.error e, db) := by
  obtain ⟨e, he⟩ := gormFirst_missing db.fault db.subcategories Subcategory.ID
    Subcategory.DeletedAt id hmiss
  unfold subcategoryRepository.FindByID
  rw [he]
  by_cases h : e = ErrRecordNotFound
  · exact ⟨"subcategory not found", by simp [h]⟩
  · exact ⟨e, by simp [h]⟩

/-- `productRepository.FindByID` fails, and leaves the store alone, for a key that no live
product carries. -/
theorem productRepository_FindByID_missing {α : Type} (id : Nat) (db : DB α)
    (hmiss : ∀ c ∈ db.products, c.DeletedAt = none → c.ID ≠ id) :
    ∃ e, productRepository.FindByID id db = (Except.error e, db) := by
  obtain ⟨e, he⟩ := gormFirst_missing db.fault db.products Product.ID Product.DeletedAt
    id hmiss
  unfold productRepository.FindByID
  rw [he]
  by_cases h : e = ErrRecordNotFound
  · exact ⟨"product not found", by simp [h]⟩
  · exact ⟨e, by simp [h]⟩

/-- The create handler answers 400 "category not found" when the category lookup fails. -/
theorem Create_handler_category_error {σ α : Type} [Zero α] [Add α] [Mul α] [Div α]
    [OfNat α 12] (s : productService σ α) (req : CreateProductRequest α) (now : Time)
    (st st1 : σ) (e : Error)
    (hcat : s.categoryRepo.FindByID req.CategoryID st = (Except.error e, st1)) :
    s.handler.Create (some req) now st
      = ({ status := 400, body := Body.error "category not found" }, st1) := by
  unfold ProductHandler.Create
  simp only
  rw [show s.handler.service.CreateProduct (productOfRequest req now) st
    = s.CreateProduct (productOfRequest req now) st from rfl]
  unfold productService.CreateProduct
  rw [show (productOfRequest req now).CategoryID = req.CategoryID from rfl, hcat]

/-- The create handler answers 400 "subcategory not found" when the category lookup
succeeds and the subcategory lookup fails. -/
theorem Create_handler_subcategory_error {σ α : Type} [Zero α] [Add α] [Mul α] [Div α]
    [OfNat α 12] (s : productService σ α) (req : CreateProductRequest α) (now : Time)
    (st st1 st2 : σ) (category : Category) (e : Error)
    (hcat : s.categoryRepo.FindByID req.CategoryID st = (Except.ok category, st1))
    (hsub : s.subcategoryRepo.FindByID req.SubcategoryID st1 = (Except.error e, st2)) :
    s.handler.Create (some req) now st
      = ({ status := 400, body := Body.error "subcategory not found" }, st2) := by
  unfold ProductHandler.Create
  simp only
  rw [show s.handler.service.CreateProduct (productOfRequest req now) st
    = s.CreateProduct (productOfRequest req now) st from rfl]
  unfold productService.CreateProduct
  rw [show (productOfRequest req now).CategoryID = req.CategoryID from rfl, hcat]
  simp only
  rw [show (productOfRequest req now).SubcategoryID = req.SubcategoryID from rfl, hsub]

/-- C11, as stated, fails: on the seeded store a create request naming category 99, which
does not exist, is answered with status 400, not 404. -/
theorem Create_missing_category_is_not_404 :
    (∀ c ∈ seededDB.categories, c.ID ≠ 99)
      ∧ productHandler.Create (some (createRequest 99 1 none 100 10 5)) 10 seededDB
          = ({ status := 400, body := Body.error "category not found" }, seededDB)
      ∧ (productHandler.Create (some (createRequest 99 1 none 100 10 5)) 10 seededDB).1.status
          ≠ 404 := by
  refine ⟨by decide, rfl, ?_⟩
  rw [show productHandler.Create (some (createRequest 99 1 none 100 10 5)) 10 seededDB
    = ({ status := 400, body := Body.error "category not found" }, seededDB) from rfl]
  decide

/-- C11, amended: a create request whose category lookup fails is answered with status 400
and the message "category not found", and one whose category is found but whose
subcategory lookup fails with status 400 and "subcategory not found"; the state is the one
the lookups left, so nothing is persisted.  On the GORM store this is the answer when no
live category, respectively no live subcategory, carries the requested key, and the store is
unchanged. -/
theorem Create_missing_parent_is_400 {σ α : Type} [Zero α] [Add α] [Mul α] [Div α]
    [OfNat α 12] (s : productService σ α) (req : CreateProductRequest α) (now : Time) :
    (∀ (st st1 : σ) (e : Error),
        s.categoryRepo.FindByID req.CategoryID st = (Except.error e, st1) →
        s.handler.Create (some req) now st
          = ({ status := 400, body := Body.error "category not found" }, st1))
    ∧ (∀ (st st1 st2 : σ) (category : Category) (e : Error),
        s.categoryRepo.FindByID req.CategoryID st = (Except.ok category, st1) →
        s.subcategoryRepo.FindByID req.SubcategoryID st1 = (Except.error e, st2) →
        s.handler.Create (some req) now st
          = ({ status := 400, body := Body.error "subcategory not found" }, st2))
    ∧ (∀ db : DB α,
        (∀ c ∈ db.categories, c.DeletedAt = none → c.ID ≠ req.CategoryID) →
        productHandler.Create (some req) now db
          = ({ status := 400, body := Body.error "category not found" }, db))
    ∧ (∀ (db : DB α) (category : Category),
        categoryRepository.FindByID req.CategoryID db = (Except.ok category, db) →
        (∀ c ∈ db.subcategories, c.DeletedAt = none → c.ID ≠ req.SubcategoryID) →
        productHandler.Create (some req) now db
          = ({ status := 400, body := Body.error "subcategory not found" }, db)) := by
  refine ⟨fun st st1 e h => Create_handler_category_error s req now st st1 e h,
    fun st st1 st2 category e h1 h2 =>
      Create_handler_subcategory_error s req now st st1 st2 category e h1 h2,
    fun db hmiss => ?_, fun db category hcat hmiss => ?_⟩
  · obtain ⟨e, he⟩ := categoryRepository_FindByID_missing req.CategoryID db hmiss
    exact Create_handler_category_error gormService req now db db e he
  · obtain ⟨e, he⟩ := subcategoryRepository_FindByID_missing req.SubcategoryID db hmiss
    exact Create_handler_subcategory_error gormService req now db db db category e hcat he

/-- C11, amended, on the seeded store: category 99 and subcategory 77 do not exist. -/
theorem Create_missing_parent_is_400_witness :
    productHandler.Create (some (createRequest 99 1 none 100 10 5)) 10 seededDB
        = ({ status := 400, body := Body.error "category not found" }, seededDB)
      ∧ productHandler.Create (some (createRequest 1 77 none 100 10 5)) 10 seededDB
        = ({ status := 400, body := Body.error "subcategory not found" }, seededDB) :=
  ⟨(Create_missing_parent_is_400 gormService (createRequest 99 1 none 100 10 5) 10).2.2.1
      seededDB (by decide),
   (Create_missing_parent_is_400 gormService (createRequest 1 77 none 100 10 5) 10).2.2.2
      seededDB catOneTime rfl (by decide)⟩

/-- C12, as stated, fails: with the store unreachable the lookup of product 1 fails with a
connection error, which is not a not-found error, and the get handler and the delete handler
answer 404, not 500; on a store that refuses writes the create handler answers 400 with the
text of the store's error. -/
theorem persistence_failure_is_not_always_500 :
    productRepository.FindByID 1 downDB = (Except.error "connection refused", downDB)
      ∧ productHandler.GetByID "1" downDB
          = ({ status := 404, body := Body.error "Product not found" }, downDB)
      ∧ (productHandler.GetByID "1" downDB).1.status ≠ 500
      ∧ productRepository.Delete 1 downDB = (some "connection refused", downDB)
      ∧ (productHandler.Delete "1" downDB).1.status ≠ 500
      ∧ readOnlyService.handler.Create (some (createRequest 1 1 none 100 10 5)) 10 seededDB
          = ({ status := 400,
               body := Body.error "cannot execute INSERT in a read-only transaction" },
              seededDB) := by
  refine ⟨rfl, rfl, ?_, rfl, ?_, rfl⟩
  · rw [show productHandler.GetByID "1" downDB
      = ({ status := 404, body := Body.error "Product not found" }, downDB) from rfl]
    decide
  · rw [show productHandler.Delete "1" downDB
      = ({ status := 404, body := Body.error "Product not found" }, downDB) from rfl]
    decide

/-- C12, amended: a failing repository operation is answered with a fixed message that does
not depend on the underlying error.  The status is 500 for the four queries of list
("Failed to fetch products"), for the three aggregates of stats ("Failed to calculate
statistics") and for the save of update ("Failed to update product"); it is 404 with
"Product not found" for every failure of the lookup in get and in update and of delete, a
persistence error included. -/
theorem repository_failure_responses {σ α : Type} (h : ProductHandler σ α) (st st1 : σ)
    (e : Error) :
    (∀ c sc : String, h.repo.FindPending st = (Except.error e, st1) →
        h.GetAll c sc "true" st
          = ({ status := 500, body := Body.error "Failed to fetch products" }, st1))
    ∧ (∀ (c sc pending : String) (id : Nat), pending ≠ "true" → c ≠ "" →
        ParseUint c 32 = some id → h.repo.FindByCategoryID id st = (Except.error e, st1) →
        h.GetAll c sc pending st
          = ({ status := 500, body := Body.error "Failed to fetch products" }, st1))
    ∧ (∀ (sc pending : String) (id : Nat), pending ≠ "true" → sc ≠ "" →
        ParseUint sc 32 = some id → h.repo.FindBySubcategoryID id st = (Except.error e, st1) →
        h.GetAll "" sc pending st
          = ({ status := 500, body := Body.error "Failed to fetch products" }, st1))
    ∧ (∀ pending : String, pending ≠ "true" → h.repo.FindAll st = (Except.error e, st1) →
        h.GetAll "" "" pending st
          = ({ status := 500, body := Body.error "Failed to fetch products" }, st1))
    ∧ (h.service.GetTotalPendingCost st = (Except.error e, st1) →
        h.GetStats st
          = ({ status := 500, body := Body.error "Failed to calculate statistics" }, st1))
    ∧ (∀ (st0 : σ) (total : α), h.service.GetTotalPendingCost st0 = (Except.ok total, st) →
        h.service.GetMonthlyRecurringCost st = (Except.error e, st1) →
        h.GetStats st0
          = ({ status := 500, body := Body.error "Failed to calculate statistics" }, st1))
    ∧ (∀ (st0 st0' : σ) (total monthly : α),
        h.service.GetTotalPendingCost st0 = (Except.ok total, st0') →
        h.service.GetMonthlyRecurringCost st0' = (Except.ok monthly, st) →
        h.service.GetYearlyRecurringCost st = (Except.error e, st1) →
        h.GetStats st0
          = ({ status := 500, body := Body.error "Failed to calculate statistics" }, st1))
    ∧ (∀ (st0 : σ) (idParam : String) (id : Nat) (product saved : Product α)
        (req : UpdateProductRequest α) (now : Time),
        ParseUint idParam 32 = some id → h.repo.FindByID id st0 = (Except.ok product, st) →
        h.repo.Update (applyUpdate product req now) st = ((some e, saved), st1) →
        h.Update idParam (some req) now st0
          = ({ status := 500, body := Body.error "Failed to update product" }, st1))
    ∧ (∀ (idParam : String) (id : Nat), ParseUint idParam 32 = some id →
        h.repo.FindByID id st = (Except.error e, st1) →
        h.GetByID idParam st
          = ({ status := 404, body := Body.error "Product not found" }, st1))
    ∧ (∀ (idParam : String) (id : Nat) (body : Option (UpdateProductRequest α))
        (now : Time), ParseUint idParam 32 = some id →
        h.repo.FindByID id st = (Except.error e, st1) →
        h.Update idParam body now st
          = ({ status := 404, body := Body.error "Product not found" }, st1))
    ∧ (∀ (idParam : String) (id : Nat), ParseUint idParam 32 = some id →
        h.repo.Delete id st = (some e, st1) →
        h.Delete idParam st
          = ({ status := 404, body := Body.error "Product not found" }, st1)) := by
  refine ⟨?_, ?_, ?_, ?_, ?_, ?_, ?_, ?_, ?_, ?_, ?_⟩
  · intro c sc hfail
    unfold ProductHandler.GetAll
    rw [if_pos rfl, hfail]
  · intro c sc pending id hp hc hparse hfail
    unfold ProductHandler.GetAll
    rw [if_neg hp, if_pos hc, hparse]
    simp only
    rw [hfail]
  · intro sc pending id hp hsc hparse hfail
    unfold ProductHandler.GetAll
    rw [if_neg hp, if_neg (by simp), if_pos hsc, hparse]
    simp only
    rw [hfail]
  · intro pending hp hfail
    unfold ProductHandler.GetAll
    rw [if_neg hp, if_neg (by simp), if_neg (by simp), hfail]
  · intro hfail
    unfold ProductHandler.GetStats
    rw [hfail]
  · intro st0 total hok hfail
    unfold ProductHandler.GetStats
    rw [hok]
    simp only
    rw [hfail]
  · intro st0 st0' total monthly hok1 hok2 hfail
    unfold ProductHandler.GetStats
    rw [hok1]
    simp only
    rw [hok2]
    simp only
    rw [hfail]
  · intro st0 idParam id product saved req now hparse hfind hfail
    unfold ProductHandler.Update
    rw [hparse]
    simp only
    rw [hfind]
    simp only
    rw [hfail]
  · intro idParam id hparse hfail
    unfold ProductHandler.GetByID
    rw [hparse]
    simp only
    rw [hfail]
  · intro idParam id body now hparse hfail
    unfold ProductHandler.Update
    rw [hparse]
    simp only
    rw [hfail]
  · intro idParam id hparse hfail
    unfold ProductHandler.Delete
    rw [hparse]
    simp only
    rw [hfail]

/-- C12, amended, with the store unreachable (list, stats, get, delete) and on a store that
refuses writes (the save of update). -/
theorem repository_failure_responses_witness :
    productHandler.GetAll "" "" "true" downDB
        = ({ status := 500, body := Body.error "Failed to fetch products" }, downDB)
      ∧ productHandler.GetAll "1" "" "" downDB
        = ({ status := 500, body := Body.error "Failed to fetch products" }, downDB)
      ∧ productHandler.GetStats downDB
        = ({ status := 500, body := Body.error "Failed to calculate statistics" }, downDB)
      ∧ productHandler.GetByID "1" downDB
        = ({ status := 404, body := Body.error "Product not found" }, downDB)
      ∧ productHandler.Delete "1" downDB
        = ({ status := 404, body := Body.error "Product not found" }, downDB)
      ∧ readOnlyService.handler.Update "1" (some (purchaseRequest true)) 20 pricedDB
        = ({ status := 500, body := Body.error "Failed to update product" }, pricedDB) := by
  obtain ⟨h1, h2, _, _, h5, _, _, _, h9, _, h11⟩ :=
    repository_failure_responses (productHandler : ProductHandler (DB ℚ) ℚ) downDB downDB
      "connection refused"
  obtain ⟨_, _, _, _, _, _, _, h8, _⟩ :=
    repository_failure_responses readOnlyService.handler pricedDB pricedDB
      "cannot execute UPDATE in a read-only transaction"
  exact ⟨h1 "" "" rfl, h2 "1" "" "" 1 (by decide) (by decide) rfl rfl, h5 rfl,
    h9 "1" 1 rfl rfl, h11 "1" 1 rfl rfl,
    h8 pricedDB "1" 1 _ _ (purchaseRequest true) 20 rfl rfl rfl⟩

/-- When both lookups succeed and the recurrence type does not fit the category type,
`CreateProduct` returns one of its three validation messages on the state the lookups left,
for every service that sees the same category. -/
theorem CreateProduct_rejects_mismatch {α : Type} (product : Product α) (category : Category)
    (hbad : (category.Type_ = "one_time" ∧ product.RecurrenceType ≠ none)
      ∨ (category.Type_ = "recurring" ∧ product.RecurrenceType ≠ some "monthly"
          ∧ product.RecurrenceType ≠ some "yearly")) :
    ∃ m : Error,
      (m = "one-time purchases cannot have recurrence type"
        ∨ m = "recurring purchases must have recurrence type"
        ∨ m = "recurrence type must be 'monthly' or 'yearly'")
      ∧ ∀ (τ : Type) (t : productService τ α) (u u1 u2 : τ) (subcategory : Subcategory),
          t.categoryRepo.FindByID product.CategoryID u = (Except.ok category, u1) →
          t.subcategoryRepo.FindByID product.SubcategoryID u1 = (Except.ok subcategory, u2) →
          t.CreateProduct product u = ((some m, product), u2) := by
  rcases hbad with ⟨ht, hr⟩ | ⟨ht, hm, hy⟩
  · refine ⟨_, Or.inl rfl, fun τ t u u1 u2 subcategory h1 h2 => ?_⟩
    rw [CreateProduct_of_lookups t product u u1 u2 category subcategory h1 h2]
    simp [ht, hr]
  · have hne : category.Type_ ≠ "one_time" := by rw [ht]; decide
    cases hrec : product.RecurrenceType with
    | none =>
      refine ⟨_, Or.inr (Or.inl rfl), fun τ t u u1 u2 subcategory h1 h2 => ?_⟩
      rw [CreateProduct_of_lookups t product u u1 u2 category subcategory h1 h2,
        if_neg hne, if_pos ht, hrec]
    | some r =>
      have hrm : r ≠ "monthly" := fun h => hm (by rw [hrec, h])
      have hry : r ≠ "yearly" := fun h => hy (by rw [hrec, h])
      refine ⟨_, Or.inr (Or.inr rfl), fun τ t u u1 u2 subcategory h1 h2 => ?_⟩
      rw [CreateProduct_of_lookups t product u u1 u2 category subcategory h1 h2,
        if_neg hne, if_pos ht, hrec]
      simp [hrm, hry]

/-- C13: when the category and the subcategory of a create request are found and the
recurrence type does not fit the category type (non-null under "one_time"; null or neither
"monthly" nor "yearly" under "recurring"), the create handler answers 400 with the error
body carrying exactly the message `CreateProduct` returns, which is one of the three
validation messages; the state is the one the lookups left and the journal of
`productRepo.Create` calls is unchanged, so no product is persisted. -/
theorem Create_handler_validation_400 {σ α : Type} [Zero α] [Add α] [Mul α] [Div α]
    [OfNat α 12] (s : productService σ α) (req : CreateProductRequest α) (now : Time)
    (st st1 st2 : σ) (category : Category) (subcategory : Subcategory)
    (hcat : s.categoryRepo.FindByID req.CategoryID st = (Except.ok category, st1))
    (hsub : s.subcategoryRepo.FindByID req.SubcategoryID st1 = (Except.ok subcategory, st2))
    (hbad : (category.Type_ = "one_time" ∧ req.RecurrenceType ≠ none)
      ∨ (category.Type_ = "recurring" ∧ req.RecurrenceType ≠ some "monthly"
          ∧ req.RecurrenceType ≠ some "yearly")) :
    ∃ m : Error,
      (s.CreateProduct (productOfRequest req now) st).1.1 = some m
      ∧ (m = "one-time purchases cannot have recurrence type"
          ∨ m = "recurring purchases must have recurrence type"
          ∨ m = "recurrence type must be 'monthly' or 'yearly'")
      ∧ s.handler.Create (some req) now st = ({ status := 400, body := Body.error m }, st2)
      ∧ ∀ calls : List (Product α),
          s.journalled.handler.Create (some req) now (st, calls)
            = ({ status := 400, body := Body.error m }, (st2, calls)) := by
  obtain ⟨m, hm, hall⟩ := CreateProduct_rejects_mismatch (productOfRequest req now) category
    hbad
  have h1 := hall σ s st st1 st2 subcategory hcat hsub
  refine ⟨m, by rw [h1], hm, ?_, fun calls => ?_⟩
  · unfold ProductHandler.Create
    simp only
    rw [show s.handler.service.CreateProduct (productOfRequest req now) st
      = s.CreateProduct (productOfRequest req now) st from rfl, h1]
  · have h2 := hall _ s.journalled (st, calls) (st1, calls) (st2, calls) subcategory
      (journalled_category_lookup s _ st st1 category calls hcat)
      (journalled_subcategory_lookup s _ st1 st2 subcategory calls hsub)
    unfold ProductHandler.Create
    simp only
    rw [show s.journalled.handler.service.CreateProduct (productOfRequest req now) (st, calls)
      = s.journalled.CreateProduct (productOfRequest req now) (st, calls) from rfl, h2]

/-- C13, on the seeded store: a monthly product under the one-time category and a weekly
product under the recurring category are answered 400 with the validation message, the
store unchanged. -/
theorem Create_handler_validation_400_witness :
    productHandler.Create (some (createRequest 1 1 (some "monthly") 100 10 5)) 10 seededDB
        = ({ status := 400,
             body := Body.error "one-time purchases cannot have recurrence type" }, seededDB)
      ∧ productHandler.Create (some (createRequest 2 2 (some "weekly") 12 0 0)) 10 seededDB
        = ({ status := 400,
             body := Body.error "recurrence type must be 'monthly' or 'yearly'" },
            seededDB) := by
  obtain ⟨m1, hm1, _, hresp1, _⟩ := Create_handler_validation_400 gormService
    (createRequest 1 1 (some "monthly") 100 10 5) 10 seededDB seededDB seededDB catOneTime
    (seededDB.preloadSubcategory subGaming) rfl rfl (Or.inl ⟨rfl, by decide⟩)
  obtain ⟨m2, hm2, _, hresp2, _⟩ := Create_handler_validation_400 gormService
    (createRequest 2 2 (some "weekly") 12 0 0) 10 seededDB seededDB seededDB catRecurring
    (seededDB.preloadSubcategory subTools) rfl rfl (Or.inr ⟨rfl, by decide, by decide⟩)
  have e1 : m1 = "one-time purchases cannot have recurrence type" :=
    (Option.some.inj (hm1.symm.trans rfl)).symm ▸ rfl
  have e2 : m2 = "recurrence type must be 'monthly' or 'yearly'" :=
    (Option.some.inj (hm2.symm.trans rfl)).symm ▸ rfl
  exact ⟨e1 ▸ hresp1, e2 ▸ hresp2⟩

/-! ## The category type -/

/-- A successful `categoryRepository.FindByID` leaves the store alone and returns a stored
row. -/
theorem categoryRepository_FindByID_ok {α : Type} (id : Nat) (db st1 : DB α)
    (category : Category)
    (h : categoryRepository.FindByID id db = (Except.ok category, st1)) :
    st1 = db ∧ category ∈ db.categories ∧ category.DeletedAt = none ∧ category.ID = id := by
  unfold categoryRepository.FindByID gormFirst at h
  cases hf : db.fault with
  | some err =>
    rw [hf] at h
    simp only at h
    split_ifs at h <;> simp at h
  | none =>
    rw [hf] at h
    simp only at h
    cases hfind : (db.categories.filter (fun r => r.DeletedAt.isNone)).find?
        (fun r => r.ID == id) with
    | none =>
      rw [hfind] at h
      simp at h
    | some r =>
      rw [hfind] at h
      simp only [Prod.mk.injEq, Except.ok.injEq] at h
      have hmem := List.mem_filter.mp (List.mem_of_find?_eq_some hfind)
      have hkey := List.find?_some hfind
      rw [← h.1]
      exact ⟨h.2.symm, hmem.1, by simpa using hmem.2, by simpa using hkey⟩

/-- `categoryRepository.FindByID` never changes the store. -/
theorem categoryRepository_FindByID_store {α : Type} (id : Nat) (db : DB α) :
    (categoryRepository.FindByID id db).2 = db := by
  unfold categoryRepository.FindByID
  split
  · split_ifs <;> rfl
  · rfl

/-- `categoryRepository.Create` of a category of valid type keeps every stored type valid. -/
theorem categoryRepository_Create_valid {α : Type} (category : Category) (db : DB α)
    (hv : category.IsValidType = true)
    (hdb : ∀ c ∈ db.categories, c.IsValidType = true) :
    ∀ c ∈ (categoryRepository.Create category db).2.categories, c.IsValidType = true := by
  unfold categoryRepository.Create
  cases db.fault with
  | some err => exact hdb
  | none =>
    have happ : ∀ row : Category, row.Type_ = category.Type_ →
        ∀ c ∈ db.categories ++ [row], c.IsValidType = true := by
      intro row hrow c hc
      rcases List.mem_append.mp hc with h | h
      · exact hdb c h
      · unfold Category.IsValidType at hv ⊢
        rw [List.mem_singleton.mp h, hrow]
        exact hv
    simp only
    split_ifs <;> first | exact hdb | exact happ _ rfl

/-- `categoryRepository.Update` of a category of valid type keeps every stored type valid. -/
theorem categoryRepository_Update_valid {α : Type} (category : Category) (db : DB α)
    (hv : category.IsValidType = true)
    (hdb : ∀ c ∈ db.categories, c.IsValidType = true) :
    ∀ c ∈ (categoryRepository.Update category db).2.categories, c.IsValidType = true := by
  by_cases hid : category.ID = 0
  · have hcreate : (categoryRepository.Update category db).2
        = (categoryRepository.Create category db).2 := by
      unfold categoryRepository.Update
      cases hf : db.fault with
      | some err =>
        unfold categoryRepository.Create
        rw [hf]
      | none => simp [hid]
    rw [hcreate]
    exact categoryRepository_Create_valid category db hv hdb
  · unfold categoryRepository.Update
    cases db.fault with
    | some err => exact hdb
    | none =>
      simp only [hid, if_false]
      intro c hc
      rcases mem_saveRow _ _ _ _ c hc with h | h
      · unfold Category.IsValidType at hv ⊢
        rw [h]
        exact hv
      · exact hdb c h

/-- `categoryRepository.Delete` keeps every stored type valid. -/
theorem categoryRepository_Delete_valid {α : Type} (id : Nat) (db : DB α)
    (hdb : ∀ c ∈ db.categories, c.IsValidType = true) :
    ∀ c ∈ (categoryRepository.Delete id db).2.categories, c.IsValidType = true := by
  unfold categoryRepository.Delete
  cases db.fault with
  | some err => exact hdb
  | none =>
    have hmap : ∀ c ∈ db.categories.map (fun c =>
        if (c.DeletedAt.isNone && c.ID == id) = true then
          ({ c with DeletedAt := some db.clock } : Category)
        else c), c.IsValidType = true := by
      intro c hc
      obtain ⟨y, hy, rfl⟩ := List.mem_map.mp hc
      have hyv := hdb y hy
      split_ifs
      · exact hyv
      · exact hyv
    simp only
    split_ifs
    · exact hmap
    · exact hmap

/-- A type that passes the check of the category handlers is valid. -/
theorem valid_of_check (t : String) (hcheck : ¬(t ≠ "one_time" ∧ t ≠ "recurring"))
    (c : Category) (ht : c.Type_ = t) : c.IsValidType = true := by
  unfold Category.IsValidType
  rw [ht]
  by_cases h1 : t = "one_time"
  · simp [h1]
  · have h2 : t = "recurring" := by
      by_contra h2
      exact hcheck ⟨h1, h2⟩
    simp [h2]

/-- The category create handler keeps every stored category type valid. -/
theorem categoryHandler_Create_valid {α : Type} (db1 : DB α)
    (body : Option CreateCategoryRequest)
    (hdb1 : ∀ c ∈ db1.categories, c.IsValidType = true) :
    ∀ c ∈ (categoryHandler.Create body db1).2.categories, c.IsValidType = true := by
  cases body with
  | none => exact hdb1
  | some req =>
    by_cases hcheck : req.Type_ ≠ "one_time" ∧ req.Type_ ≠ "recurring"
    · have hsame : (categoryHandler.Create (some req) db1).2 = db1 := by
        unfold CategoryHandler.Create
        simp only
        rw [if_pos hcheck]
      rw [hsame]
      exact hdb1
    · have hwrite : (categoryHandler.Create (some req) db1).2
          = (categoryRepository.Create
              { ID := 0, Name := req.Name, Type_ := req.Type_, CreatedAt := 0,
                UpdatedAt := 0, DeletedAt := none } db1).2 := by
        unfold CategoryHandler.Create
        simp only
        rw [if_neg hcheck,
          show categoryHandler.repo.Create
              { ID := 0, Name := req.Name, Type_ := req.Type_, CreatedAt := 0,
                UpdatedAt := 0, DeletedAt := none } db1
            = categoryRepository.Create
              { ID := 0, Name := req.Name, Type_ := req.Type_, CreatedAt := 0,
                UpdatedAt := 0, DeletedAt := none } db1 from rfl]
        generalize categoryRepository.Create
          { ID := 0, Name := req.Name, Type_ := req.Type_, CreatedAt := 0,
            UpdatedAt := 0, DeletedAt := none } db1 = res
        rcases res with ⟨⟨e, saved⟩, st2⟩
        cases e <;> rfl
      rw [hwrite]
      exact categoryRepository_Create_valid _ db1 (valid_of_check _ hcheck _ rfl) hdb1

/-- The category update handler keeps every stored category type valid. -/
theorem categoryHandler_Update_valid {α : Type} (db1 : DB α) (idParam : String)
    (body : Option UpdateCategoryRequest)
    (hdb1 : ∀ c ∈ db1.categories, c.IsValidType = true) :
    ∀ c ∈ (categoryHandler.Update idParam body db1).2.categories, c.IsValidType = true := by
  cases hparse : ParseUint idParam 32 with
  | none =>
    have hsame : (categoryHandler.Update idParam body db1).2 = db1 := by
      unfold CategoryHandler.Update
      rw [hparse]
    rw [hsame]
    exact hdb1
  | some id =>
    have hstore := categoryRepository_FindByID_store id db1
    cases hfind : categoryRepository.FindByID id db1 with
    | mk res st1 =>
      rw [hfind] at hstore
      simp only at hstore
      subst hstore
      have hlook : categoryHandler.repo.FindByID id st1 = (res, st1) := hfind
      cases res with
      | error e =>
        have hsame : (categoryHandler.Update idParam body st1).2 = st1 := by
          unfold CategoryHandler.Update
          rw [hparse]
          simp only
          rw [hlook]
        rw [hsame]
        exact hdb1
      | ok category =>
        cases body with
        | none =>
          have hsame : (categoryHandler.Update idParam none st1).2 = st1 := by
            unfold CategoryHandler.Update
            rw [hparse]
            simp only
            rw [hlook]
          rw [hsame]
          exact hdb1
        | some req =>
          by_cases hcheck : req.Type_ ≠ "one_time" ∧ req.Type_ ≠ "recurring"
          · have hsame : (categoryHandler.Update idParam (some req) st1).2 = st1 := by
              unfold CategoryHandler.Update
              rw [hparse]
              simp only
              rw [hlook]
              simp only
              rw [if_pos hcheck]
            rw [hsame]
            exact hdb1
          · have hwrite : (categoryHandler.Update idParam (some req) st1).2
                = (categoryRepository.Update
                    { category with Name := req.Name, Type_ := req.Type_ } st1).2 := by
              unfold CategoryHandler.Update
              rw [hparse]
              simp only
              rw [hlook]
              simp only
              rw [if_neg hcheck,
                show categoryHandler.repo.Update
                    { category with Name := req.Name, Type_ := req.Type_ } st1
                  = categoryRepository.Update
                    { category with Name := req.Name, Type_ := req.Type_ } st1 from rfl]
              generalize categoryRepository.Update
                { category with Name := req.Name, Type_ := req.Type_ } st1 = res
              rcases res with ⟨⟨e, saved⟩, st2⟩
              cases e <;> rfl
            rw [hwrite]
            exact categoryRepository_Update_valid _ st1 (valid_of_check _ hcheck _ rfl) hdb1

/-- The category delete handler keeps every stored category type valid. -/
theorem categoryHandler_Delete_valid {α : Type} (db1 : DB α) (idParam : String)
    (hdb1 : ∀ c ∈ db1.categories, c.IsValidType = true) :
    ∀ c ∈ (categoryHandler.Delete idParam db1).2.categories, c.IsValidType = true := by
  cases hparse : ParseUint idParam 32 with
  | none =>
    have hsame : (categoryHandler.Delete idParam db1).2 = db1 := by
      unfold CategoryHandler.Delete
      rw [hparse]
    rw [hsame]
    exact hdb1
  | some id =>
    have hwrite : (categoryHandler.Delete idParam db1).2
        = (categoryRepository.Delete id db1).2 := by
      unfold CategoryHandler.Delete
      rw [hparse]
      simp only
      rw [show categoryHandler.repo.Delete id db1 = categoryRepository.Delete id db1
        from rfl]
      generalize categoryRepository.Delete id db1 = res
      rcases res with ⟨e, st2⟩
      cases e <;> rfl
    rw [hwrite]
    exact categoryRepository_Delete_valid id db1 hdb1

/-- One category request keeps every stored category type valid. -/
theorem runCategoryCall_valid {α : Type} (db : DB α) (call : CategoryCall)
    (hdb : ∀ c ∈ db.categories, c.IsValidType = true) :
    ∀ c ∈ (runCategoryCall db call).categories, c.IsValidType = true := by
  obtain ⟨fault, clock, request⟩ := call
  cases request with
  | create body =>
    exact categoryHandler_Create_valid ({ db with fault := fault, clock := clock } : DB α)
      body hdb
  | update idParam body =>
    exact categoryHandler_Update_valid ({ db with fault := fault, clock := clock } : DB α)
      idParam body hdb
  | delete idParam =>
    exact categoryHandler_Delete_valid ({ db with fault := fault, clock := clock } : DB α)
      idParam hdb

/-- A sequence of category requests keeps every stored category type valid. -/
theorem runCategoryCalls_valid {α : Type} (calls : List CategoryCall) (db : DB α)
    (hdb : ∀ c ∈ db.categories, c.IsValidType = true) :
    ∀ c ∈ (runCategoryCalls db calls).categories, c.IsValidType = true := by
  induction calls generalizing db with
  | nil => exact hdb
  | cons call calls ih => exact ih _ (runCategoryCall_valid db call hdb)

/-- C14, as stated, fails: on the seeded store an update of category 99, which does not
exist, with the type "weekly" is answered with status 404, not 400, because the lookup
precedes the type check. -/
theorem category_Update_invalid_type_is_not_always_400 :
    weeklyCategoryRequest.Type_ ≠ "one_time" ∧ weeklyCategoryRequest.Type_ ≠ "recurring"
      ∧ (categoryHandler.Update "99" (some weeklyCategoryRequest) seededDB).1
          = { status := 404, body := TaxonomyBody.error "Category not found" }
      ∧ (categoryHandler.Update "99" (some weeklyCategoryRequest) seededDB).1.status
          ≠ 400 := by
  refine ⟨by decide, by decide, rfl, ?_⟩
  rw [show (categoryHandler.Update "99" (some weeklyCategoryRequest) seededDB).1
    = { status := 404, body := TaxonomyBody.error "Category not found" } from rfl]
  decide

/-- C14, amended: when the requested type is neither "one_time" nor "recurring", the
category create handler answers 400 without calling a repository write, and the category
update handler calls no repository write either and answers 400 when the key is well formed
and the category is found (the lookup comes first, so a category that is not found is
answered 404).  Consequently, from a store in which every category has a valid type, every
sequence of category create, update and delete requests leaves every stored category with
type "one_time" or "recurring". -/
theorem category_type_invariant {σ α : Type} (h : CategoryHandler σ) :
    (∀ (req : CreateCategoryRequest) (st : σ),
        req.Type_ ≠ "one_time" → req.Type_ ≠ "recurring" →
        h.Create (some req) st
            = ({ status := 400,
                 body := TaxonomyBody.error
                   "Invalid category type. Must be 'one_time' or 'recurring'" }, st)
          ∧ ∀ n : Nat,
              ((NewCategoryHandler h.repo.counted).Create (some req) (st, n)).2 = (st, n))
    ∧ (∀ (idParam : String) (id : Nat) (req : UpdateCategoryRequest) (st st1 : σ)
        (category : Category),
        req.Type_ ≠ "one_time" → req.Type_ ≠ "recurring" →
        ParseUint idParam 32 = some id →
        h.repo.FindByID id st = (Except.ok category, st1) →
        h.Update idParam (some req) st
          = ({ status := 400,
               body := TaxonomyBody.error
                 "Invalid category type. Must be 'one_time' or 'recurring'" }, st1))
    ∧ (∀ (idParam : String) (req : UpdateCategoryRequest) (st : σ) (n : Nat),
        req.Type_ ≠ "one_time" → req.Type_ ≠ "recurring" →
        ((NewCategoryHandler h.repo.counted).Update idParam (some req) (st, n)).2.2 = n)
    ∧ (∀ (db : DB α) (calls : List CategoryCall),
        (∀ c ∈ db.categories, c.IsValidType = true) →
        ∀ c ∈ (runCategoryCalls db calls).categories,
          c.Type_ = "one_time" ∨ c.Type_ = "recurring") := by
  refine ⟨fun req st h1 h2 => ⟨?_, fun n => ?_⟩, ?_, ?_, ?_⟩
  · unfold CategoryHandler.Create
    simp only
    rw [if_pos ⟨h1, h2⟩]
  · unfold CategoryHandler.Create
    simp only
    rw [if_pos ⟨h1, h2⟩]
  · intro idParam id req st st1 category h1 h2 hparse hfind
    unfold CategoryHandler.Update
    rw [hparse]
    simp only
    rw [hfind]
    simp only
    rw [if_pos ⟨h1, h2⟩]
  · intro idParam req st n h1 h2
    unfold CategoryHandler.Update
    cases hparse : ParseUint idParam 32 with
    | none => rfl
    | some id =>
      simp only
      rw [show (NewCategoryHandler h.repo.counted).repo.FindByID id (st, n)
        = ((h.repo.FindByID id st).1, ((h.repo.FindByID id st).2, n)) from rfl]
      cases (h.repo.FindByID id st).1 with
      | error e => rfl
      | ok category =>
        simp only
        rw [if_pos ⟨h1, h2⟩]
  · intro db calls hdb c hc
    have hv := runCategoryCalls_valid calls db hdb c hc
    unfold Category.IsValidType at hv
    simpa using hv

/-- C14, amended, on the seeded store: a create and an update of the existing category 1
with type "weekly" are answered 400 and leave the store unchanged, and after a sequence of
valid and invalid requests every stored category has type "one_time" or "recurring". -/
theorem category_type_invariant_witness :
    (categoryHandler.Create (some { Name := "Semanal", Type_ := "weekly" }) seededDB)
        = ({ status := 400,
             body := TaxonomyBody.error
               "Invalid category type. Must be 'one_time' or 'recurring'" }, seededDB)
      ∧ categoryHandler.Update "1" (some weeklyCategoryRequest) seededDB
        = ({ status := 400,
             body := TaxonomyBody.error
               "Invalid category type. Must be 'one_time' or 'recurring'" }, seededDB)
      ∧ (runCategoryCalls seededDB categoryCalls).categories.map
          (fun c => (c.ID, c.Type_, c.DeletedAt))
        = [(1, "recurring", none), (2, "recurring", some 25), (3, "recurring", none)]
      ∧ ∀ c ∈ (runCategoryCalls seededDB categoryCalls).categories,
          c.Type_ = "one_time" ∨ c.Type_ = "recurring" :=
  ⟨((@category_type_invariant (DB ℚ) ℚ categoryHandler).1
      { Name := "Semanal", Type_ := "weekly" } seededDB (by decide) (by decide)).1,
   (@category_type_invariant (DB ℚ) ℚ categoryHandler).2.1 "1" 1 weeklyCategoryRequest
      seededDB seededDB catOneTime (by decide) (by decide) rfl rfl,
   rfl,
   (@category_type_invariant (DB ℚ) ℚ categoryHandler).2.2.2 seededDB categoryCalls (by decide)⟩

/-! ## Amounts and the recurrence rule on update -/

/-- C15, the code at the failing input: on the seeded store a create request with base price
-5 under the existing one-time category is answered 201 and stores a row with base price -5
and a negative total, and an update request with base price -5 for the stored product 1 is
answered 200 and stores base price -5 as well.  The `validate:"min=0"` tags of the request
structs are read by no code. -/
theorem negative_amount_is_persisted :
    (productHandler.Create (some (createRequest 1 1 none (-5) 0 0)) 10 seededDB).1.status
        = 201
      ∧ (∃ row ∈ (productHandler.Create (some (createRequest 1 1 none (-5) 0 0)) 10
            seededDB).2.products,
          row.ID = 1 ∧ row.BasePrice = -5 ∧ row.BasePrice < 0 ∧ row.TotalPrice < 0)
      ∧ (productHandler.Update "1" (some negativeUpdateRequest) 20 pricedDB).1.status = 200
      ∧ (∃ row ∈ (productHandler.Update "1" (some negativeUpdateRequest) 20
            pricedDB).2.products,
          row.ID = 1 ∧ row.BasePrice = -5 ∧ row.BasePrice < 0 ∧ row.TotalPrice < 0) := by
  have hcreate : (productHandler.Create (some (createRequest 1 1 none (-5) 0 0)) 10
      seededDB).2.products.map (fun p => (p.ID, p.BasePrice, p.TotalPrice))
      = [(1, roundCents (-5), roundCents (-5 + 0 + 0))] := rfl
  have hupdate : (productHandler.Update "1" (some negativeUpdateRequest) 20
      pricedDB).2.products.map (fun p => (p.ID, p.BasePrice, p.TotalPrice))
      = [(1, roundCents (-5), roundCents (-5 + 0 + 0))] := rfl
  have hcents : roundCents (-5) = -5 := roundCents_of_cents _ (-500) (by norm_num)
  have hcents0 : roundCents (-5 + 0 + 0) = -5 + 0 + 0 :=
    roundCents_of_cents _ (-500) (by norm_num)
  rw [hcents, hcents0] at hcreate hupdate
  have hrow : ∀ l : List (Product ℚ),
      l.map (fun p => (p.ID, p.BasePrice, p.TotalPrice)) = [(1, -5, -5 + 0 + 0)] →
      ∃ row ∈ l, row.ID = 1 ∧ row.BasePrice = -5 ∧ row.BasePrice < 0 ∧ row.TotalPrice < 0 := by
    intro l hl
    cases l with
    | nil => exact absurd hl (by simp)
    | cons row tl =>
      rw [List.map_cons] at hl
      have hhead := (List.cons.inj hl).1
      simp only [Prod.mk.injEq] at hhead
      obtain ⟨h1, h2, h3⟩ := hhead
      refine ⟨row, List.mem_cons_self _ _, h1, h2, ?_, ?_⟩
      · rw [h2]; norm_num
      · rw [h3]; norm_num
  have hs1 : (productHandler.Create (some (createRequest 1 1 none (-5) 0 0)) 10
      seededDB).1.status = 201 := rfl
  have hs2 : (productHandler.Update "1" (some negativeUpdateRequest) 20 pricedDB).1.status
      = 200 := rfl
  exact ⟨hs1, hrow _ hcreate, hs2, hrow _ hupdate⟩

/-- C16, the code at the failing input: the update handler copies `category_id`,
`subcategory_id` and `recurrence_type` from the request into the product it hands to the
repository, and its answer depends on the product repository alone, not on the service with
its category repository.  On the store holding product 1 under the one-time category 1 and
subcategory 1, the update request that names category 2, subcategory 2 and recurrence
"monthly" is answered 200, and the product in the answer and the one row of the table hold
category 1 and subcategory 1 with recurrence "monthly": `Save` sets the foreign keys from the
category and the subcategory that `FindByID` preloaded, so the keys of the request are not
persisted.  The update request that keeps category 1 and sets recurrence "monthly" is
answered 200 as well, and leaves a live row of a live category of type "one_time" with a
non-null recurrence type. -/
theorem Update_does_not_persist_category_id {σ α : Type} :
    (∀ (product : Product α) (req : UpdateProductRequest α) (now : Time),
        (applyUpdate product req now).CategoryID = req.CategoryID
          ∧ (applyUpdate product req now).SubcategoryID = req.SubcategoryID
          ∧ (applyUpdate product req now).RecurrenceType = req.RecurrenceType)
    ∧ (∀ (repo : ProductRepository σ α) (service service' : ProductService σ α),
        (NewProductHandler repo service).Update = (NewProductHandler repo service').Update)
    ∧ (movingUpdateRequest.CategoryID = 2 ∧ movingUpdateRequest.SubcategoryID = 2)
    ∧ pricedDB.products.map (fun p => (p.ID, p.CategoryID, p.SubcategoryID, p.RecurrenceType))
        = [(1, 1, 1, none)]
    ∧ (∃ saved : Product ℚ,
        (productHandler.Update "1" (some movingUpdateRequest) 20 pricedDB).1
            = { status := 200, body := Body.product saved }
          ∧ saved.CategoryID = 1 ∧ saved.SubcategoryID = 1
          ∧ saved.RecurrenceType = some "monthly")
    ∧ (productHandler.Update "1" (some movingUpdateRequest) 20 pricedDB).2.products.map
          (fun p => (p.ID, p.CategoryID, p.SubcategoryID, p.RecurrenceType, p.DeletedAt))
        = [(1, 1, 1, some "monthly", none)]
    ∧ (productHandler.Update "1" (some monthlyUpdateRequest) 20 pricedDB).1.status = 200
    ∧ ∃ row ∈ (productHandler.Update "1" (some monthlyUpdateRequest) 20 pricedDB).2.products,
        ∃ c ∈ (productHandler.Update "1" (some monthlyUpdateRequest) 20 pricedDB).2.categories,
          row.DeletedAt = none ∧ c.DeletedAt = none ∧ c.ID = row.CategoryID
            ∧ c.Type_ = "one_time" ∧ row.RecurrenceType ≠ none := by
  refine ⟨fun product req now => ?_, fun repo service service' => rfl, ⟨rfl, rfl⟩, rfl,
    ⟨_, rfl, rfl, rfl, rfl⟩, rfl, rfl, by decide⟩
  unfold applyUpdate
  dsimp only
  split_ifs <;> exact ⟨rfl, rfl, rfl⟩

/-! ## Entities that are not found -/

/-- A soft delete that hits no row leaves the table as it was. -/
theorem softDelete_noop {ρ : Type} (rows : List ρ) (hit : ρ → Bool) (f : ρ → ρ)
    (hnone : (rows.filter hit).length = 0) :
    rows.map (fun r => if hit r = true then f r else r) = rows := by
  have hall : ∀ r ∈ rows, hit r = false := by
    intro r hr
    by_contra hc
    have hmem : r ∈ rows.filter hit := List.mem_filter.mpr ⟨hr, by simpa using hc⟩
    rw [List.length_eq_zero.mp hnone] at hmem
    exact absurd hmem (List.not_mem_nil r)
  calc rows.map (fun r => if hit r = true then f r else r)
      = rows.map id := List.map_congr_left (fun r hr => by simp [hall r hr])
    _ = rows := List.map_id rows

/-- No live row carries the key exactly when the soft delete affects no row. -/
theorem no_live_row_iff {ρ : Type} (rows : List ρ) (pk : ρ → Nat)
    (deletedAt : ρ → Option Time) (id : Nat) :
    (∀ r ∈ rows, deletedAt r = none → pk r ≠ id)
      ↔ (rows.filter (fun r => (deletedAt r).isNone && pk r == id)).length = 0 := by
  constructor
  · intro h
    rw [List.length_eq_zero, List.filter_eq_nil_iff]
    intro r hr hc
    simp only [Bool.and_eq_true, Option.isNone_iff_eq_none, beq_iff_eq] at hc
    exact h r hr hc.1 hc.2
  · intro h r hr hd hk
    rw [List.length_eq_zero, List.filter_eq_nil_iff] at h
    exact h r hr (by simp [hd, hk])

/-- `productRepository.Delete` on a reachable store: it returns "product not found" and
leaves the store as it was when no row is affected, and a nil error otherwise. -/
theorem productRepository_Delete_reachable {α : Type} (id : Nat) (db : DB α)
    (hup : db.fault = none) :
    ((db.products.filter (fun p => p.DeletedAt.isNone && p.ID == id)).length = 0 →
        productRepository.Delete id db = (some "product not found", db))
      ∧ ((db.products.filter (fun p => p.DeletedAt.isNone && p.ID == id)).length ≠ 0 →
        (productRepository.Delete id db).1 = none) := by
  constructor
  · intro h0
    unfold productRepository.Delete
    simp only [hup, h0, if_true]
    rw [softDelete_noop db.products _ _ h0, ← hup]
  · intro h0
    unfold productRepository.Delete
    simp only [hup, h0, if_false]

/-- `categoryRepository.Delete` on a reachable store: it returns "category not found" and
leaves the store as it was when no row is affected, and a nil error otherwise. -/
theorem categoryRepository_Delete_reachable {α : Type} (id : Nat) (db : DB α)
    (hup : db.fault = none) :
    ((db.categories.filter (fun c => c.DeletedAt.isNone && c.ID == id)).length = 0 →
        categoryRepository.Delete id db = (some "category not found", db))
      ∧ ((db.categories.filter (fun c => c.DeletedAt.isNone && c.ID == id)).length ≠ 0 →
        (categoryRepository.Delete id db).1 = none) := by
  constructor
  · intro h0
    unfold categoryRepository.Delete
    simp only [hup, h0, if_true]
    rw [softDelete_noop db.categories _ _ h0, ← hup]
  · intro h0
    unfold categoryRepository.Delete
    simp only [hup, h0, if_false]

/-- `subcategoryRepository.Delete` on a reachable store: it returns "subcategory not found"
and leaves the store as it was when no row is affected, and a nil error otherwise. -/
theorem subcategoryRepository_Delete_reachable {α : Type} (id : Nat) (db : DB α)
    (hup : db.fault = none) :
    ((db.subcategories.filter (fun c => c.DeletedAt.isNone && c.ID == id)).length = 0 →
        subcategoryRepository.Delete id db = (some "subcategory not found", db))
      ∧ ((db.subcategories.filter (fun c => c.DeletedAt.isNone && c.ID == id)).length ≠ 0 →
        (subcategoryRepository.Delete id db).1 = none) := by
  constructor
  · intro h0
    unfold subcategoryRepository.Delete
    simp only [hup, h0, if_true]
    rw [softDelete_noop db.subcategories _ _ h0, ← hup]
  · intro h0
    unfold subcategoryRepository.Delete
    simp only [hup, h0, if_false]

/-- `productRepository.Delete` fails, and leaves the store alone, for a key that no live
product carries. -/
theorem productRepository_Delete_missing {α : Type} (id : Nat) (db : DB α)
    (hmiss : ∀ c ∈ db.products, c.DeletedAt = none → c.ID ≠ id) :
    ∃ e, productRepository.Delete id db = (some e, db) := by
  cases hf : db.fault with
  | some err =>
    refine ⟨err, ?_⟩
    unfold productRepository.Delete
    rw [hf]
  | none =>
    exact ⟨_, (productRepository_Delete_reachable id db hf).1
      ((no_live_row_iff db.products Product.ID Product.DeletedAt id).mp hmiss)⟩

/-- `categoryRepository.Delete` fails, and leaves the store alone, for a key that no live
category carries. -/
theorem categoryRepository_Delete_missing {α : Type} (id : Nat) (db : DB α)
    (hmiss : ∀ c ∈ db.categories, c.DeletedAt = none → c.ID ≠ id) :
    ∃ e, categoryRepository.Delete id db = (some e, db) := by
  cases hf : db.fault with
  | some err =>
    refine ⟨err, ?_⟩
    unfold categoryRepository.Delete
    rw [hf]
  | none =>
    exact ⟨_, (categoryRepository_Delete_reachable id db hf).1
      ((no_live_row_iff db.categories Category.ID Category.DeletedAt id).mp hmiss)⟩

/-- `subcategoryRepository.Delete` fails, and leaves the store alone, for a key that no live
subcategory carries. -/
theorem subcategoryRepository_Delete_missing {α : Type} (id : Nat) (db : DB α)
    (hmiss : ∀ c ∈ db.subcategories, c.DeletedAt = none → c.ID ≠ id) :
    ∃ e, subcategoryRepository.Delete id db = (some e, db) := by
  cases hf : db.fault with
  | some err =>
    refine ⟨err, ?_⟩
    unfold subcategoryRepository.Delete
    rw [hf]
  | none =>
    exact ⟨_, (subcategoryRepository_Delete_reachable id db hf).1
      ((no_live_row_iff db.subcategories Subcategory.ID Subcategory.DeletedAt id).mp hmiss)⟩

/-- C17: for a well-formed key that no live category, subcategory or product carries, the
GetByID, Update and Delete handlers of that entity kind answer 404 and leave the store as it
was; and on a reachable store the repository `Delete` of each kind returns its not-found
error, leaving the store as it was, when no row is affected and a nil error when a row is
affected. -/
theorem missing_entity_is_404 {α : Type} [Zero α] [Add α] [Mul α] [Div α] [OfNat α 12]
    (db : DB α) (idParam : String) (id : Nat) (hparse : ParseUint idParam 32 = some id) :
    ((∀ c ∈ db.categories, c.DeletedAt = none → c.ID ≠ id) →
        categoryHandler.GetByID idParam db
            = ({ status := 404, body := TaxonomyBody.error "Category not found" }, db)
          ∧ (∀ body : Option UpdateCategoryRequest,
              categoryHandler.Update idParam body db
                = ({ status := 404, body := TaxonomyBody.error "Category not found" }, db))
          ∧ categoryHandler.Delete idParam db
            = ({ status := 404, body := TaxonomyBody.error "Category not found" }, db))
    ∧ ((∀ c ∈ db.subcategories, c.DeletedAt = none → c.ID ≠ id) →
        subcategoryHandler.GetByID idParam db
            = ({ status := 404, body := TaxonomyBody.error "Subcategory not found" }, db)
          ∧ (∀ body : Option UpdateSubcategoryRequest,
              subcategoryHandler.Update idParam body db
                = ({ status := 404, body := TaxonomyBody.error "Subcategory not found" },
                    db))
          ∧ subcategoryHandler.Delete idParam db
            = ({ status := 404, body := TaxonomyBody.error "Subcategory not found" }, db))
    ∧ ((∀ c ∈ db.products, c.DeletedAt = none → c.ID ≠ id) →
        productHandler.GetByID idParam db
            = ({ status := 404, body := Body.error "Product not found" }, db)
          ∧ (∀ (body : Option (UpdateProductRequest α)) (now : Time),
              productHandler.Update idParam body now db
                = ({ status := 404, body := Body.error "Product not found" }, db))
          ∧ productHandler.Delete idParam db
            = ({ status := 404, body := Body.error "Product not found" }, db))
    ∧ (db.fault = none →
        (((db.categories.filter (fun c => c.DeletedAt.isNone && c.ID == id)).length = 0 →
            categoryRepository.Delete id db = (some "category not found", db))
          ∧ ((db.categories.filter (fun c => c.DeletedAt.isNone && c.ID == id)).length ≠ 0 →
            (categoryRepository.Delete id db).1 = none))
        ∧ (((db.subcategories.filter (fun c => c.DeletedAt.isNone && c.ID == id)).length = 0 →
            subcategoryRepository.Delete id db = (some "subcategory not found", db))
          ∧ ((db.subcategories.filter
                (fun c => c.DeletedAt.isNone && c.ID == id)).length ≠ 0 →
            (subcategoryRepository.Delete id db).1 = none))
        ∧ (((db.products.filter (fun c => c.DeletedAt.isNone && c.ID == id)).length = 0 →
            productRepository.Delete id db = (some "product not found", db))
          ∧ ((db.products.filter (fun c => c.DeletedAt.isNone && c.ID == id)).length ≠ 0 →
            (productRepository.Delete id db).1 = none))) := by
  refine ⟨fun hmiss => ?_, fun hmiss => ?_, fun hmiss => ?_, fun hup =>
    ⟨categoryRepository_Delete_reachable id db hup,
      subcategoryRepository_Delete_reachable id db hup,
      productRepository_Delete_reachable id db hup⟩⟩
  · obtain ⟨e, he⟩ := categoryRepository_FindByID_missing id db hmiss
    obtain ⟨d, hd⟩ := categoryRepository_Delete_missing id db hmiss
    have hlook : categoryHandler.repo.FindByID id db = (Except.error e, db) := he
    have hdel : categoryHandler.repo.Delete id db = (some d, db) := hd
    refine ⟨?_, fun body => ?_, ?_⟩
    · unfold CategoryHandler.GetByID
      rw [hparse]
      simp only
      rw [hlook]
    · unfold CategoryHandler.Update
      rw [hparse]
      simp only
      rw [hlook]
    · unfold CategoryHandler.Delete
      rw [hparse]
      simp only
      rw [hdel]
  · obtain ⟨e, he⟩ := subcategoryRepository_FindByID_missing id db hmiss
    obtain ⟨d, hd⟩ := subcategoryRepository_Delete_missing id db hmiss
    have hlook : subcategoryHandler.repo.FindByID id db = (Except.error e, db) := he
    have hdel : subcategoryHandler.repo.Delete id db = (some d, db) := hd
    refine ⟨?_, fun body => ?_, ?_⟩
    · unfold SubcategoryHandler.GetByID
      rw [hparse]
      simp only
      rw [hlook]
    · unfold SubcategoryHandler.Update
      rw [hparse]
      simp only
      rw [hlook]
    · unfold SubcategoryHandler.Delete
      rw [hparse]
      simp only
      rw [hdel]
  · obtain ⟨e, he⟩ := productRepository_FindByID_missing id db hmiss
    obtain ⟨d, hd⟩ := productRepository_Delete_missing id db hmiss
    have hlook : productHandler.repo.FindByID id db = (Except.error e, db) := he
    have hdel : productHandler.repo.Delete id db = (some d, db) := hd
    refine ⟨?_, fun body now => ?_, ?_⟩
    · unfold ProductHandler.GetByID
      rw [hparse]
      simp only
      rw [hlook]
    · unfold ProductHandler.Update
      rw [hparse]
      simp only
      rw [hlook]
    · unfold ProductHandler.Delete
      rw [hparse]
      simp only
      rw [hdel]

/-- C17, on the store holding product 1, categories 1 and 2 and subcategories 1 and 2: key
42 is carried by no entity and is answered 404 by all nine handlers, `Delete` of product 42
returns "product not found" and `Delete` of product 1 returns a nil error. -/
theorem missing_entity_is_404_witness :
    categoryHandler.GetByID "42" pricedDB
        = ({ status := 404, body := TaxonomyBody.error "Category not found" }, pricedDB)
      ∧ subcategoryHandler.Update "42" (some { CategoryID := 1, Name := "x" }) pricedDB
        = ({ status := 404, body := TaxonomyBody.error "Subcategory not found" }, pricedDB)
      ∧ productHandler.Delete "42" pricedDB
        = ({ status := 404, body := Body.error "Product not found" }, pricedDB)
      ∧ productRepository.Delete 42 pricedDB = (some "product not found", pricedDB)
      ∧ (productRepository.Delete 1 pricedDB).1 = none := by
  obtain ⟨hc, hs, hp, hd⟩ := missing_entity_is_404 pricedDB "42" 42 rfl
  obtain ⟨_, _, _, hd1⟩ := missing_entity_is_404 pricedDB "1" 1 rfl
  exact ⟨(hc (by decide)).1, (hs (by decide)).2.1 _, (hp (by decide)).2.2,
    (hd rfl).2.2.1 rfl, (hd1 rfl).2.2.2 (by decide)⟩

/-! ## Relations between the aggregates and the order of the checks -/

/-- Over the rationals one round of the yearly loop is twelve times one round of the monthly
loop. -/
theorem yearlyStep_twelve (a : ℚ) (p : Product ℚ) :
    yearlyStep (12 * a) p = 12 * monthlyStep a p := by
  unfold yearlyStep monthlyStep
  cases p.Category with
  | none => rfl
  | some c =>
    cases p.RecurrenceType with
    | none => rfl
    | some r =>
      simp only
      by_cases ht : c.Type_ = "recurring"
      · by_cases hm : r = "monthly"
        · have hy : ¬ r = "yearly" := by rw [hm]; decide
          rw [if_pos ht, if_pos ht, if_neg hy, if_pos hm, if_pos hm]
          ring
        · by_cases hy : r = "yearly"
          · rw [if_pos ht, if_pos ht, if_pos hy, if_neg hm, if_pos hy]
            ring
          · rw [if_pos ht, if_pos ht, if_neg hy, if_neg hm, if_neg hm, if_neg hy]
      · rw [if_neg ht, if_neg ht]

/-- Over the rationals the yearly loop yields twelve times what the monthly loop yields on
the same list of products. -/
theorem foldl_yearlyStep_twelve (l : List (Product ℚ)) (a : ℚ) :
    l.foldl yearlyStep (12 * a) = 12 * l.foldl monthlyStep a := by
  induction l generalizing a with
  | nil => rfl
  | cons p l ih => rw [List.foldl_cons, List.foldl_cons, yearlyStep_twelve, ih]

/-- C18: under exact rational arithmetic, whenever `FindAll` returns the same product list
to both aggregates, whatever products it holds, `GetYearlyRecurringCost` is twelve times
`GetMonthlyRecurringCost`; this is so on every reachable GORM store. -/
theorem yearly_is_twelve_times_monthly {σ : Type} (s : productService σ ℚ) (st st1 : σ)
    (products : List (Product ℚ))
    (hfind : s.productRepo.FindAll st = (Except.ok products, st1)) :
    (∃ m : ℚ, s.GetMonthlyRecurringCost st = (Except.ok m, st1)
        ∧ s.GetYearlyRecurringCost st = (Except.ok (12 * m), st1))
    ∧ (∀ db : DB ℚ, db.fault = none →
        ∃ m : ℚ, gormService.GetMonthlyRecurringCost db = (Except.ok m, db)
          ∧ gormService.GetYearlyRecurringCost db = (Except.ok (12 * m), db)) := by
  have key : ∀ (τ : Type) (t : productService τ ℚ) (u u1 : τ) (l : List (Product ℚ)),
      t.productRepo.FindAll u = (Except.ok l, u1) →
      ∃ m : ℚ, t.GetMonthlyRecurringCost u = (Except.ok m, u1)
        ∧ t.GetYearlyRecurringCost u = (Except.ok (12 * m), u1) := by
    intro τ t u u1 l hl
    refine ⟨l.foldl monthlyStep 0, ?_, ?_⟩
    · unfold productService.GetMonthlyRecurringCost
      rw [hl]
    · unfold productService.GetYearlyRecurringCost
      rw [hl]
      simp only
      rw [← foldl_yearlyStep_twelve l 0, mul_zero]
  exact ⟨key σ s st st1 products hfind,
    fun db hup => key _ gormService db db db.collection (FindAll_eq db hup)⟩

/-- C18, on the store `mixedDB`, which holds products without recurrence type, with
recurrence "weekly" and of a missing category: the monthly cost is 22 and the yearly cost
264, twelve times as much. -/
theorem yearly_is_twelve_times_monthly_witness :
    gormService.GetMonthlyRecurringCost mixedDB = (Except.ok 22, mixedDB)
      ∧ gormService.GetYearlyRecurringCost mixedDB = (Except.ok (12 * 22), mixedDB) := by
  obtain ⟨m, hm, hy⟩ := (yearly_is_twelve_times_monthly gormService mixedDB mixedDB
    mixedDB.collection (FindAll_eq mixedDB rfl)).1
  have hsel : mixedDB.collection.filterMap specMonthlyShare = [120 / 12, 12] := rfl
  have h22 : gormService.GetMonthlyRecurringCost mixedDB = (Except.ok 22, mixedDB) := by
    unfold productService.GetMonthlyRecurringCost
    rw [show gormService.productRepo.FindAll mixedDB = productRepository.FindAll mixedDB
      from rfl, FindAll_eq mixedDB rfl]
    simp only
    rw [foldl_share monthlyStep specMonthlyShare monthlyStep_eq, hsel]
    norm_num
  have hm22 : m = 22 := by
    have := hm.symm.trans h22
    simpa using this
  rw [hm22] at hy
  exact ⟨h22, hy⟩

/-- C19: `CreateProduct` checks in a fixed order.  When the category lookup fails, with
whatever error, the result is "category not found" on the state that lookup left, whatever
the recurrence type of the product; when it succeeds and the subcategory lookup fails, with
whatever error, the result is "subcategory not found", whatever the recurrence type; and
when both succeed the result is that of the recurrence rule followed by
`productRepo.Create`. -/
theorem CreateProduct_check_order {σ α : Type} (s : productService σ α)
    (product : Product α) (st : σ) :
    (∀ (e : Error) (st1 : σ),
        s.categoryRepo.FindByID product.CategoryID st = (Except.error e, st1) →
        ∀ r : Option String,
          s.CreateProduct { product with RecurrenceType := r } st
            = ((some "category not found", { product with RecurrenceType := r }), st1))
    ∧ (∀ (category : Category) (e : Error) (st1 st2 : σ),
        s.categoryRepo.FindByID product.CategoryID st = (Except.ok category, st1) →
        s.subcategoryRepo.FindByID product.SubcategoryID st1 = (Except.error e, st2) →
        ∀ r : Option String,
          s.CreateProduct { product with RecurrenceType := r } st
            = ((some "subcategory not found", { product with RecurrenceType := r }), st2))
    ∧ (∀ (category : Category) (subcategory : Subcategory) (st1 st2 : σ),
        s.categoryRepo.FindByID product.CategoryID st = (Except.ok category, st1) →
        s.subcategoryRepo.FindByID product.SubcategoryID st1
          = (Except.ok subcategory, st2) →
        s.CreateProduct product st =
          if category.Type_ = "one_time" then
            if product.RecurrenceType ≠ none then
              ((some "one-time purchases cannot have recurrence type", product), st2)
            else s.productRepo.Create product st2
          else if category.Type_ = "recurring" then
            match product.RecurrenceType with
            | none => ((some "recurring purchases must have recurrence type", product), st2)
            | some r =>
              if r ≠ "monthly" ∧ r ≠ "yearly" then
                ((some "recurrence type must be 'monthly' or 'yearly'", product), st2)
              else s.productRepo.Create product st2
          else s.productRepo.Create product st2) := by
  refine ⟨fun e st1 hcat r => ?_, fun category e st1 st2 hcat hsub r => ?_,
    fun category subcategory st1 st2 hcat hsub =>
      CreateProduct_of_lookups s product st st1 st2 category subcategory hcat hsub⟩
  · unfold productService.CreateProduct
    simp only
    rw [hcat]
  · unfold productService.CreateProduct
    simp only
    rw [hcat]
    simp only
    rw [hsub]

/-- C19, on the seeded store and on the unreachable store: a product naming the missing
category 99 and the missing subcategory 77 with an invalid recurrence type is refused with
"category not found"; with the store unreachable the connection error of the lookup is
replaced by "category not found"; and with category 2 found, subcategory 77 is refused with
"subcategory not found" although the recurrence type is missing. -/
theorem CreateProduct_check_order_witness :
    (gormService.CreateProduct (newProduct 99 77 (some "weekly") 1 0 0) seededDB).1.1
        = some "category not found"
      ∧ (gormService.CreateProduct (newProduct 1 1 none 1 0 0) downDB).1.1
        = some "category not found"
      ∧ (gormService.CreateProduct (newProduct 2 77 none 1 0 0) seededDB).1.1
        = some "subcategory not found" := by
  have h1 := (CreateProduct_check_order gormService (newProduct 99 77 none 1 0 0)
    seededDB).1 "category not found" seededDB rfl (some "weekly")
  have h2 := (CreateProduct_check_order gormService (newProduct 1 1 none 1 0 0)
    downDB).1 "connection refused" downDB rfl none
  have h3 := (CreateProduct_check_order gormService (newProduct 2 77 none 1 0 0)
    seededDB).2.1 catRecurring "subcategory not found" seededDB seededDB rfl rfl none
  exact ⟨congrArg (fun x => x.1.1) h1, congrArg (fun x => x.1.1) h2,
    congrArg (fun x => x.1.1) h3⟩

/-- C20: `CreateProduct` does not read the subcategory it looks up: rewriting every
subcategory the lookup returns, its `category_id` included, changes nothing in the result.
On the seeded store a product of category 1 with subcategory 2, which belongs to category 2,
passes validation and is persisted with both keys. -/
theorem CreateProduct_ignores_subcategory_parent {σ α : Type} (s : productService σ α)
    (product : Product α) (st : σ) (f : Subcategory → Subcategory) :
    (s.mapSubcategories f).CreateProduct product st = s.CreateProduct product st
      ∧ subcategoryRepository.FindByID 2 seededDB
          = (Except.ok (seededDB.preloadSubcategory subTools), seededDB)
      ∧ (seededDB.preloadSubcategory subTools).CategoryID ≠ (newProduct 1 2 none 100 10 5).CategoryID
      ∧ (gormService.CreateProduct (newProduct 1 2 none 100 10 5) seededDB).1.1 = none
      ∧ (gormService.CreateProduct (newProduct 1 2 none 100 10 5) seededDB).2.products.map
          (fun p => (p.ID, p.CategoryID, p.SubcategoryID)) = [(1, 1, 2)] := by
  refine ⟨?_, rfl, by decide, rfl, rfl⟩
  unfold productService.CreateProduct
  rw [show (s.mapSubcategories f).categoryRepo = s.categoryRepo from rfl,
    show (s.mapSubcategories f).productRepo = s.productRepo from rfl]
  rcases hcat : s.categoryRepo.FindByID product.CategoryID st with ⟨rc, st1⟩
  cases rc with
  | error e => rfl
  | ok category =>
    simp only
    rw [show (s.mapSubcategories f).subcategoryRepo.FindByID product.SubcategoryID st1
      = (match (s.subcategoryRepo.FindByID product.SubcategoryID st1).1 with
          | Except.ok sub => Except.ok (f sub)
          | Except.error e => Except.error e,
         (s.subcategoryRepo.FindByID product.SubcategoryID st1).2) from rfl]
    rcases hsub : s.subcategoryRepo.FindByID product.SubcategoryID st1 with ⟨rs, st2⟩
    cases rs with
    | error e => rfl
    | ok sub => rfl

/-! ## The list filters -/

/-- The list handler under `pending=true`: the outcome of `FindPending`, whatever the other
two parameters. -/
theorem GetAll_pending {σ α : Type} (h : ProductHandler σ α) (c sc : String) (st : σ) :
    h.GetAll c sc "true" st = listResponse (h.repo.FindPending st) := by
  unfold ProductHandler.GetAll listResponse
  rw [if_pos rfl]

/-- The list handler without pending filter and with a well-formed `category_id`: the
outcome of `FindByCategoryID`, whatever `subcategory_id`. -/
theorem GetAll_category {σ α : Type} (h : ProductHandler σ α) (c sc pending : String)
    (id : Nat) (st : σ) (hp : pending ≠ "true") (hc : c ≠ "")
    (hparse : ParseUint c 32 = some id) :
    h.GetAll c sc pending st = listResponse (h.repo.FindByCategoryID id st) := by
  unfold ProductHandler.GetAll listResponse
  rw [if_neg hp, if_pos hc, hparse]

/-- The list handler without pending filter and with a malformed `category_id`: 400,
whatever `subcategory_id`. -/
theorem GetAll_category_malformed {σ α : Type} (h : ProductHandler σ α)
    (c sc pending : String) (st : σ) (hp : pending ≠ "true") (hc : c ≠ "")
    (hparse : ParseUint c 32 = none) :
    h.GetAll c sc pending st
      = ({ status := 400, body := Body.error "Invalid category_id parameter" }, st) := by
  unfold ProductHandler.GetAll
  rw [if_neg hp, if_pos hc, hparse]

/-- The list handler without pending and category filter and with a well-formed
`subcategory_id`: the outcome of `FindBySubcategoryID`. -/
theorem GetAll_subcategory {σ α : Type} (h : ProductHandler σ α) (sc pending : String)
    (id : Nat) (st : σ) (hp : pending ≠ "true") (hsc : sc ≠ "")
    (hparse : ParseUint sc 32 = some id) :
    h.GetAll "" sc pending st = listResponse (h.repo.FindBySubcategoryID id st) := by
  unfold ProductHandler.GetAll listResponse
  rw [if_neg hp, if_neg (by simp), if_pos hsc, hparse]

/-- The list handler without pending and category filter and with a malformed
`subcategory_id`: 400. -/
theorem GetAll_subcategory_malformed {σ α : Type} (h : ProductHandler σ α)
    (sc pending : String) (st : σ) (hp : pending ≠ "true") (hsc : sc ≠ "")
    (hparse : ParseUint sc 32 = none) :
    h.GetAll "" sc pending st
      = ({ status := 400, body := Body.error "Invalid subcategory_id parameter" }, st) := by
  unfold ProductHandler.GetAll
  rw [if_neg hp, if_neg (by simp), if_pos hsc, hparse]

/-- The list handler without any filter: the outcome of `FindAll`. -/
theorem GetAll_unfiltered {σ α : Type} (h : ProductHandler σ α) (pending : String) (st : σ)
    (hp : pending ≠ "true") :
    h.GetAll "" "" pending st = listResponse (h.repo.FindAll st) := by
  unfold ProductHandler.GetAll listResponse
  rw [if_neg hp, if_neg (by simp), if_neg (by simp)]

/-- C21, as stated, fails: without pending filter the non-empty `category_id` "abc" is
answered 400 "Invalid category_id parameter"; the answer is not the outcome of
`FindByCategoryID` for any key, which on this reachable store is a 200. -/
theorem list_malformed_category_is_400 :
    "abc" ≠ "" ∧ "" ≠ "true"
      ∧ productHandler.GetAll "abc" "" "" pricedDB
          = ({ status := 400, body := Body.error "Invalid category_id parameter" }, pricedDB)
      ∧ ∀ id : Nat,
          productHandler.GetAll "abc" "" "" pricedDB
            ≠ listResponse (productRepository.FindByCategoryID id pricedDB) := by
  refine ⟨by decide, by decide, rfl, fun id hEq => ?_⟩
  have h400 : (productHandler.GetAll "abc" "" "" pricedDB).1.status = 400 := rfl
  have h200 : (listResponse (productRepository.FindByCategoryID id pricedDB)).1.status
      = 200 := by
    unfold productRepository.FindByCategoryID gormFind
    rw [show pricedDB.fault = none from rfl]
    rfl
  rw [hEq, h200] at h400
  exact absurd h400 (by decide)

/-- C21, amended: the list filters are mutually exclusive with the precedence pending, then
`category_id`, then `subcategory_id`.  With `pending` equal to "true" the answer is the
outcome of `FindPending`, whatever the other two parameters, malformed or not.  With any
other `pending` value and a non-empty `category_id` the answer is the outcome of
`FindByCategoryID` when `category_id` is a well-formed key and 400 when it is malformed,
whatever `subcategory_id`.  Otherwise, with a non-empty `subcategory_id` the answer is the
outcome of `FindBySubcategoryID` when it is well formed and 400 when it is malformed.
Otherwise the answer is the outcome of `FindAll`. -/
theorem list_filter_precedence {σ α : Type} (h : ProductHandler σ α) (st : σ) :
    (∀ c sc : String, h.GetAll c sc "true" st = listResponse (h.repo.FindPending st))
    ∧ (∀ (c sc pending : String) (id : Nat), pending ≠ "true" → c ≠ "" →
        ParseUint c 32 = some id →
        h.GetAll c sc pending st = listResponse (h.repo.FindByCategoryID id st))
    ∧ (∀ c sc pending : String, pending ≠ "true" → c ≠ "" → ParseUint c 32 = none →
        h.GetAll c sc pending st
          = ({ status := 400, body := Body.error "Invalid category_id parameter" }, st))
    ∧ (∀ (sc pending : String) (id : Nat), pending ≠ "true" → sc ≠ "" →
        ParseUint sc 32 = some id →
        h.GetAll "" sc pending st = listResponse (h.repo.FindBySubcategoryID id st))
    ∧ (∀ sc pending : String, pending ≠ "true" → sc ≠ "" → ParseUint sc 32 = none →
        h.GetAll "" sc pending st
          = ({ status := 400, body := Body.error "Invalid subcategory_id parameter" }, st))
    ∧ (∀ pending : String, pending ≠ "true" →
        h.GetAll "" "" pending st = listResponse (h.repo.FindAll st)) :=
  ⟨fun c sc => GetAll_pending h c sc st,
   fun c sc pending id hp hc hparse => GetAll_category h c sc pending id st hp hc hparse,
   fun c sc pending hp hc hparse => GetAll_category_malformed h c sc pending st hp hc hparse,
   fun sc pending id hp hsc hparse => GetAll_subcategory h sc pending id st hp hsc hparse,
   fun sc pending hp hsc hparse => GetAll_subcategory_malformed h sc pending st hp hsc hparse,
   fun pending hp => GetAll_unfiltered h pending st hp⟩

/-- C21, amended, on the store `mixedDB`: `pending=true` wins over a malformed
`category_id`; `pending=TRUE` is no pending filter, so category 2 is listed although
`subcategory_id` is malformed; a malformed `category_id` and a malformed `subcategory_id` are
answered 400 in their own branch; subcategory 1 is listed when it is the only filter; and
without filter every live product is listed. -/
theorem list_filter_precedence_witness :
    productHandler.GetAll "abc" "xyz" "true" mixedDB
        = listResponse (productRepository.FindPending mixedDB)
      ∧ productHandler.GetAll "2" "xyz" "TRUE" mixedDB
        = listResponse (productRepository.FindByCategoryID 2 mixedDB)
      ∧ productHandler.GetAll "abc" "1" "" mixedDB
        = ({ status := 400, body := Body.error "Invalid category_id parameter" }, mixedDB)
      ∧ productHandler.GetAll "" "1" "false" mixedDB
        = listResponse (productRepository.FindBySubcategoryID 1 mixedDB)
      ∧ productHandler.GetAll "" "-1" "" mixedDB
        = ({ status := 400, body := Body.error "Invalid subcategory_id parameter" }, mixedDB)
      ∧ productHandler.GetAll "" "" "1" mixedDB
        = listResponse (productRepository.FindAll mixedDB) := by
  obtain ⟨h1, h2, h3, h4, h5, h6⟩ :=
    list_filter_precedence (productHandler : ProductHandler (DB ℚ) ℚ) mixedDB
  exact ⟨h1 "abc" "xyz", h2 "2" "xyz" "TRUE" 2 (by decide) (by decide) rfl,
    h3 "abc" "1" "" (by decide) (by decide) rfl,
    h4 "1" "false" 1 (by decide) (by decide) rfl,
    h5 "-1" "" (by decide) (by decide) rfl, h6 "1" (by decide)⟩

/-! ## Categories of another type -/

/-- C22: when the category lookup yields a category whose type is neither "one_time" nor
"recurring" and the subcategory lookup succeeds, `CreateProduct` applies no recurrence
check: for every recurrence type, null or any string, it returns exactly what
`productRepo.Create` returns for that product on the state the lookups left, and the
journal of `Create` calls grows by exactly that product. -/
theorem CreateProduct_other_type_unchecked {σ α : Type} (s : productService σ α)
    (product : Product α) (st st1 st2 : σ) (category : Category) (subcategory : Subcategory)
    (hcat : s.categoryRepo.FindByID product.CategoryID st = (Except.ok category, st1))
    (hsub : s.subcategoryRepo.FindByID product.SubcategoryID st1
      = (Except.ok subcategory, st2))
    (hone : category.Type_ ≠ "one_time") (hrec : category.Type_ ≠ "recurring")
    (r : Option String) :
    s.CreateProduct { product with RecurrenceType := r } st
        = s.productRepo.Create { product with RecurrenceType := r } st2
      ∧ ∀ calls : List (Product α),
          s.journalled.CreateProduct { product with RecurrenceType := r } (st, calls)
            = ((s.productRepo.Create { product with RecurrenceType := r } st2).1,
                ((s.productRepo.Create { product with RecurrenceType := r } st2).2,
                  calls ++ [{ product with RecurrenceType := r }])) := by
  have key : ∀ (τ : Type) (t : productService τ α) (u u1 u2 : τ),
      t.categoryRepo.FindByID product.CategoryID u = (Except.ok category, u1) →
      t.subcategoryRepo.FindByID product.SubcategoryID u1 = (Except.ok subcategory, u2) →
      t.CreateProduct { product with RecurrenceType := r } u
        = t.productRepo.Create { product with RecurrenceType := r } u2 := by
    intro τ t u u1 u2 h1 h2
    rw [CreateProduct_of_lookups t { product with RecurrenceType := r } u u1 u2 category
      subcategory h1 h2, if_neg hone, if_neg hrec]
  refine ⟨key σ s st st1 st2 hcat hsub, fun calls => ?_⟩
  rw [key _ s.journalled (st, calls) (st1, calls) (st2, calls)
    (journalled_category_lookup s _ st st1 category calls hcat)
    (journalled_subcategory_lookup s _ st1 st2 subcategory calls hsub)]
  rfl

/-- C22, on the store with the category of type "rental": a product without recurrence type
and one with recurrence "weekly" are both handed to `productRepository.Create` and stored. -/
theorem CreateProduct_other_type_unchecked_witness :
    gormService.CreateProduct (newProduct 3 1 none 50 0 0) legacyDB
        = productRepository.Create (newProduct 3 1 none 50 0 0) legacyDB
      ∧ gormService.CreateProduct (newProduct 3 1 (some "weekly") 50 0 0) legacyDB
        = productRepository.Create (newProduct 3 1 (some "weekly") 50 0 0) legacyDB
      ∧ (gormService.CreateProduct (newProduct 3 1 (some "weekly") 50 0 0) legacyDB).1.1
        = none
      ∧ (gormService.CreateProduct (newProduct 3 1 (some "weekly") 50 0 0)
            legacyDB).2.products.map (fun p => (p.ID, p.CategoryID, p.RecurrenceType))
        = [(1, 3, some "weekly")] :=
  ⟨(CreateProduct_other_type_unchecked gormService (newProduct 3 1 none 50 0 0) legacyDB
      legacyDB legacyDB catLegacy (legacyDB.preloadSubcategory subGaming) rfl rfl
      (by decide) (by decide) none).1,
   (CreateProduct_other_type_unchecked gormService (newProduct 3 1 none 50 0 0) legacyDB
      legacyDB legacyDB catLegacy (legacyDB.preloadSubcategory subGaming) rfl rfl
      (by decide) (by decide) (some "weekly")).1,
   rfl, rfl⟩

end BuyList
